import Mathlib

/-!
# Weather engine of `apps/openmw/mwworld/weather.cpp`

A shallow embedding of the regional weather selection (`RegionWeather`), of the moon model
(`MoonModel`), of the transition engine of `WeatherManager` (`addWeatherTransition`,
`updateWeatherTransitions`, `forceWeather`) and of its computation of the weather result
(`calculateResult`, `calculateTransitionResult`), followed by theorems about them.

Modelling conventions.

* C++ `float` values are exact rationals (`ℚ`): rounding, overflow, infinities and NaN are
  not represented. A float division whose divisor is zero has no value in this model
  (`fdiv` returns `none`), since IEEE arithmetic would produce an infinity or a NaN there;
  a plain `/` is written only where the divisor is a non-zero constant or where the
  condition guarding the division makes it non-zero.
* C++ `int` values (weather ids, day counts) are `Int`; the sentinel `invalidWeatherID`
  is `-1`. `unsigned int` values are `Nat` below `2 ^ 32`, with the wrap-around written out.
* `std::vector` is `List`; `v[i]` with `i` out of range, read or written, is undefined
  behaviour in C++ and is `none` here. A failed `assert` is `none` as well.
* A member function that assigns to members returns the object afterwards; a member that
  no assignment reaches keeps its value.
* `Misc::Rng::rollDice(100)` is an input of the function that calls it.
-/

namespace MWWorld

/-- The constant `invalidWeatherID` of the anonymous namespace of weather.cpp. -/
def invalidWeatherID : Int := -1

/-- An `osg::Vec4f` colour. -/
structure Vec4f where
  r : ℚ
  g : ℚ
  b : ℚ
  a : ℚ
deriving DecidableEq

/-- Float division `x / y` of the rational model: no value for a zero divisor. -/
def fdiv (x y : ℚ) : Option ℚ :=
  if y = 0 then none else some (x / y)

/-- The function `lerp (float x, float y, float factor)` of the anonymous namespace. -/
def lerp (x y factor : ℚ) : ℚ :=
  x * (1 - factor) + y * factor

namespace Vec4f

/-- The product `v * k` of an `osg::Vec4f` and a float. -/
def scale (v : Vec4f) (k : ℚ) : Vec4f :=
  { r := v.r * k, g := v.g * k, b := v.b * k, a := v.a * k }

/-- The sum `u + v` of two `osg::Vec4f`. -/
def add (u v : Vec4f) : Vec4f :=
  { r := u.r + v.r, g := u.g + v.g, b := u.b + v.b, a := u.a + v.a }

end Vec4f

/-- The function `lerp (const osg::Vec4f& x, const osg::Vec4f& y, float factor)` of the
anonymous namespace. -/
def lerpVec4f (x y : Vec4f) (factor : ℚ) : Vec4f :=
  (x.scale (1 - factor)).add (y.scale factor)

/-- The call `std::fmod(x, y)`: `x - n * y` where `n` is `x / y` with its fractional part
cut off (rounded toward zero). -/
def fmod (x y : ℚ) : ℚ :=
  x - (if 0 ≤ x / y then ⌊x / y⌋ else ⌈x / y⌉) * y

/-- The number of `unsigned int` values. -/
def uintSize : Nat := 2 ^ 32

/-- The conversion of an `int` to `unsigned int`. -/
def toUnsigned (i : Int) : Nat :=
  (i % (uintSize : Int)).toNat

/-- The 32-bit `int` that two's-complement arithmetic leaves for the mathematical result
`i`: a result above `INT_MAX` wraps around, so that `INT_MAX + 1` is `INT_MIN`. -/
def wrapInt (i : Int) : Int :=
  (i + 2 ^ 31) % 2 ^ 32 - 2 ^ 31

/-- Rounding of a rational to the nearest integer, a tie going to the even one. -/
def roundEven (x : ℚ) : Int :=
  let n := ⌊x⌋
  let r := x - n
  if r < 1 / 2 then n else if 1 / 2 < r then n + 1 else if n % 2 = 0 then n else n + 1

/-- The binary32 (`float`) value nearest to `x`, a tie going to the even significand: a
significand of 24 bits, with the exponent of `x` but not below -126, where the subnormal
spacing `2^-149` takes over. Magnitudes from `2^128` on, which `float` arithmetic turns into
an infinity, are rounded like the others: the range of `float` has no upper end here. -/
def f32 (x : ℚ) : ℚ :=
  if x = 0 then 0
  else
    let e := max (Int.log 2 |x|) (-126)
    (roundEven (x / 2 ^ (e - 23)) : ℚ) * 2 ^ (e - 23)

/-- The data members of class `Weather`, in the order its constructor initialises them. -/
structure Weather where
  mCloudTexture : String
  mSkySunriseColor : Vec4f
  mSkyDayColor : Vec4f
  mSkySunsetColor : Vec4f
  mSkyNightColor : Vec4f
  mFogSunriseColor : Vec4f
  mFogDayColor : Vec4f
  mFogSunsetColor : Vec4f
  mFogNightColor : Vec4f
  mAmbientSunriseColor : Vec4f
  mAmbientDayColor : Vec4f
  mAmbientSunsetColor : Vec4f
  mAmbientNightColor : Vec4f
  mSunSunriseColor : Vec4f
  mSunDayColor : Vec4f
  mSunSunsetColor : Vec4f
  mSunNightColor : Vec4f
  mLandFogDayDepth : ℚ
  mLandFogNightDepth : ℚ
  mSunDiscSunsetColor : Vec4f
  mWindSpeed : ℚ
  mCloudSpeed : ℚ
  mGlareView : ℚ
  mAmbientLoopSoundID : String
  mIsStorm : Bool
  mRainSpeed : ℚ
  mRainFrequency : ℚ
  mParticleEffect : String
  mRainEffect : String
  mTransitionDelta : ℚ
  mCloudsMaximumPercent : ℚ
deriving DecidableEq

/-- `Weather::transitionDelta`: the transition speed in Hz of real time. -/
def Weather.transitionDelta (w : Weather) : ℚ :=
  w.mTransitionDelta

/-- `Weather::cloudBlendFactor`: `transitionRatio / mCloudsMaximumPercent`. -/
def Weather.cloudBlendFactor (w : Weather) (transitionRatio : ℚ) : Option ℚ :=
  fdiv transitionRatio w.mCloudsMaximumPercent

/-- The data members of class `RegionWeather`: the selected id (or `invalidWeatherID`)
and the table of `char` weights. -/
structure RegionWeather where
  mWeather : Int
  mChances : List Int
deriving DecidableEq

namespace RegionWeather

/-- The `for` loop of `RegionWeather::chooseNewWeather`, started at index `i` with the
running total `sum`, over the entries of `mChances` from `i` on; returns the final `i`. -/
def chooseLoop (chance : Int) : List Int → Int → Nat → Nat
  | [], _, i => i
  | c :: rest, sum, i =>
    if chance ≤ sum + c then i else chooseLoop chance rest (sum + c) (i + 1)

/-- `RegionWeather::chooseNewWeather`; `roll` is the value of `Misc::Rng::rollDice(100)`. -/
def chooseNewWeather (r : RegionWeather) (roll : Int) : RegionWeather :=
  let chance := roll + 1
  { r with mWeather := (chooseLoop chance r.mChances 0 0 : Nat) }

/-- `RegionWeather::setWeather`. -/
def setWeather (r : RegionWeather) (weatherID : Int) : RegionWeather :=
  { r with mWeather := weatherID }

/-- `RegionWeather::getWeather`: the returned id and the region afterwards; `roll` is the
value `Misc::Rng::rollDice(100)` returns if the function draws. -/
def getWeather (r : RegionWeather) (roll : Int) : Int × RegionWeather :=
  let r' := if r.mWeather = invalidWeatherID then r.chooseNewWeather roll else r
  (r'.mWeather, r')

/-- The `for` loop of `RegionWeather::setChances`, started at index `i`: each value of
`chances` is written to `mChances[i]`; a write at `i >= mChances.size()` is out of bounds. -/
def setChancesLoop : List Int → Nat → List Int → Option (List Int)
  | [], _, mChances => some mChances
  | c :: rest, i, mChances =>
    if i < mChances.length then setChancesLoop rest (i + 1) (mChances.set i c) else none

/-- `RegionWeather::setChances`; `roll` is the value `Misc::Rng::rollDice(100)` returns if
the function draws. The call `mChances.reserve(chances.size())` changes the capacity only,
neither the size nor the contents, so it does not appear. In the test
`static_cast<size_t>(mWeather) >= mChances.size()` a negative `mWeather` converts to a
`size_t` above every vector size. -/
def setChances (r : RegionWeather) (chances : List Int) (roll : Int) :
    Option RegionWeather :=
  match setChancesLoop chances 0 r.mChances with
  | none => none
  | some written =>
    let r1 := { r with mChances := written }
    if r1.mWeather < 0 ∨ r1.mWeather.toNat ≥ r1.mChances.length
        ∨ r1.mChances[r1.mWeather.toNat]? = some 0 then
      some (r1.chooseNewWeather roll)
    else
      some r1

end RegionWeather

/-- Modelled from the spec: the declaration of class `TimeStamp` (timestamp.hpp) is not
among the sources. It holds what `getDay()` and `getHour()` return: the day count (an
`int`) and the in-game hour (a `float`). -/
structure TimeStamp where
  mDay : Int
  mHour : ℚ
deriving DecidableEq

/-- `TimeStamp::getDay`. -/
def TimeStamp.getDay (t : TimeStamp) : Int := t.mDay

/-- `TimeStamp::getHour`. -/
def TimeStamp.getHour (t : TimeStamp) : ℚ := t.mHour

/-- Modelled from the spec: the declaration of `MWRender::MoonState` (sky.hpp) is not among
the sources. Its five members, in the order `MoonModel::calculateState` initialises them,
are the rotation angle from the horizon, the axis offset, the phase index, the shadow blend
factor and the combined transparency. -/
structure MoonState where
  mRotationFromHorizon : ℚ
  mRotationFromNorth : ℚ
  mPhase : Nat
  mShadowBlend : ℚ
  mMoonAlpha : ℚ
deriving DecidableEq

/-- The data members of class `MoonModel`, in the order its constructor initialises them. -/
structure MoonModel where
  mFadeInStart : ℚ
  mFadeInFinish : ℚ
  mFadeOutStart : ℚ
  mFadeOutFinish : ℚ
  mAxisOffset : ℚ
  mSpeed : ℚ
  mDailyIncrement : ℚ
  mFadeStartAngle : ℚ
  mFadeEndAngle : ℚ
  mMoonShadowEarlyFadeAngle : ℚ
deriving DecidableEq

namespace MoonModel

/-- `MoonModel::moonRiseHour`; `daysPassed - 1 + startDay` is `unsigned int` arithmetic.
The conversion of that count to `float`, the product with `mDailyIncrement` and the final
sum are `float` operations, each rounded to binary32; `std::fmod` returns the exact
remainder, which is a `float` again. -/
def moonRiseHour (m : MoonModel) (daysPassed : Nat) : ℚ :=
  let startDay : Nat := 16
  f32 (m.mDailyIncrement
    + fmod (f32 (f32 (((daysPassed + (uintSize - 1)) % uintSize + startDay) % uintSize : Nat)
              * m.mDailyIncrement)) 24)

/-- `MoonModel::rotation`. -/
def rotation (m : MoonModel) (hours : ℚ) : ℚ :=
  15 * m.mSpeed * hours

/-- The part of `MoonModel::angle` before its last test: the value of `moonRiseAngleToday`
accumulated from yesterday's and today's moon rise. -/
def accumulatedAngle (m : MoonModel) (gameTime : TimeStamp) : ℚ :=
  let moonRiseHourToday := m.moonRiseHour (toUnsigned gameTime.getDay)
  if gameTime.getHour < moonRiseHourToday then
    let moonRiseHourYesterday := m.moonRiseHour (toUnsigned (gameTime.getDay - 1))
    if moonRiseHourYesterday < 24 then
      let moonRiseAngleYesterday := m.rotation (24 - moonRiseHourYesterday)
      if moonRiseAngleYesterday < 180 then
        m.rotation gameTime.getHour + moonRiseAngleYesterday
      else 0
    else 0
  else
    m.rotation (gameTime.getHour - moonRiseHourToday)

/-- `MoonModel::angle`: the accumulated angle, reset to 0 once the moon has set. -/
def angle (m : MoonModel) (gameTime : TimeStamp) : ℚ :=
  let moonRiseAngleToday := m.accumulatedAngle gameTime
  if moonRiseAngleToday ≥ 180 then 0 else moonRiseAngleToday

/-- `MoonModel::phase`: `int` division and remainder (rounded toward zero), the result
converted to `unsigned int`. The sum `getDay() + 1` is an `int` sum: past `INT_MAX` it wraps
around. -/
def phase (m : MoonModel) (gameTime : TimeStamp) : Nat :=
  if gameTime.getHour < m.moonRiseHour (toUnsigned gameTime.getDay) then
    toUnsigned ((gameTime.getDay.tdiv 3).tmod 8)
  else
    toUnsigned (((wrapInt (gameTime.getDay + 1)).tdiv 3).tmod 8)

/-- `MoonModel::shadowBlend`. -/
def shadowBlend (m : MoonModel) (angle : ℚ) : ℚ :=
  let fadeAngle := m.mFadeStartAngle - m.mFadeEndAngle
  let fadeEndAngle2 := 180 - m.mFadeEndAngle
  let fadeStartAngle2 := 180 - m.mFadeStartAngle
  if angle ≥ m.mFadeEndAngle ∧ angle < m.mFadeStartAngle then
    (angle - m.mFadeEndAngle) / fadeAngle
  else if angle ≥ m.mFadeStartAngle ∧ angle < fadeStartAngle2 then
    1
  else if angle ≥ fadeStartAngle2 ∧ angle < fadeEndAngle2 then
    (fadeEndAngle2 - angle) / fadeAngle
  else
    0

/-- `MoonModel::hourlyAlpha`. -/
def hourlyAlpha (m : MoonModel) (gameHour : ℚ) : ℚ :=
  if gameHour ≥ m.mFadeOutStart ∧ gameHour < m.mFadeOutFinish then
    (m.mFadeOutFinish - gameHour) / (m.mFadeOutFinish - m.mFadeOutStart)
  else if gameHour ≥ m.mFadeOutFinish ∧ gameHour < m.mFadeInStart then
    0
  else if gameHour ≥ m.mFadeInStart ∧ gameHour < m.mFadeInFinish then
    (gameHour - m.mFadeInStart) / (m.mFadeInFinish - m.mFadeInStart)
  else
    1

/-- `MoonModel::earlyMoonShadowAlpha`. -/
def earlyMoonShadowAlpha (m : MoonModel) (angle : ℚ) : ℚ :=
  let moonShadowEarlyFadeAngle1 := m.mFadeEndAngle - m.mMoonShadowEarlyFadeAngle
  let fadeEndAngle2 := 180 - m.mFadeEndAngle
  let moonShadowEarlyFadeAngle2 := fadeEndAngle2 + m.mMoonShadowEarlyFadeAngle
  if angle ≥ moonShadowEarlyFadeAngle1 ∧ angle < m.mFadeEndAngle then
    (angle - moonShadowEarlyFadeAngle1) / m.mMoonShadowEarlyFadeAngle
  else if angle ≥ m.mFadeEndAngle ∧ angle < fadeEndAngle2 then
    1
  else if angle ≥ fadeEndAngle2 ∧ angle < moonShadowEarlyFadeAngle2 then
    (moonShadowEarlyFadeAngle2 - angle) / m.mMoonShadowEarlyFadeAngle
  else
    0

/-- `MoonModel::calculateState`. -/
def calculateState (m : MoonModel) (gameTime : TimeStamp) : MoonState :=
  let rotationFromHorizon := m.angle gameTime
  { mRotationFromHorizon := rotationFromHorizon
    mRotationFromNorth := m.mAxisOffset
    mPhase := m.phase gameTime
    mShadowBlend := m.shadowBlend rotationFromHorizon
    mMoonAlpha := m.earlyMoonShadowAlpha rotationFromHorizon * m.hourlyAlpha gameTime.getHour }

end MoonModel

/-- The constructor `MoonModel::MoonModel`; `fallback` holds the ten values it reads with
`getFallbackFloat`, and the speed is replaced by `std::min(mSpeed, 180.0f / 23.0f)`. -/
def MoonModel.construct (fallback : MoonModel) : MoonModel :=
  { fallback with mSpeed := min fallback.mSpeed (180 / 23) }

/-- An `osg::Vec3f`. -/
structure Vec3f where
  x : ℚ
  y : ℚ
  z : ℚ
deriving DecidableEq

/-- The difference `u - v` of two `osg::Vec3f`. -/
def Vec3f.sub (u v : Vec3f) : Vec3f :=
  { x := u.x - v.x, y := u.y - v.y, z := u.z - v.z }

/-- Modelled from the spec: the declaration of `ESM::Region` (components/esm) is not among
the sources. It holds what weather.cpp reads of a region record: its id and the ten base
weights of `mData`, which are `char` values. -/
structure ESMRegion where
  mId : String
  mClear : Int
  mCloudy : Int
  mFoggy : Int
  mOvercast : Int
  mRain : Int
  mThunder : Int
  mAsh : Int
  mBlight : Int
  mA : Int
  mB : Int
deriving DecidableEq

/-- Modelled from the spec: the declaration of `ESM::RegionWeatherState`
(components/esm/weatherstate.hpp) is not among the sources. Its two members, in the order
the conversion operator of `RegionWeather` initialises them, are the selected weather id
and the probability weights. -/
structure RegionWeatherState where
  mWeather : Int
  mChances : List Int
deriving DecidableEq

namespace RegionWeather

/-- The constructor `RegionWeather::RegionWeather(const ESM::Region&)`. -/
def fromRegion (region : ESMRegion) : RegionWeather :=
  { mWeather := invalidWeatherID
    mChances := [region.mClear, region.mCloudy, region.mFoggy, region.mOvercast,
      region.mRain, region.mThunder, region.mAsh, region.mBlight, region.mA, region.mB] }

/-- The constructor `RegionWeather::RegionWeather(const ESM::RegionWeatherState&)`. -/
def fromState (state : RegionWeatherState) : RegionWeather :=
  { mWeather := state.mWeather, mChances := state.mChances }

/-- The conversion `RegionWeather::operator ESM::RegionWeatherState()`. -/
def toState (r : RegionWeather) : RegionWeatherState :=
  { mWeather := r.mWeather, mChances := r.mChances }

end RegionWeather

/-- Modelled from the spec: `Misc::StringUtils::lowerCase` (components/misc) is not among
the sources. Region identifiers are normalised to lowercase before lookup: every character
from `A` to `Z` is replaced by its lowercase letter, every other character is kept. -/
def lowerCase (s : String) : String :=
  String.mk (s.data.map Char.toLower)

/-- The call `find(key)` on a `std::map<std::string, V>`, kept as the list of its entries:
the value stored under `key`, if any. The order of the entries plays no part. -/
def mapFind {V : Type} : List (String × V) → String → Option V
  | [], _ => none
  | (k, v) :: rest, key => if k = key then some v else mapFind rest key

/-- The call `insert(std::make_pair(key, value))` on a `std::map`: a new entry unless the
key is present already, in which case the map is left as it is. -/
def mapInsert {V : Type} (entries : List (String × V)) (key : String) (value : V) :
    List (String × V) :=
  match mapFind entries key with
  | some _ => entries
  | none => entries ++ [(key, value)]

/-- The assignment `it->second = value` through the iterator that `find(key)` returned:
the entry under `key` gets the new value. -/
def mapSet {V : Type} : List (String × V) → String → V → List (String × V)
  | [], _, _ => []
  | (k, v) :: rest, key, value =>
    if k = key then (k, value) :: rest else (k, v) :: mapSet rest key value

/-- Modelled from the spec: the declaration of `ESM::WeatherState`
(components/esm/weatherstate.hpp) is not among the sources. Its members are the ones
`WeatherManager::write` fills in: the current region id, the accumulated hours, the
fast-forward flag, the reroll countdown, the transition factor, the current, next and
queued weather ids, and the regions by id. -/
structure WeatherState where
  mCurrentRegion : String
  mTimePassed : ℚ
  mFastForward : Bool
  mWeatherUpdateTime : ℚ
  mTransitionFactor : ℚ
  mCurrentWeather : Int
  mNextWeather : Int
  mQueuedWeather : Int
  mRegions : List (String × RegionWeatherState)
deriving DecidableEq

/-- Modelled from the spec: the class `ESM::ESMReader` is not among the sources. Of a
reader positioned on a record, `readRecord` uses the format version (`getFormat()`) and
the weather state that `ESM::WeatherState::load` reads from it. -/
structure ESMReader where
  mFormat : Int
  mState : WeatherState
deriving DecidableEq

/-- Modelled from the spec: the constant `ESM::REC_WTHR` (components/esm/defs.hpp) is not
among the sources; it is the type tag of the weather record, the four characters WTHR. -/
def REC_WTHR : Nat := 0x52485457

/-- What `readRecord` did with the reader: nothing, `skipRecord()`, or the `load` of a
weather state. -/
inductive ReaderUse where
  | untouched
  | skipped
  | loaded
deriving DecidableEq

/-- Modelled from the spec: the class `MWSound::Sound` behind `MWBase::SoundPtr` is not
among the sources. A playing sound is known by the id it was started with and carries the
volume last set on it. -/
structure Sound where
  mSoundId : String
  mVolume : ℚ
deriving DecidableEq

/-- Modelled from the spec: `MWBase::Environment`, the world, the player and the sound
manager are not among the sources. These are the values weather.cpp asks of them: the
time stamp, whether the cell is exterior or quasi-exterior, whether the player is in a
cell, the region id of the player's cell, the player's position, whether the sound manager
hands back a sound from `playSound` (a `SoundPtr` that is not null), and the library
function `osg::Vec3f::normalize`, which needs a square root. -/
structure Environment where
  mTimeStamp : TimeStamp
  mCellExterior : Bool
  mCellQuasiExterior : Bool
  mPlayerInCell : Bool
  mPlayerRegion : String
  mPlayerPosition : Vec3f
  mSoundPlays : Bool
  mNormalize : Vec3f → Vec3f

/-- Modelled from the spec: the declaration of `MWRender::WeatherResult` (sky.hpp) is not
among the sources. Its members are the ones weather.cpp reads and writes: the resolved
colours, cloud textures and blend factor, fog depth, wind and cloud speed, glare, night
fade, storm flag, rain and particle parameters, ambient sound id and volume, effect fade
and the night flag. `mCloudBlendFactor` is `none` when the float has no rational value (a
division by a zero `mCloudsMaximumPercent`). -/
structure WeatherResult where
  mCloudTexture : String
  mNextCloudTexture : String
  mCloudBlendFactor : Option ℚ
  mFogColor : Vec4f
  mAmbientColor : Vec4f
  mSkyColor : Vec4f
  mSunColor : Vec4f
  mSunDiscColor : Vec4f
  mFogDepth : ℚ
  mWindSpeed : ℚ
  mCloudSpeed : ℚ
  mGlareView : ℚ
  mNight : Bool
  mNightFade : ℚ
  mIsStorm : Bool
  mAmbientLoopSoundID : String
  mAmbientSoundVolume : ℚ
  mParticleEffect : String
  mRainEffect : String
  mEffectFade : ℚ
  mRainSpeed : ℚ
  mRainFrequency : ℚ
deriving DecidableEq

/-- A call that `WeatherManager` makes on the rendering manager, the sky manager or the
sound manager, with the values it passes. Of `setSunDirection` the argument kept is
`theta / pi`, since the direction itself is its cosine and sine; it is `none` when the
length of the day or of the night it is divided by is zero. -/
inductive Call where
  | setSkyEnabled (enabled : Bool)
  | setStormDirection (direction : Vec3f)
  | configureFog (depth : ℚ) (colour : Vec4f)
  | sunDisable
  | sunEnable
  | setSunDirection (thetaOverPi : Option ℚ)
  | setMasserState (state : MoonState)
  | setSecundaState (state : MoonState)
  | setAmbientColour (colour : Vec4f)
  | setSunColour (colour : Vec4f)
  | setWeather (result : WeatherResult)
  | playSound (soundId : String) (loop : Bool)
  | stopSound (sound : Sound)
deriving DecidableEq

/-- The data members of class `WeatherManager`, in the order its constructor initialises
them. `mStore` holds the region records of the store it refers to; the rendering manager
it refers to is not a member here: the calls made on it are returned by the functions
that make them. -/
structure WeatherManager where
  mStore : List ESMRegion
  mSunriseTime : ℚ
  mSunsetTime : ℚ
  mSunriseDuration : ℚ
  mSunsetDuration : ℚ
  mNightStart : ℚ
  mNightEnd : ℚ
  mDayStart : ℚ
  mDayEnd : ℚ
  mHoursBetweenWeatherChanges : ℚ
  mRainSpeed : ℚ
  mWeatherSettings : List Weather
  mMasser : MoonModel
  mSecunda : MoonModel
  mThunderFrequency : ℚ
  mThunderThreshold : ℚ
  mThunderSoundID0 : String
  mThunderSoundID1 : String
  mThunderSoundID2 : String
  mThunderSoundID3 : String
  mWindSpeed : ℚ
  mIsStorm : Bool
  mStormDirection : Vec3f
  mThunderSoundDelay : ℚ
  mThunderFlash : ℚ
  mThunderChance : ℚ
  mThunderChanceNeeded : ℚ
  mCurrentRegion : String
  mTimePassed : ℚ
  mFastForward : Bool
  mWeatherUpdateTime : ℚ
  mTransitionFactor : ℚ
  mCurrentWeather : Int
  mNextWeather : Int
  mQueuedWeather : Int
  mRegions : List (String × RegionWeather)
  mResult : WeatherResult
  mAmbientSound : Option Sound
  mPlayingSoundID : String
deriving DecidableEq

/-- The expression `mWeatherSettings[id]` for an `int` id: no value out of range. -/
def weatherSetting (settings : List Weather) (id : Int) : Option Weather :=
  if 0 ≤ id then settings[id.toNat]? else none

/-- The condition of the `assert` of `addWeatherTransition`:
`weatherID >= 0 && static_cast<size_t>(weatherID) < mWeatherSettings.size()`. -/
def validWeatherID (settings : List Weather) (weatherID : Int) : Prop :=
  0 ≤ weatherID ∧ weatherID.toNat < settings.length

instance (settings : List Weather) (weatherID : Int) :
    Decidable (validWeatherID settings weatherID) :=
  inferInstanceAs (Decidable (0 ≤ weatherID ∧ weatherID.toNat < settings.length))

namespace WeatherManager

/-- `WeatherManager::inTransition`. -/
def inTransition (m : WeatherManager) : Bool :=
  m.mNextWeather != invalidWeatherID

/-- `WeatherManager::forceWeather`. -/
def forceWeather (m : WeatherManager) (weatherID : Int) : WeatherManager :=
  { m with
    mTransitionFactor := 0
    mCurrentWeather := weatherID
    mNextWeather := invalidWeatherID
    mQueuedWeather := invalidWeatherID }

/-- `WeatherManager::addWeatherTransition`; `none` when its `assert` fails. -/
def addWeatherTransition (m : WeatherManager) (weatherID : Int) : Option WeatherManager :=
  if validWeatherID m.mWeatherSettings weatherID then
    if !m.inTransition && weatherID != m.mCurrentWeather then
      some { m with mNextWeather := weatherID, mTransitionFactor := 1 }
    else if m.inTransition && weatherID != m.mNextWeather then
      some { m with mQueuedWeather := weatherID }
    else
      some m
  else
    none

/-- `WeatherManager::updateWeatherTransitions`, its `float` arithmetic taken as exact
(`updateWeatherTransitionsFloat` below rounds it). -/
def updateWeatherTransitions (m : WeatherManager) (elapsedRealSeconds : ℚ) :
    Option WeatherManager :=
  if !m.mFastForward && m.inTransition then
    match weatherSetting m.mWeatherSettings m.mNextWeather with
    | none => none
    | some next =>
      let delta := next.transitionDelta
      let m1 := { m with mTransitionFactor := m.mTransitionFactor - elapsedRealSeconds * delta }
      if m1.mTransitionFactor ≤ 0 then
        let m2 := { m1 with
          mCurrentWeather := m1.mNextWeather
          mNextWeather := m1.mQueuedWeather
          mQueuedWeather := invalidWeatherID }
        if m2.inTransition then
          match weatherSetting m2.mWeatherSettings m2.mNextWeather with
          | none => none
          | some queued =>
            let newDelta := queued.transitionDelta
            match fdiv m2.mTransitionFactor delta with
            | none => none
            | some q =>
              let remainingSeconds := -q
              some { m2 with mTransitionFactor := 1 - remainingSeconds * newDelta }
        else
          some { m2 with mTransitionFactor := 0 }
      else
        some m1
  else
    let m1 :=
      if m.mQueuedWeather ≠ invalidWeatherID then
        { m with mCurrentWeather := m.mQueuedWeather }
      else if m.mNextWeather ≠ invalidWeatherID then
        { m with mCurrentWeather := m.mNextWeather }
      else
        m
    some { m1 with
      mNextWeather := invalidWeatherID
      mQueuedWeather := invalidWeatherID
      mFastForward := false }

/-- `WeatherManager::updateWeatherTransitions` with its `float` arithmetic rounded: the
product `elapsedRealSeconds * delta`, the difference written back to `mTransitionFactor`,
the quotient `mTransitionFactor / delta`, the product `remainingSeconds * newDelta` and the
difference `1.0f - ...` are each rounded to binary32 (the negation is exact). The statements
and branches are those of `updateWeatherTransitions`, which takes the same arithmetic as
exact. -/
def updateWeatherTransitionsFloat (m : WeatherManager) (elapsedRealSeconds : ℚ) :
    Option WeatherManager :=
  if !m.mFastForward && m.inTransition then
    match weatherSetting m.mWeatherSettings m.mNextWeather with
    | none => none
    | some next =>
      let delta := next.transitionDelta
      let m1 := { m with
        mTransitionFactor := f32 (m.mTransitionFactor - f32 (elapsedRealSeconds * delta)) }
      if m1.mTransitionFactor ≤ 0 then
        let m2 := { m1 with
          mCurrentWeather := m1.mNextWeather
          mNextWeather := m1.mQueuedWeather
          mQueuedWeather := invalidWeatherID }
        if m2.inTransition then
          match weatherSetting m2.mWeatherSettings m2.mNextWeather with
          | none => none
          | some queued =>
            let newDelta := queued.transitionDelta
            match fdiv m2.mTransitionFactor delta with
            | none => none
            | some q =>
              let remainingSeconds := -(f32 q)
              some { m2 with mTransitionFactor := f32 (1 - f32 (remainingSeconds * newDelta)) }
        else
          some { m2 with mTransitionFactor := 0 }
      else
        some m1
  else
    let m1 :=
      if m.mQueuedWeather ≠ invalidWeatherID then
        { m with mCurrentWeather := m.mQueuedWeather }
      else if m.mNextWeather ≠ invalidWeatherID then
        { m with mCurrentWeather := m.mNextWeather }
      else
        m
    some { m1 with
      mNextWeather := invalidWeatherID
      mQueuedWeather := invalidWeatherID
      mFastForward := false }

/-- `WeatherManager::advanceTime`. -/
def advanceTime (m : WeatherManager) (hours : ℚ) (incremental : Bool) : WeatherManager :=
  { m with
    mTimePassed := m.mTimePassed + hours
    mFastForward := if !incremental then true else m.mFastForward }

/-- The night branch of `calculateResult`. -/
def nightResult (current : Weather) (r : WeatherResult) : WeatherResult :=
  { r with
    mFogColor := current.mFogNightColor
    mAmbientColor := current.mAmbientNightColor
    mSunColor := current.mSunNightColor
    mSkyColor := current.mSkyNightColor
    mNightFade := 1 }

/-- The sunrise branch of `calculateResult`. -/
def sunriseResult (m : WeatherManager) (current : Weather) (gameHour : ℚ)
    (r : WeatherResult) : WeatherResult :=
  if gameHour ≤ m.mSunriseTime then
    let advance := m.mSunriseTime - gameHour
    let factor := advance / (1 / 2)
    { r with
      mFogColor := lerpVec4f current.mFogSunriseColor current.mFogNightColor factor
      mAmbientColor := lerpVec4f current.mAmbientSunriseColor current.mAmbientNightColor factor
      mSunColor := lerpVec4f current.mSunSunriseColor current.mSunNightColor factor
      mSkyColor := lerpVec4f current.mSkySunriseColor current.mSkyNightColor factor
      mNightFade := factor }
  else
    let advance := gameHour - m.mSunriseTime
    let factor := advance / 3
    { r with
      mFogColor := lerpVec4f current.mFogSunriseColor current.mFogDayColor factor
      mAmbientColor := lerpVec4f current.mAmbientSunriseColor current.mAmbientDayColor factor
      mSunColor := lerpVec4f current.mSunSunriseColor current.mSunDayColor factor
      mSkyColor := lerpVec4f current.mSkySunriseColor current.mSkyDayColor factor }

/-- The day branch of `calculateResult`. -/
def dayResult (current : Weather) (r : WeatherResult) : WeatherResult :=
  { r with
    mFogColor := current.mFogDayColor
    mAmbientColor := current.mAmbientDayColor
    mSunColor := current.mSunDayColor
    mSkyColor := current.mSkyDayColor }

/-- The sunset branch of `calculateResult`. -/
def sunsetResult (m : WeatherManager) (current : Weather) (gameHour : ℚ)
    (r : WeatherResult) : WeatherResult :=
  if gameHour ≤ m.mDayEnd + 1 then
    let advance := (m.mDayEnd + 1) - gameHour
    let factor := advance / 2
    { r with
      mFogColor := lerpVec4f current.mFogSunsetColor current.mFogDayColor factor
      mAmbientColor := lerpVec4f current.mAmbientSunsetColor current.mAmbientDayColor factor
      mSunColor := lerpVec4f current.mSunSunsetColor current.mSunDayColor factor
      mSkyColor := lerpVec4f current.mSkySunsetColor current.mSkyDayColor factor }
  else
    let advance := gameHour - (m.mDayEnd + 1)
    let factor := advance / 2
    { r with
      mFogColor := lerpVec4f current.mFogSunsetColor current.mFogNightColor factor
      mAmbientColor := lerpVec4f current.mAmbientSunsetColor current.mAmbientNightColor factor
      mSunColor := lerpVec4f current.mSunSunsetColor current.mSunNightColor factor
      mSkyColor := lerpVec4f current.mSkySunsetColor current.mSkyNightColor factor
      mNightFade := factor }

/-- The body of `WeatherManager::calculateResult` once `current` is bound to the profile
`mWeatherSettings[weatherID]`: the assignments to `mResult`, in order, starting from the
value `prev` that `mResult` holds on entry; a member that no assignment reaches keeps the
value it had. -/
def calculateResultFor (m : WeatherManager) (prev : WeatherResult) (current : Weather)
    (gameHour : ℚ) : WeatherResult :=
  let night : Bool := decide (gameHour < m.mSunriseTime ∨ gameHour > m.mNightStart - 1)
  let r0 : WeatherResult := { prev with
    mCloudTexture := current.mCloudTexture
    mCloudBlendFactor := some 0
    mWindSpeed := current.mWindSpeed
    mCloudSpeed := current.mCloudSpeed
    mGlareView := current.mGlareView
    mAmbientLoopSoundID := current.mAmbientLoopSoundID
    mAmbientSoundVolume := 1
    mEffectFade := 1
    mSunColor := current.mSunDiscSunsetColor
    mIsStorm := current.mIsStorm
    mRainSpeed := current.mRainSpeed
    mRainFrequency := current.mRainFrequency
    mParticleEffect := current.mParticleEffect
    mRainEffect := current.mRainEffect
    mNight := night
    mFogDepth := if night then current.mLandFogNightDepth else current.mLandFogDayDepth }
  if gameHour ≤ m.mNightEnd ∨ gameHour ≥ m.mNightStart + 1 then
    nightResult current r0
  else if gameHour ≥ m.mNightEnd ∧ gameHour ≤ m.mDayStart + 1 then
    sunriseResult m current gameHour r0
  else if gameHour ≥ m.mDayStart + 1 ∧ gameHour ≤ m.mDayEnd - 1 then
    dayResult current r0
  else if gameHour ≥ m.mDayEnd - 1 ∧ gameHour ≤ m.mNightStart + 1 then
    sunsetResult m current gameHour r0
  else
    r0

/-- `WeatherManager::calculateResult`. -/
def calculateResult (m : WeatherManager) (weatherID : Int) (gameHour : ℚ) :
    Option WeatherManager :=
  match weatherSetting m.mWeatherSettings weatherID with
  | none => none
  | some current =>
    some { m with mResult := m.calculateResultFor m.mResult current gameHour }

/-- `WeatherManager::calculateTransitionResult`. -/
def calculateTransitionResult (m : WeatherManager) (factor : ℚ) (gameHour : ℚ) :
    Option WeatherManager :=
  match m.calculateResult m.mCurrentWeather gameHour with
  | none => none
  | some m1 =>
    let current := m1.mResult
    match m1.calculateResult m1.mNextWeather gameHour with
    | none => none
    | some m2 =>
      let other := m2.mResult
      match weatherSetting m2.mWeatherSettings m2.mNextWeather with
      | none => none
      | some next =>
        let r0 : WeatherResult := { m2.mResult with
          mCloudTexture := current.mCloudTexture
          mNextCloudTexture := other.mCloudTexture
          mCloudBlendFactor := next.cloudBlendFactor factor
          mFogColor := lerpVec4f current.mFogColor other.mFogColor factor
          mSunColor := lerpVec4f current.mSunColor other.mSunColor factor
          mSkyColor := lerpVec4f current.mSkyColor other.mSkyColor factor
          mAmbientColor := lerpVec4f current.mAmbientColor other.mAmbientColor factor
          mSunDiscColor := lerpVec4f current.mSunDiscColor other.mSunDiscColor factor
          mFogDepth := lerp current.mFogDepth other.mFogDepth factor
          mWindSpeed := lerp current.mWindSpeed other.mWindSpeed factor
          mCloudSpeed := lerp current.mCloudSpeed other.mCloudSpeed factor
          mGlareView := lerp current.mGlareView other.mGlareView factor
          mNightFade := lerp current.mNightFade other.mNightFade factor
          mNight := current.mNight }
        let r1 : WeatherResult :=
          if factor < 1 / 2 then
            { r0 with
              mIsStorm := current.mIsStorm
              mParticleEffect := current.mParticleEffect
              mRainEffect := current.mRainEffect
              mRainSpeed := current.mRainSpeed
              mRainFrequency := current.mRainFrequency
              mAmbientSoundVolume := 1 - factor * 2
              mEffectFade := 1 - factor * 2
              mAmbientLoopSoundID := current.mAmbientLoopSoundID }
          else
            { r0 with
              mIsStorm := other.mIsStorm
              mParticleEffect := other.mParticleEffect
              mRainEffect := other.mRainEffect
              mRainSpeed := other.mRainSpeed
              mRainFrequency := other.mRainFrequency
              mAmbientSoundVolume := 2 * (factor - 1 / 2)
              mEffectFade := 2 * (factor - 1 / 2)
              mAmbientLoopSoundID := other.mAmbientLoopSoundID }
        some { m2 with mResult := r1 }

/-- `WeatherManager::calculateWeatherResult`. -/
def calculateWeatherResult (m : WeatherManager) (gameHour : ℚ) : Option WeatherManager :=
  if !m.inTransition then
    m.calculateResult m.mCurrentWeather gameHour
  else
    m.calculateTransitionResult (1 - m.mTransitionFactor) gameHour

/-- `WeatherManager::stopSounds`: the manager afterwards and the calls made. -/
def stopSounds (m : WeatherManager) : WeatherManager × List Call :=
  match m.mAmbientSound with
  | some sound => ({ m with mAmbientSound := none, mPlayingSoundID := "" }, [Call.stopSound sound])
  | none => (m, [])

/-- The loop of `WeatherManager::importRegions`, which is also the loop of the
constructor: every region of the store is inserted under its lowercased id. -/
def insertRegions (store : List ESMRegion) (regions : List (String × RegionWeather)) :
    List (String × RegionWeather) :=
  store.foldl (fun acc region => mapInsert acc (lowerCase region.mId)
    (RegionWeather.fromRegion region)) regions

/-- `WeatherManager::importRegions`. -/
def importRegions (m : WeatherManager) : WeatherManager :=
  { m with mRegions := insertRegions m.mStore m.mRegions }

/-- The body of the constructor `WeatherManager::WeatherManager`, applied to the manager
`initialised` that its initialiser list and its ten `addWeather` calls produce from the
fallback values (with an empty region table): the regions of the store are inserted and
`forceWeather(0)` is called. -/
def construct (initialised : WeatherManager) : WeatherManager :=
  ({ initialised with mRegions := insertRegions initialised.mStore [] }).forceWeather 0

/-- `WeatherManager::regionalWeatherChanged`, called with the key and the entry of a
region of the table: the manager and the entry afterwards; `roll` is the value
`rollDice(100)` returns if `getWeather` draws. -/
def regionalWeatherChanged (m : WeatherManager) (env : Environment) (regionID : String)
    (region : RegionWeather) (roll : Int) : Option (WeatherManager × RegionWeather) :=
  if env.mPlayerInCell then
    let playerRegion := lowerCase env.mPlayerRegion
    if playerRegion ≠ "" ∧ playerRegion = regionID then
      match m.addWeatherTransition (region.getWeather roll).1 with
      | none => none
      | some m1 => some (m1, (region.getWeather roll).2)
    else
      some (m, region)
  else
    some (m, region)

/-- `WeatherManager::changeWeather`; `weatherID` is an `unsigned int`. -/
def changeWeather (m : WeatherManager) (env : Environment) (regionID : String)
    (weatherID : Nat) (roll : Int) : Option WeatherManager :=
  if weatherID < m.mWeatherSettings.length then
    let lowerCaseRegionID := lowerCase regionID
    match mapFind m.mRegions lowerCaseRegionID with
    | none => some m
    | some region =>
      match m.regionalWeatherChanged env lowerCaseRegionID (region.setWeather weatherID) roll with
      | none => none
      | some (m1, region1) =>
        some { m1 with mRegions := mapSet m1.mRegions lowerCaseRegionID region1 }
  else
    some m

/-- `WeatherManager::modRegion`; `roll` is the value `rollDice(100)` returns if
`setChances` draws, `roll2` the one it returns if `getWeather` draws. -/
def modRegion (m : WeatherManager) (env : Environment) (regionID : String)
    (chances : List Int) (roll roll2 : Int) : Option WeatherManager :=
  let lowerCaseRegionID := lowerCase regionID
  match mapFind m.mRegions lowerCaseRegionID with
  | none => some m
  | some region =>
    match region.setChances chances roll with
    | none => none
    | some region1 =>
      match m.regionalWeatherChanged env lowerCaseRegionID region1 roll2 with
      | none => none
      | some (m1, region2) =>
        some { m1 with mRegions := mapSet m1.mRegions lowerCaseRegionID region2 }

/-- `WeatherManager::playerTeleported`. -/
def playerTeleported (m : WeatherManager) (env : Environment) (roll : Int) :
    WeatherManager :=
  if env.mCellExterior || env.mCellQuasiExterior then
    let playerRegion := lowerCase env.mPlayerRegion
    match mapFind m.mRegions playerRegion with
    | none => m
    | some region =>
      if playerRegion ≠ m.mCurrentRegion then
        ({ m with
            mCurrentRegion := playerRegion
            mRegions := mapSet m.mRegions playerRegion (region.getWeather roll).2 }).forceWeather
          (region.getWeather roll).1
      else
        m
  else
    m

/-- `WeatherManager::updateWeatherTime`: the value returned and the manager afterwards. -/
def updateWeatherTime (m : WeatherManager) : Bool × WeatherManager :=
  let m1 := { m with
    mWeatherUpdateTime := m.mWeatherUpdateTime - m.mTimePassed
    mTimePassed := 0 }
  if m1.mWeatherUpdateTime ≤ 0 then
    (true, { m1 with
      mRegions := m1.mRegions.map (fun entry => (entry.1, entry.2.setWeather invalidWeatherID))
      mWeatherUpdateTime := m1.mWeatherUpdateTime + m1.mHoursBetweenWeatherChanges })
  else
    (false, m1)

/-- `WeatherManager::updateWeatherRegion`: the value returned and the manager afterwards. -/
def updateWeatherRegion (m : WeatherManager) (playerRegion : String) :
    Bool × WeatherManager :=
  if playerRegion ≠ "" ∧ playerRegion ≠ m.mCurrentRegion then
    (true, { m with mCurrentRegion := playerRegion })
  else
    (false, m)

/-- The test `updateWeatherTime() || updateWeatherRegion(playerRegion)` of `update`:
`updateWeatherRegion` is called only when `updateWeatherTime` has returned false. -/
def updateWeatherTimeOrRegion (m : WeatherManager) (playerRegion : String) :
    Bool × WeatherManager :=
  if (m.updateWeatherTime).1 then
    (true, (m.updateWeatherTime).2)
  else
    (m.updateWeatherTime).2.updateWeatherRegion playerRegion

/-- The transition, if any, that the first `if(!paused)` block of `update` adds: the
manager after the test on time and region, and, when the test holds and the current region
is in the table, the manager with that region's `getWeather()` applied together with the
id it returned, which `update` passes to `addWeatherTransition`. -/
def updateRequest (m : WeatherManager) (env : Environment) (roll : Int) :
    WeatherManager × Option Int :=
  let playerRegion := lowerCase env.mPlayerRegion
  let m1 := (m.updateWeatherTimeOrRegion playerRegion).2
  if (m.updateWeatherTimeOrRegion playerRegion).1 then
    match mapFind m1.mRegions m1.mCurrentRegion with
    | none => (m1, none)
    | some region =>
      ({ m1 with mRegions := mapSet m1.mRegions m1.mCurrentRegion (region.getWeather roll).2 },
        some (region.getWeather roll).1)
  else
    (m1, none)

/-- The first `if(!paused)` block of `WeatherManager::update`: a new transition when the
reroll countdown lapses or the player's region changes, then `updateWeatherTransitions`. -/
def updateWeather (m : WeatherManager) (env : Environment) (duration : ℚ) (roll : Int) :
    Option WeatherManager :=
  match (m.updateRequest env roll).2 with
  | none => (m.updateRequest env roll).1.updateWeatherTransitions duration
  | some weatherID =>
    match (m.updateRequest env roll).1.addWeatherTransition weatherID with
    | none => none
    | some m1 => m1.updateWeatherTransitions duration

/-- The thunder sound that `update` picks for the value `sound` of `rollDice(4)`; none for
a value outside 0..3, where `soundName` stays null. -/
def thunderSoundName (m : WeatherManager) (sound : Int) : Option String :=
  if sound = 0 then some m.mThunderSoundID0
  else if sound = 1 then some m.mThunderSoundID1
  else if sound = 2 then some m.mThunderSoundID2
  else if sound = 3 then some m.mThunderSoundID3
  else none

/-- The branch `mThunderFlash > 0` of the thunder of `update`: the sound after its delay,
then the decrease of the flash and the reset of the threshold and of the chance. -/
def thunderActive (m : WeatherManager) (duration : ℚ) (soundRoll chanceRoll : Int) :
    WeatherManager × List Call :=
  let m1 : WeatherManager := { m with mThunderSoundDelay := m.mThunderSoundDelay - duration }
  let played : WeatherManager × List Call :=
    if m1.mThunderSoundDelay ≤ (0 : ℚ) then
      ({ m1 with mThunderSoundDelay := 1000 },
        ((m1.thunderSoundName soundRoll).map (fun name => Call.playSound name false)).toList)
    else
      (m1, [])
  ({ played.1 with
      mThunderFlash := played.1.mThunderFlash - duration
      mThunderChanceNeeded := (chanceRoll : ℚ)
      mThunderChance := 0 },
    played.2)

/-- The branch "no thunder active" of the thunder of `update`. -/
def thunderIdle (m : WeatherManager) (duration : ℚ) : WeatherManager :=
  let m1 : WeatherManager := { m with mThunderChance := m.mThunderChance + duration * 4 }
  if m1.mThunderChance ≥ m1.mThunderChanceNeeded then
    { m1 with mThunderFlash := m1.mThunderThreshold, mThunderSoundDelay := 1 / 4 }
  else
    m1

/-- The second `if (!paused)` block of `WeatherManager::update`, the thunder: the manager
afterwards and the calls made; `soundRoll` is the value of `rollDice(4)` and `chanceRoll`
the value of `rollDice(100)`. -/
def updateThunder (m : WeatherManager) (duration : ℚ) (soundRoll chanceRoll : Int) :
    WeatherManager × List Call :=
  if m.mCurrentWeather = 5 ∧ m.inTransition = false then
    if m.mThunderFlash > 0 then
      m.thunderActive duration soundRoll chanceRoll
    else
      (m.thunderIdle duration, [])
  else
    (m, [])

/-- The angle `theta` of the sun that `update` computes, divided by pi. -/
def sunThetaOverPi (m : WeatherManager) (hour : ℚ) : Option ℚ :=
  let adjustedHour := if hour < m.mSunriseTime then hour + 24 else hour
  let adjustedNightStart :=
    if m.mNightStart < m.mSunriseTime then m.mNightStart + 24 else m.mNightStart
  let is_night : Bool := decide (adjustedHour ≥ adjustedNightStart)
  let dayDuration := adjustedNightStart - m.mSunriseTime
  let nightDuration := 24 - dayDuration
  if !is_night then
    fdiv (adjustedHour - m.mSunriseTime) dayDuration
  else
    fdiv (adjustedHour - adjustedNightStart) nightDuration

/-- The last part of `WeatherManager::update`, "Play sounds": the manager afterwards and
the calls made. -/
def updateAmbientSound (m : WeatherManager) (env : Environment) :
    WeatherManager × List Call :=
  let switched : WeatherManager × List Call :=
    if m.mPlayingSoundID ≠ m.mResult.mAmbientLoopSoundID then
      let m1 := (m.stopSounds).1
      let started : WeatherManager × List Call :=
        if m1.mResult.mAmbientLoopSoundID ≠ "" then
          ({ m1 with mAmbientSound :=
              if env.mSoundPlays then some { mSoundId := m1.mResult.mAmbientLoopSoundID, mVolume := 1 }
              else none },
            [Call.playSound m1.mResult.mAmbientLoopSoundID true])
        else
          (m1, [])
      ({ started.1 with mPlayingSoundID := started.1.mResult.mAmbientLoopSoundID },
        (m.stopSounds).2 ++ started.2)
    else
      (m, [])
  ({ switched.1 with
      mAmbientSound := switched.1.mAmbientSound.map
        (fun sound => { sound with mVolume := switched.1.mResult.mAmbientSoundVolume }) },
    switched.2)

/-- The part of `WeatherManager::update` that runs in an exterior, from
`calculateWeatherResult` on: the manager afterwards and the calls made, in order. -/
def updateExterior (m : WeatherManager) (env : Environment) (duration : ℚ) (paused : Bool)
    (soundRoll chanceRoll : Int) : Option (WeatherManager × List Call) :=
  let time := env.mTimeStamp
  match m.calculateWeatherResult time.getHour with
  | none => none
  | some m1 =>
    let m2 := { m1 with mWindSpeed := m1.mResult.mWindSpeed, mIsStorm := m1.mResult.mIsStorm }
    let redMountainPos : Vec3f := ⟨19950, 72032, 27831⟩
    let stormed : WeatherManager × List Call :=
      if m2.mIsStorm then
        let direction := env.mNormalize { env.mPlayerPosition.sub redMountainPos with z := 0 }
        ({ m2 with mStormDirection := direction }, [Call.setStormDirection direction])
      else
        (m2, [])
    let m3 := stormed.1
    let sun : Call :=
      if time.getHour ≥ m3.mNightStart ∨ time.getHour ≤ m3.mSunriseTime then Call.sunDisable
      else Call.sunEnable
    let thunder : WeatherManager × List Call :=
      if !paused then m3.updateThunder duration soundRoll chanceRoll else (m3, [])
    let m4 := thunder.1
    let sounds := m4.updateAmbientSound env
    some (sounds.1,
      stormed.2
        ++ [Call.configureFog m3.mResult.mFogDepth m3.mResult.mFogColor, sun,
            Call.setSunDirection (m3.sunThetaOverPi time.getHour),
            Call.setMasserState (m3.mMasser.calculateState time),
            Call.setSecundaState (m3.mSecunda.calculateState time)]
        ++ thunder.2
        ++ [Call.setAmbientColour m4.mResult.mAmbientColor,
            Call.setSunColour m4.mResult.mSunColor, Call.setWeather m4.mResult]
        ++ sounds.2)

/-- `WeatherManager::update`: the manager afterwards and the calls made on the rendering,
sky and sound managers, in order; `weatherRoll` is the value `rollDice(100)` returns if a
region draws its weather, `soundRoll` the value of `rollDice(4)` and `chanceRoll` the value
of `rollDice(100)` in the thunder. -/
def update (m : WeatherManager) (env : Environment) (duration : ℚ) (paused : Bool)
    (weatherRoll soundRoll chanceRoll : Int) : Option (WeatherManager × List Call) :=
  match (if !paused then m.updateWeather env duration weatherRoll else some m) with
  | none => none
  | some m1 =>
    let exterior : Bool := env.mCellExterior || env.mCellQuasiExterior
    if !exterior then
      some ((m1.stopSounds).1, Call.setSkyEnabled false :: (m1.stopSounds).2)
    else
      m1.updateExterior env duration paused soundRoll chanceRoll

/-- The loop of `WeatherManager::write`: every region of the table is inserted into the
regions of the weather state under its key, converted to its saved form. -/
def saveRegions (regions : List (String × RegionWeather)) :
    List (String × RegionWeatherState) :=
  regions.foldl (fun acc entry => mapInsert acc entry.1 entry.2.toState) []

/-- The loop of `WeatherManager::readRecord`: every region of the weather state is
inserted into the emptied table under its key. -/
def loadRegions (regions : List (String × RegionWeatherState)) :
    List (String × RegionWeather) :=
  regions.foldl (fun acc entry => mapInsert acc entry.1 (RegionWeather.fromState entry.2)) []

/-- `WeatherManager::write`: the weather state handed to `ESM::WeatherState::save`. -/
def write (m : WeatherManager) : WeatherState :=
  { mCurrentRegion := m.mCurrentRegion
    mTimePassed := m.mTimePassed
    mFastForward := m.mFastForward
    mWeatherUpdateTime := m.mWeatherUpdateTime
    mTransitionFactor := m.mTransitionFactor
    mCurrentWeather := m.mCurrentWeather
    mNextWeather := m.mNextWeather
    mQueuedWeather := m.mQueuedWeather
    mRegions := saveRegions m.mRegions }

/-- `WeatherManager::readRecord`: the value returned, the manager afterwards and what was
done with the reader. -/
def readRecord (m : WeatherManager) (reader : ESMReader) (type : Nat) :
    Bool × WeatherManager × ReaderUse :=
  if REC_WTHR = type then
    let oldestCompatibleSaveFormat : Int := 2
    if reader.mFormat < oldestCompatibleSaveFormat then
      (true, m, ReaderUse.skipped)
    else
      let state := reader.mState
      let m1 := { m with
        mCurrentRegion := state.mCurrentRegion
        mTimePassed := state.mTimePassed
        mFastForward := state.mFastForward
        mWeatherUpdateTime := state.mWeatherUpdateTime
        mTransitionFactor := state.mTransitionFactor
        mCurrentWeather := state.mCurrentWeather
        mNextWeather := state.mNextWeather
        mQueuedWeather := state.mQueuedWeather
        mRegions := [] }
      if state.mRegions = [] then
        (true, m1.importRegions, ReaderUse.loaded)
      else
        (true, { m1 with mRegions := loadRegions state.mRegions }, ReaderUse.loaded)
  else
    (false, m, ReaderUse.untouched)

/-- `WeatherManager::clear`: the manager afterwards and the calls made. -/
def clear (m : WeatherManager) : WeatherManager × List Call :=
  let m0 : WeatherManager := (m.stopSounds).1
  let m1 : WeatherManager := { m0 with
    mThunderFlash := 0
    mThunderChance := 0
    mThunderChanceNeeded := 50
    mCurrentRegion := ""
    mTimePassed := 0
    mWeatherUpdateTime := 0 }
  let m2 : WeatherManager := m1.forceWeather 0
  (({ m2 with mRegions := [] } : WeatherManager).importRegions, (m.stopSounds).2)

/-- Successive calls of `updateWeatherTransitions`, one for each elapsed time of the
list, with nothing else in between. -/
def updateAll (m : WeatherManager) : List ℚ → Option WeatherManager
  | [] => some m
  | e :: es => (m.updateWeatherTransitions e).bind (fun m' => updateAll m' es)

/-- Successive calls of `updateWeatherTransitionsFloat`, one for each elapsed time of the
list, with nothing else in between. -/
def updateAllFloat (m : WeatherManager) : List ℚ → Option WeatherManager
  | [] => some m
  | e :: es => (m.updateWeatherTransitionsFloat e).bind (fun m' => updateAllFloat m' es)

/-- Successive calls of `addWeatherTransition`, one for each id of the list, with nothing
else in between. -/
def addAll (m : WeatherManager) : List Int → Option WeatherManager
  | [] => some m
  | id :: ids => (m.addWeatherTransition id).bind (fun m' => addAll m' ids)

end WeatherManager

/-- The sum `chances[0] + ... + chances[i]` of the weights up to and including index `i`. -/
def prefixSum (chances : List Int) (i : Nat) : Int :=
  (chances.take (i + 1)).sum

/-- A region with no weather selected and the weights 50 (Clear), 50 (Cloudy), 0, ... -/
def ascadianIsles : RegionWeather :=
  { mWeather := invalidWeatherID, mChances := [50, 50, 0, 0, 0, 0, 0, 0, 0, 0] }

/-- A region whose selected weather is 1 (Cloudy), with the weights 50, 50, 0, ... -/
def cloudyRegion : RegionWeather :=
  { mWeather := 1, mChances := [50, 50, 0, 0, 0, 0, 0, 0, 0, 0] }

/-- A region with no weather selected whose ten weights sum to 20 only. -/
def sparseRegion : RegionWeather :=
  { mWeather := invalidWeatherID, mChances := [10, 10, 0, 0, 0, 0, 0, 0, 0, 0] }

/-- Two results agree on the members that `calculateTransitionResult` blends between the
current and the next weather and that the profiles determine: the fog, sun, sky and ambient
colours, the fog depth, the wind speed, the cloud speed, the glare and the night fade. -/
def sameBlendedFields (r r' : WeatherResult) : Prop :=
  r.mFogColor = r'.mFogColor ∧ r.mSunColor = r'.mSunColor ∧ r.mSkyColor = r'.mSkyColor ∧
  r.mAmbientColor = r'.mAmbientColor ∧ r.mFogDepth = r'.mFogDepth ∧
  r.mWindSpeed = r'.mWindSpeed ∧ r.mCloudSpeed = r'.mCloudSpeed ∧
  r.mGlareView = r'.mGlareView ∧ r.mNightFade = r'.mNightFade

/-- Eleven weights: 0, 100, 0, ... -/
def elevenChances : List Int :=
  [0, 100, 0, 0, 0, 0, 0, 0, 0, 0, 0]

/-- A profile whose transition speed is `delta`; every other parameter is zero or empty. -/
def profileWithDelta (delta : ℚ) : Weather :=
  let c : Vec4f := ⟨0, 0, 0, 0⟩
  { mCloudTexture := "", mSkySunriseColor := c, mSkyDayColor := c, mSkySunsetColor := c,
    mSkyNightColor := c, mFogSunriseColor := c, mFogDayColor := c, mFogSunsetColor := c,
    mFogNightColor := c, mAmbientSunriseColor := c, mAmbientDayColor := c,
    mAmbientSunsetColor := c, mAmbientNightColor := c, mSunSunriseColor := c,
    mSunDayColor := c, mSunSunsetColor := c, mSunNightColor := c, mLandFogDayDepth := 0,
    mLandFogNightDepth := 0, mSunDiscSunsetColor := c, mWindSpeed := 0, mCloudSpeed := 0,
    mGlareView := 0, mAmbientLoopSoundID := "", mIsStorm := false, mRainSpeed := 0,
    mRainFrequency := 0, mParticleEffect := "", mRainEffect := "",
    mTransitionDelta := delta, mCloudsMaximumPercent := 1 }

/-- A profile whose colours and numbers are all `x`, with the sound id `sound`, no texture
and no effect, and the storm flag clear. -/
def flatProfile (x : ℚ) (sound : String) : Weather :=
  let c : Vec4f := ⟨x, x, x, x⟩
  { mCloudTexture := "", mSkySunriseColor := c, mSkyDayColor := c, mSkySunsetColor := c,
    mSkyNightColor := c, mFogSunriseColor := c, mFogDayColor := c, mFogSunsetColor := c,
    mFogNightColor := c, mAmbientSunriseColor := c, mAmbientDayColor := c,
    mAmbientSunsetColor := c, mAmbientNightColor := c, mSunSunriseColor := c,
    mSunDayColor := c, mSunSunsetColor := c, mSunNightColor := c, mLandFogDayDepth := x,
    mLandFogNightDepth := x, mSunDiscSunsetColor := c, mWindSpeed := x, mCloudSpeed := x,
    mGlareView := x, mAmbientLoopSoundID := sound, mIsStorm := false, mRainSpeed := x,
    mRainFrequency := x, mParticleEffect := "", mRainEffect := "",
    mTransitionDelta := x, mCloudsMaximumPercent := 1 }

/-- Two profiles: all numbers 1 with no sound, and all numbers 3 with the sound "rain". -/
def twoProfiles : List Weather :=
  [flatProfile 1 "", flatProfile 3 "rain"]

/-- Ten profiles (as many as the constructor of `WeatherManager` adds), each with
transition speed `delta`. -/
def tenProfiles (delta : ℚ) : List Weather :=
  List.replicate 10 (profileWithDelta delta)

/-- A moon model with the fade hours 14, 15, 7, 10, axis offset 35, speed 1/2, daily
increment 1, fade angles 50 (start) and 40 (end) and early shadow fade angle 1/2. -/
def sampleMoon : MoonModel :=
  { mFadeInStart := 14, mFadeInFinish := 15, mFadeOutStart := 7, mFadeOutFinish := 10,
    mAxisOffset := 35, mSpeed := 1 / 2, mDailyIncrement := 1, mFadeStartAngle := 50,
    mFadeEndAngle := 40, mMoonShadowEarlyFadeAngle := 1 / 2 }

/-- A result whose numbers are all `x`, with no texture, effect or sound and both flags
clear. -/
def flatResult (x : ℚ) : WeatherResult :=
  let c : Vec4f := ⟨x, x, x, x⟩
  { mCloudTexture := "", mNextCloudTexture := "", mCloudBlendFactor := some x,
    mFogColor := c, mAmbientColor := c, mSkyColor := c, mSunColor := c, mSunDiscColor := c,
    mFogDepth := x, mWindSpeed := x, mCloudSpeed := x, mGlareView := x, mNight := false,
    mNightFade := x, mIsStorm := false, mAmbientLoopSoundID := "", mAmbientSoundVolume := x,
    mParticleEffect := "", mRainEffect := "", mEffectFade := x, mRainSpeed := x,
    mRainFrequency := x }

/-- An engine over the given profiles with the given fast-forward flag, factor and
current, next and queued ids; sunrise at 6 and sunset at 18, both lasting 2 hours; no
region in the store or in the table, no accumulated time, every number of the result 0,
no thunder under way (threshold 1/2, chance needed 50) and no sound playing. -/
def engineOver (settings : List Weather) (fastForward : Bool) (factor : ℚ)
    (current next queued : Int) : WeatherManager :=
  { mStore := [],
    mSunriseTime := 6, mSunsetTime := 18, mSunriseDuration := 2, mSunsetDuration := 2,
    mNightStart := 18 + 2, mNightEnd := 6 - 1 / 2, mDayStart := 6 + 2, mDayEnd := 18,
    mHoursBetweenWeatherChanges := 20, mRainSpeed := 0, mWeatherSettings := settings,
    mMasser := sampleMoon, mSecunda := sampleMoon,
    mThunderFrequency := 2 / 5, mThunderThreshold := 1 / 2,
    mThunderSoundID0 := "Thunder0", mThunderSoundID1 := "Thunder1",
    mThunderSoundID2 := "Thunder2", mThunderSoundID3 := "Thunder3",
    mWindSpeed := 0, mIsStorm := false, mStormDirection := ⟨0, 1, 0⟩,
    mThunderSoundDelay := 1 / 4, mThunderFlash := 0, mThunderChance := 0,
    mThunderChanceNeeded := 50,
    mCurrentRegion := "", mTimePassed := 0, mFastForward := fastForward,
    mWeatherUpdateTime := 20, mTransitionFactor := factor, mCurrentWeather := current,
    mNextWeather := next, mQueuedWeather := queued, mRegions := [],
    mResult := flatResult 0, mAmbientSound := none, mPlayingSoundID := "" }

/-- An engine over `tenProfiles delta`. -/
def engine (delta : ℚ) (fastForward : Bool) (factor : ℚ) (current next queued : Int) :
    WeatherManager :=
  engineOver (tenProfiles delta) fastForward factor current next queued

/-- An environment at day 5, hour 12, with the player in a cell of the region
`playerRegion` at the origin; `exterior` tells whether that cell is an exterior,
`soundPlays` whether `playSound` hands back a sound. Vectors are left as they are by
`mNormalize`. -/
def sampleEnvironment (playerRegion : String) (exterior soundPlays : Bool) : Environment :=
  { mTimeStamp := { mDay := 5, mHour := 12 }, mCellExterior := exterior,
    mCellQuasiExterior := false, mPlayerInCell := true, mPlayerRegion := playerRegion,
    mPlayerPosition := ⟨0, 0, 0⟩, mSoundPlays := soundPlays, mNormalize := fun v => v }

/-- The engine `engine delta fastForward factor current next queued` with one region in
its table, under the key "ascadian isles": no weather selected, weights 50, 50, 0, ... -/
def engineInRegion (delta : ℚ) (fastForward : Bool) (factor : ℚ)
    (current next queued : Int) : WeatherManager :=
  { engineOver (List.replicate 10 (profileWithDelta delta)) fastForward factor current next
      queued with mRegions := [("ascadian isles", ascadianIsles)] }

/-- The members of a manager that hold the weather itself: the profiles, the region table,
the tracked region, the accumulated hours, the fast-forward flag, the reroll countdown and
its period, the transition factor and the current, next and queued ids. -/
def weatherPart (m : WeatherManager) :
    List Weather × List (String × RegionWeather) × String × ℚ × Bool × ℚ × ℚ × ℚ × Int × Int
      × Int :=
  (m.mWeatherSettings, m.mRegions, m.mCurrentRegion, m.mTimePassed, m.mFastForward,
    m.mWeatherUpdateTime, m.mHoursBetweenWeatherChanges, m.mTransitionFactor,
    m.mCurrentWeather, m.mNextWeather, m.mQueuedWeather)

/-- The members of a manager that hold what is shown: the weather result, the wind speed,
the storm flag, the storm direction, and the thunder (sound delay, flash, chance and
chance needed). -/
def displayPart (m : WeatherManager) : WeatherResult × ℚ × Bool × Vec3f × ℚ × ℚ × ℚ × ℚ :=
  (m.mResult, m.mWindSpeed, m.mIsStorm, m.mStormDirection, m.mThunderSoundDelay,
    m.mThunderFlash, m.mThunderChance, m.mThunderChanceNeeded)

/-- A manager Steady on the second of `twoProfiles`, whose sound is "rain"; `sound` and
`playing` are its `mAmbientSound` and `mPlayingSoundID`. -/
def rainEngine (sound : Option Sound) (playing : String) : WeatherManager :=
  { engineOver twoProfiles false 0 1 invalidWeatherID invalidWeatherID with
    mAmbientSound := sound, mPlayingSoundID := playing }

/-- The engine of `engineInRegion` once its region has the weather `selected` set. -/
def engineSelected (delta : ℚ) (fastForward : Bool) (factor : ℚ)
    (current next queued selected : Int) : WeatherManager :=
  { engineInRegion delta fastForward factor current next queued with
    mRegions := [("ascadian isles", ascadianIsles.setWeather selected)] }

/-- A probability table as many entries long as there are profiles, with no negative
weight and with the weights summing to 100. -/
def wellFormedTable (settings : List Weather) (chances : List Int) : Prop :=
  chances.length = settings.length ∧ (∀ c ∈ chances, 0 ≤ c) ∧ chances.sum = 100

instance (settings : List Weather) (chances : List Int) :
    Decidable (wellFormedTable settings chances) :=
  inferInstanceAs (Decidable
    (chances.length = settings.length ∧ (∀ c ∈ chances, 0 ≤ c) ∧ chances.sum = 100))

/-- A stored weather id that is unset or valid. -/
def validSelection (settings : List Weather) (weatherID : Int) : Prop :=
  weatherID = invalidWeatherID ∨ validWeatherID settings weatherID

instance (settings : List Weather) (weatherID : Int) :
    Decidable (validSelection settings weatherID) :=
  inferInstanceAs (Decidable
    (weatherID = invalidWeatherID ∨ validWeatherID settings weatherID))

/-- A region whose table is well formed and whose selection is unset or valid. -/
def wellFormedRegion (settings : List Weather) (r : RegionWeather) : Prop :=
  wellFormedTable settings r.mChances ∧ validSelection settings r.mWeather

instance (settings : List Weather) (r : RegionWeather) :
    Decidable (wellFormedRegion settings r) :=
  inferInstanceAs (Decidable
    (wellFormedTable settings r.mChances ∧ validSelection settings r.mWeather))

/-- Every region of the table is well formed. -/
def wellFormedRegions (settings : List Weather) (regions : List (String × RegionWeather)) :
    Prop :=
  ∀ entry ∈ regions, wellFormedRegion settings entry.2

instance (settings : List Weather) (regions : List (String × RegionWeather)) :
    Decidable (wellFormedRegions settings regions) :=
  inferInstanceAs (Decidable (∀ entry ∈ regions, wellFormedRegion settings entry.2))

/-- The state C28 speaks of: every region of the table is well formed, the current weather
is a valid id, and the next and the queued weather are unset or valid ids. -/
def validEngine (m : WeatherManager) : Prop :=
  wellFormedRegions m.mWeatherSettings m.mRegions ∧
  validWeatherID m.mWeatherSettings m.mCurrentWeather ∧
  validSelection m.mWeatherSettings m.mNextWeather ∧
  validSelection m.mWeatherSettings m.mQueuedWeather

instance (m : WeatherManager) : Decidable (validEngine m) :=
  inferInstanceAs (Decidable
    (wellFormedRegions m.mWeatherSettings m.mRegions ∧
      validWeatherID m.mWeatherSettings m.mCurrentWeather ∧
      validSelection m.mWeatherSettings m.mNextWeather ∧
      validSelection m.mWeatherSettings m.mQueuedWeather))

/-- An engine over ten profiles of transition speed 1/10, Steady on weather 0, that tracks
the region `tracked`, with the reroll countdown at `countdown` and two regions in its
table: "ascadian isles" (all weight on weather 1) and "west gash" (all weight on
weather 2), neither with a selection. -/
def engineTwoRegions (countdown : ℚ) (tracked : String) : WeatherManager :=
  { engineOver (tenProfiles (1 / 10)) false 0 0 invalidWeatherID invalidWeatherID with
    mCurrentRegion := tracked
    mWeatherUpdateTime := countdown
    mRegions := [("ascadian isles",
        { mWeather := invalidWeatherID, mChances := [0, 100, 0, 0, 0, 0, 0, 0, 0, 0] }),
      ("west gash",
        { mWeather := invalidWeatherID, mChances := [0, 0, 100, 0, 0, 0, 0, 0, 0, 0] })] }

/-- A call on the transition engine: `addWeatherTransition(weatherID)`,
`updateWeatherTransitions(elapsed)`, `forceWeather(weatherID)` or
`advanceTime(hours, incremental)`. -/
inductive EngineOp where
  | request (weatherID : Int)
  | advance (elapsed : ℚ)
  | force (weatherID : Int)
  | pass (hours : ℚ) (incremental : Bool)

/-- The engine after one call; no state if the call does not return. -/
def applyOp (m : WeatherManager) : EngineOp → Option WeatherManager
  | EngineOp.request weatherID => m.addWeatherTransition weatherID
  | EngineOp.advance elapsed => m.updateWeatherTransitions elapsed
  | EngineOp.force weatherID => some (m.forceWeather weatherID)
  | EngineOp.pass hours incremental => some (m.advanceTime hours incremental)

/-- The engine after a sequence of calls, made in order. -/
def runOps (m : WeatherManager) : List EngineOp → Option WeatherManager
  | [] => some m
  | op :: ops => (applyOp m op).bind (fun m' => runOps m' ops)

/-- The four day phases for which a profile holds colours. -/
inductive DayPhase where
  | night
  | sunrise
  | day
  | sunset
deriving DecidableEq

/-- The fog colour a profile holds for a day phase. -/
def Weather.fogColour (w : Weather) : DayPhase → Vec4f
  | DayPhase.night => w.mFogNightColor
  | DayPhase.sunrise => w.mFogSunriseColor
  | DayPhase.day => w.mFogDayColor
  | DayPhase.sunset => w.mFogSunsetColor

/-- The ambient colour a profile holds for a day phase. -/
def Weather.ambientColour (w : Weather) : DayPhase → Vec4f
  | DayPhase.night => w.mAmbientNightColor
  | DayPhase.sunrise => w.mAmbientSunriseColor
  | DayPhase.day => w.mAmbientDayColor
  | DayPhase.sunset => w.mAmbientSunsetColor

/-- The sun colour a profile holds for a day phase. -/
def Weather.sunColour (w : Weather) : DayPhase → Vec4f
  | DayPhase.night => w.mSunNightColor
  | DayPhase.sunrise => w.mSunSunriseColor
  | DayPhase.day => w.mSunDayColor
  | DayPhase.sunset => w.mSunSunsetColor

/-- The sky colour a profile holds for a day phase. -/
def Weather.skyColour (w : Weather) : DayPhase → Vec4f
  | DayPhase.night => w.mSkyNightColor
  | DayPhase.sunrise => w.mSkySunriseColor
  | DayPhase.day => w.mSkyDayColor
  | DayPhase.sunset => w.mSkySunsetColor

/-- The four colours of a result are the blend, with the factor `f`, of the colours the
profile `w` holds for the phases `a` and `b`. -/
def blendOfPhases (r : WeatherResult) (w : Weather) (a b : DayPhase) (f : ℚ) : Prop :=
  r.mFogColor = lerpVec4f (w.fogColour a) (w.fogColour b) f ∧
  r.mAmbientColor = lerpVec4f (w.ambientColour a) (w.ambientColour b) f ∧
  r.mSunColor = lerpVec4f (w.sunColour a) (w.sunColour b) f ∧
  r.mSkyColor = lerpVec4f (w.skyColour a) (w.skyColour b) f

/-- The `float` literal `0.1f`: the binary32 value nearest to 1/10. -/
def tenthFloat : ℚ :=
  13421773 / 134217728

/-- The call `updateWeatherTransitions e` incurs no rounding error on `m`: evaluated in
binary32 it returns the state that the exact arithmetic returns. -/
def WeatherManager.roundingFree (m : WeatherManager) (e : ℚ) : Prop :=
  m.updateWeatherTransitionsFloat e = m.updateWeatherTransitions e

instance (m : WeatherManager) (e : ℚ) : Decidable (m.roundingFree e) :=
  inferInstanceAs (Decidable (m.updateWeatherTransitionsFloat e = m.updateWeatherTransitions e))

/-- Three profiles with transition speeds 1/10, 1/10 and 1/5. -/
def threeProfiles : List Weather :=
  [profileWithDelta (1 / 10), profileWithDelta (1 / 10), profileWithDelta (1 / 5)]

/-! ## Lemmas shared by the theorems -/

/-! ## Rounding to binary32 -/

theorem roundEven_intCast (k : Int) : roundEven (k : ℚ) = k := by
  unfold roundEven
  simp

theorem roundEven_le (x : ℚ) (k : Int) (h : x ≤ k) : roundEven x ≤ k := by
  have hfl : (⌊x⌋ : ℚ) ≤ x := Int.floor_le x
  have hn : ⌊x⌋ ≤ k := by exact_mod_cast hfl.trans h
  have hstep : (1 : ℚ) / 2 ≤ x - ⌊x⌋ → ⌊x⌋ + 1 ≤ k := by
    intro hr
    have : (⌊x⌋ : ℚ) < k := by linarith
    have : ⌊x⌋ < k := by exact_mod_cast this
    omega
  unfold roundEven
  simp only []
  split_ifs with h1 h2 h3
  · exact hn
  · exact hstep (le_of_lt h2)
  · exact hn
  · exact hstep (not_lt.mp h1)

theorem le_roundEven (x : ℚ) (k : Int) (h : (k : ℚ) ≤ x) : k ≤ roundEven x := by
  have hn : k ≤ ⌊x⌋ := Int.le_floor.mpr h
  unfold roundEven
  simp only []
  split_ifs <;> omega

theorem two_zpow_split (e : ℤ) :
    (2 : ℚ) ^ (e + 1) = 16777216 * 2 ^ (e - 23) ∧ (2 : ℚ) ^ e = 8388608 * 2 ^ (e - 23) := by
  constructor
  · have h : e + 1 = 24 + (e - 23) := by ring
    rw [h, zpow_add₀ (by norm_num : (2 : ℚ) ≠ 0)]
    norm_num
  · have h : e = 23 + (e - 23) := by ring
    conv_lhs => rw [h]
    rw [zpow_add₀ (by norm_num : (2 : ℚ) ≠ 0)]
    norm_num

theorem f32_grid (x : ℚ) (hx : x ≠ 0) :
    ∃ e : ℤ, -126 ≤ e ∧
      f32 x = (roundEven (x / 2 ^ (e - 23)) : ℚ) * 2 ^ (e - 23) ∧
      |x| < 16777216 * (2 : ℚ) ^ (e - 23) ∧
      (-126 < e → 8388608 * (2 : ℚ) ^ (e - 23) ≤ |x|) := by
  have hpos : 0 < |x| := abs_pos.mpr hx
  refine ⟨max (Int.log 2 |x|) (-126), le_max_right _ _, ?_, ?_, ?_⟩
  · unfold f32
    rw [if_neg hx]
  · have h1 := Int.lt_zpow_succ_log_self (by norm_num : 1 < 2) |x|
    have h2 : ((2 : ℕ) : ℚ) ^ (Int.log 2 |x| + 1)
        ≤ (2 : ℚ) ^ (max (Int.log 2 |x|) (-126) + 1) := by
      rw [Nat.cast_ofNat]
      exact zpow_le_zpow_right₀ (by norm_num) (by
        have := le_max_left (Int.log 2 |x|) (-126)
        omega)
    rw [← (two_zpow_split _).1]
    exact lt_of_lt_of_le h1 h2
  · intro he
    have hmax : max (Int.log 2 |x|) (-126) = Int.log 2 |x| := by
      rcases max_choice (Int.log 2 |x|) (-126) with h | h
      · exact h
      · rw [h] at he
        exact absurd he (lt_irrefl _)
    rw [← (two_zpow_split _).2, hmax]
    have := Int.zpow_log_le_self (by norm_num : 1 < 2) hpos
    rwa [Nat.cast_ofNat] at this

theorem f32_zero : f32 0 = 0 := by
  unfold f32
  rw [if_pos rfl]

theorem zpow_multiple (e k : ℤ) (h : e ≤ k) :
    ∃ j : ℕ, (2 : ℚ) ^ k = ((2 ^ j : ℤ) : ℚ) * 2 ^ e := by
  refine ⟨(k - e).toNat, ?_⟩
  have hk : k = ((k - e).toNat : ℤ) + e := by
    rw [Int.toNat_of_nonneg (by omega)]
    ring
  conv_lhs => rw [hk]
  rw [zpow_add₀ (by norm_num : (2 : ℚ) ≠ 0), zpow_natCast]
  push_cast
  ring

theorem zpow_below (e k : ℤ) (h : k < e) : (2 : ℚ) ^ k ≤ 2 ^ e / 2 := by
  have h1 : (2 : ℚ) ^ k ≤ 2 ^ (e - 1) := zpow_le_zpow_right₀ (by norm_num) (by omega)
  have h2 : (2 : ℚ) ^ (e - 1) = 2 ^ e / 2 := by
    rw [zpow_sub₀ (by norm_num : (2 : ℚ) ≠ 0)]
    norm_num
  rw [← h2]
  exact h1

theorem small_of_below (e k n : ℤ) (hn : |n| ≤ 16777216) (hk : k < e - 23) :
    |(n : ℚ) * 2 ^ k| ≤ 8388608 * (2 : ℚ) ^ (e - 23) := by
  have hU : (0 : ℚ) < 2 ^ (e - 23) := zpow_pos (by norm_num) _
  have hK : (0 : ℚ) < 2 ^ k := zpow_pos (by norm_num) _
  have hb := zpow_below (e - 23) k hk
  have hnq : |(n : ℚ)| ≤ 16777216 := by exact_mod_cast hn
  rw [abs_mul, abs_of_pos hK]
  calc |(n : ℚ)| * 2 ^ k ≤ 16777216 * 2 ^ k :=
        mul_le_mul_of_nonneg_right hnq (le_of_lt hK)
    _ ≤ 16777216 * (2 ^ (e - 23) / 2) := mul_le_mul_of_nonneg_left hb (by norm_num)
    _ = 8388608 * 2 ^ (e - 23) := by ring

theorem f32_le_of_le (x y : ℚ) (n k : ℤ) (hn : |n| ≤ 16777216) (hk : -149 ≤ k)
    (hy : y = n * 2 ^ k) (hxy : x ≤ y) : f32 x ≤ y := by
  by_cases hx : x = 0
  · rw [hx, f32_zero]
    rw [hx] at hxy
    exact hxy
  · obtain ⟨e, he, hf, hub, hlb⟩ := f32_grid x hx
    have hU : (0 : ℚ) < 2 ^ (e - 23) := zpow_pos (by norm_num) _
    rw [hf]
    by_cases hke : e - 23 ≤ k
    · obtain ⟨j, hj⟩ := zpow_multiple (e - 23) k hke
      have hym : y = ((n * 2 ^ j : ℤ) : ℚ) * 2 ^ (e - 23) := by
        rw [hy, hj]
        push_cast
        ring
      have hdiv : x / 2 ^ (e - 23) ≤ ((n * 2 ^ j : ℤ) : ℚ) := by
        rw [div_le_iff₀ hU, ← hym]
        exact hxy
      have hre := roundEven_le _ _ hdiv
      rw [hym]
      exact mul_le_mul_of_nonneg_right (by exact_mod_cast hre) (le_of_lt hU)
    · have hke' : k < e - 23 := not_le.mp hke
      have hsmall := small_of_below e k n hn hke'
      rw [← hy] at hsmall
      have hlow := hlb (by omega)
      have hyabs := abs_le.mp hsmall
      rcases lt_or_gt_of_ne hx with hneg | hpos
      · rw [abs_of_neg hneg] at hlow
        have hdiv : x / 2 ^ (e - 23) ≤ ((-8388608 : ℤ) : ℚ) := by
          rw [div_le_iff₀ hU]
          push_cast
          linarith
        have hre := roundEven_le _ _ hdiv
        have hq : (roundEven (x / 2 ^ (e - 23)) : ℚ) ≤ -8388608 := by exact_mod_cast hre
        have := mul_le_mul_of_nonneg_right hq (le_of_lt hU)
        linarith [hyabs.1]
      · rw [abs_of_pos hpos] at hlow
        have hdiv : x / 2 ^ (e - 23) ≤ ((8388608 : ℤ) : ℚ) := by
          rw [div_le_iff₀ hU]
          push_cast
          linarith [hyabs.2]
        have hre := roundEven_le _ _ hdiv
        have hq : (roundEven (x / 2 ^ (e - 23)) : ℚ) ≤ 8388608 := by exact_mod_cast hre
        have := mul_le_mul_of_nonneg_right hq (le_of_lt hU)
        linarith

theorem le_f32_of_le (x y : ℚ) (n k : ℤ) (hn : |n| ≤ 16777216) (hk : -149 ≤ k)
    (hy : y = n * 2 ^ k) (hxy : y ≤ x) : y ≤ f32 x := by
  by_cases hx : x = 0
  · rw [hx, f32_zero]
    rw [hx] at hxy
    exact hxy
  · obtain ⟨e, he, hf, hub, hlb⟩ := f32_grid x hx
    have hU : (0 : ℚ) < 2 ^ (e - 23) := zpow_pos (by norm_num) _
    rw [hf]
    by_cases hke : e - 23 ≤ k
    · obtain ⟨j, hj⟩ := zpow_multiple (e - 23) k hke
      have hym : y = ((n * 2 ^ j : ℤ) : ℚ) * 2 ^ (e - 23) := by
        rw [hy, hj]
        push_cast
        ring
      have hdiv : ((n * 2 ^ j : ℤ) : ℚ) ≤ x / 2 ^ (e - 23) := by
        rw [le_div_iff₀ hU, ← hym]
        exact hxy
      have hre := le_roundEven _ _ hdiv
      rw [hym]
      exact mul_le_mul_of_nonneg_right (by exact_mod_cast hre) (le_of_lt hU)
    · have hke' : k < e - 23 := not_le.mp hke
      have hsmall := small_of_below e k n hn hke'
      rw [← hy] at hsmall
      have hlow := hlb (by omega)
      have hyabs := abs_le.mp hsmall
      rcases lt_or_gt_of_ne hx with hneg | hpos
      · rw [abs_of_neg hneg] at hlow
        have hdiv : ((-8388608 : ℤ) : ℚ) ≤ x / 2 ^ (e - 23) := by
          rw [le_div_iff₀ hU]
          push_cast
          linarith [hyabs.1]
        have hre := le_roundEven _ _ hdiv
        have hq : (-8388608 : ℚ) ≤ (roundEven (x / 2 ^ (e - 23)) : ℚ) := by
          exact_mod_cast hre
        have := mul_le_mul_of_nonneg_right hq (le_of_lt hU)
        linarith
      · rw [abs_of_pos hpos] at hlow
        have hdiv : ((8388608 : ℤ) : ℚ) ≤ x / 2 ^ (e - 23) := by
          rw [le_div_iff₀ hU]
          push_cast
          linarith
        have hre := le_roundEven _ _ hdiv
        have hq : (8388608 : ℚ) ≤ (roundEven (x / 2 ^ (e - 23)) : ℚ) := by
          exact_mod_cast hre
        have := mul_le_mul_of_nonneg_right hq (le_of_lt hU)
        linarith [hyabs.2]

theorem f32_form (x : ℚ) :
    ∃ n k : ℤ, |n| ≤ 16777216 ∧ -149 ≤ k ∧ f32 x = n * 2 ^ k := by
  by_cases hx : x = 0
  · exact ⟨0, 0, by norm_num, by norm_num, by rw [hx, f32_zero]; norm_num⟩
  · obtain ⟨e, he, hf, hub, _⟩ := f32_grid x hx
    have hU : (0 : ℚ) < 2 ^ (e - 23) := zpow_pos (by norm_num) _
    have hx2 := abs_lt.mp hub
    refine ⟨roundEven (x / 2 ^ (e - 23)), e - 23, ?_, by omega, hf⟩
    rw [abs_le]
    constructor
    · apply le_roundEven
      rw [le_div_iff₀ hU]
      push_cast
      linarith [hx2.1]
    · apply roundEven_le
      rw [div_le_iff₀ hU]
      push_cast
      linarith [hx2.2]

theorem f32_fixed (y : ℚ) (n k : ℤ) (hn : |n| ≤ 16777216) (hk : -149 ≤ k)
    (hy : y = n * 2 ^ k) : f32 y = y :=
  le_antisymm (f32_le_of_le y y n k hn hk hy (le_refl y))
    (le_f32_of_le y y n k hn hk hy (le_refl y))

theorem f32_f32 (x : ℚ) : f32 (f32 x) = f32 x := by
  obtain ⟨n, k, hn, hk, hy⟩ := f32_form x
  exact f32_fixed (f32 x) n k hn hk hy

theorem f32_nonneg (x : ℚ) (h : 0 ≤ x) : 0 ≤ f32 x :=
  le_f32_of_le x 0 0 0 (by norm_num) (by norm_num) (by norm_num) h

theorem f32_nonpos (x : ℚ) (h : x ≤ 0) : f32 x ≤ 0 :=
  f32_le_of_le x 0 0 0 (by norm_num) (by norm_num) (by norm_num) h

theorem f32_one : f32 1 = 1 :=
  f32_fixed 1 1 0 (by norm_num) (by norm_num) (by norm_num)

theorem f32_eval (x : ℚ) (e n : ℤ) (he : -126 ≤ e) (h1 : (2 : ℚ) ^ e ≤ |x|)
    (h2 : |x| < (2 : ℚ) ^ (e + 1)) (hn : roundEven (x / 2 ^ (e - 23)) = n) :
    f32 x = n * 2 ^ (e - 23) := by
  have hpos : 0 < |x| := lt_of_lt_of_le (zpow_pos (by norm_num) _) h1
  have hx : x ≠ 0 := abs_pos.mp hpos
  have hlog : Int.log 2 |x| = e := by
    have ha : e ≤ Int.log 2 |x| :=
      (Int.zpow_le_iff_le_log (by norm_num : 1 < 2) hpos).mp (by
        rw [Nat.cast_ofNat]
        exact h1)
    have hb : Int.log 2 |x| < e + 1 :=
      (Int.lt_zpow_iff_log_lt (by norm_num : 1 < 2) hpos).mp (by
        rw [Nat.cast_ofNat]
        exact h2)
    omega
  unfold f32
  rw [if_neg hx]
  simp only [hlog, max_eq_left he, hn]

theorem roundEven_mono (x y : ℚ) (h : x ≤ y) : roundEven x ≤ roundEven y := by
  have hfl : ⌊x⌋ ≤ ⌊y⌋ := Int.floor_mono h
  by_cases heq : ⌊x⌋ = ⌊y⌋
  · unfold roundEven
    simp only []
    rw [heq]
    split_ifs <;> first | omega | linarith
  · have h1 : roundEven x ≤ ⌊x⌋ + 1 :=
      roundEven_le x (⌊x⌋ + 1) (by
        push_cast
        exact le_of_lt (Int.lt_floor_add_one x))
    have h2 : ⌊y⌋ ≤ roundEven y := le_roundEven y ⌊y⌋ (Int.floor_le y)
    omega

theorem f32_mono (x y : ℚ) (h : x ≤ y) : f32 x ≤ f32 y := by
  by_cases hx : x = 0
  · rw [hx, f32_zero]
    exact f32_nonneg y (by rw [← hx]; exact h)
  by_cases hy : y = 0
  · rw [hy, f32_zero]
    exact f32_nonpos x (by rw [← hy]; exact h)
  obtain ⟨ex, hex, hfx, hubx, hlbx⟩ := f32_grid x hx
  obtain ⟨ey, hey, hfy, huby, hlby⟩ := f32_grid y hy
  have hsx := two_zpow_split ex
  have hsy := two_zpow_split ey
  rcases lt_or_gt_of_ne hx with hxneg | hxpos
  · rcases lt_or_gt_of_ne hy with hyneg | hypos
    · rw [abs_of_neg hxneg] at hubx hlbx
      rw [abs_of_neg hyneg] at huby hlby
      rcases lt_trichotomy ex ey with hlt | heq | hgt
      · exfalso
        have h1 := hlby (by omega)
        have h2 : (2 : ℚ) ^ (ex + 1) ≤ 2 ^ ey := zpow_le_zpow_right₀ (by norm_num) (by omega)
        rw [← hsx.1] at hubx
        rw [← hsy.2] at h1
        linarith
      · rw [hfx, hfy, heq]
        have hU : (0 : ℚ) < 2 ^ (ey - 23) := zpow_pos (by norm_num) _
        have hdiv : x / 2 ^ (ey - 23) ≤ y / 2 ^ (ey - 23) :=
          div_le_div_of_nonneg_right h (le_of_lt hU)
        have := roundEven_mono _ _ hdiv
        exact mul_le_mul_of_nonneg_right (by exact_mod_cast this) (le_of_lt hU)
      · have h1 := hlbx (by omega)
        have h2 : (2 : ℚ) ^ (ey + 1) ≤ 2 ^ ex := zpow_le_zpow_right₀ (by norm_num) (by omega)
        rw [← hsy.1] at huby
        have hz : (((-8388608 : ℤ) : ℚ)) * 2 ^ (ex - 23) = -(2 ^ ex) := by
          rw [hsx.2]
          push_cast
          ring
        have hzx : x ≤ ((-8388608 : ℤ) : ℚ) * 2 ^ (ex - 23) := by
          rw [hz, hsx.2]
          linarith
        have hzy : ((-8388608 : ℤ) : ℚ) * 2 ^ (ex - 23) ≤ y := by
          rw [hz]
          linarith
        exact le_trans
          (f32_le_of_le x _ (-8388608) (ex - 23) (by norm_num) (by omega) rfl hzx)
          (le_f32_of_le y _ (-8388608) (ex - 23) (by norm_num) (by omega) rfl hzy)
    · exact le_trans (f32_nonpos x (le_of_lt hxneg)) (f32_nonneg y (le_of_lt hypos))
  · have hypos : 0 < y := lt_of_lt_of_le hxpos h
    rw [abs_of_pos hxpos] at hubx hlbx
    rw [abs_of_pos hypos] at huby hlby
    rcases lt_trichotomy ex ey with hlt | heq | hgt
    · have h1 := hlby (by omega)
      have h2 : (2 : ℚ) ^ (ex + 1) ≤ 2 ^ ey := zpow_le_zpow_right₀ (by norm_num) (by omega)
      rw [← hsx.1] at hubx
      have hz : (((8388608 : ℤ) : ℚ)) * 2 ^ (ey - 23) = 2 ^ ey := by
        rw [hsy.2]
        push_cast
        ring
      have hzx : x ≤ ((8388608 : ℤ) : ℚ) * 2 ^ (ey - 23) := by
        rw [hz]
        linarith
      have hzy : ((8388608 : ℤ) : ℚ) * 2 ^ (ey - 23) ≤ y := by
        rw [hz, hsy.2]
        exact h1
      exact le_trans
        (f32_le_of_le x _ 8388608 (ey - 23) (by norm_num) (by omega) rfl hzx)
        (le_f32_of_le y _ 8388608 (ey - 23) (by norm_num) (by omega) rfl hzy)
    · rw [hfx, hfy, heq]
      have hU : (0 : ℚ) < 2 ^ (ey - 23) := zpow_pos (by norm_num) _
      have hdiv : x / 2 ^ (ey - 23) ≤ y / 2 ^ (ey - 23) :=
        div_le_div_of_nonneg_right h (le_of_lt hU)
      have := roundEven_mono _ _ hdiv
      exact mul_le_mul_of_nonneg_right (by exact_mod_cast this) (le_of_lt hU)
    · exfalso
      have h1 := hlbx (by omega)
      have h2 : (2 : ℚ) ^ (ey + 1) ≤ 2 ^ ex := zpow_le_zpow_right₀ (by norm_num) (by omega)
      rw [← hsy.1] at huby
      rw [← hsx.2] at h1
      linarith

theorem f32_natCast (n : ℕ) (h : n ≤ 16777216) : f32 (n : ℚ) = n :=
  f32_fixed (n : ℚ) (n : ℤ) 0 (by rw [abs_of_nonneg (by omega)]; omega) (by norm_num)
    (by push_cast; ring)

theorem f32_sub_lt (g p : ℚ) (hg : f32 g = g) (h0 : 0 < g) (h1 : g ≤ 1)
    (hp : 1 / 16777216 ≤ p) : f32 (g - p) < g := by
  by_cases hsmall : g < 1 / 16777216
  · exact lt_of_le_of_lt (f32_nonpos _ (by linarith)) h0
  · have hge : (1 : ℚ) / 16777216 ≤ g := not_lt.mp hsmall
    obtain ⟨n, k, hn, hk, hform⟩ := f32_form g
    rw [hg] at hform
    have h24 : (2 : ℚ) ^ (-24 : ℤ) = 1 / 16777216 := by norm_num
    have hK : (0 : ℚ) < 2 ^ k := zpow_pos (by norm_num) _
    have hnpos : 0 < n := by
      have : (0 : ℚ) < n := by
        by_contra hneg
        have : (n : ℚ) * 2 ^ k ≤ 0 :=
          mul_nonpos_of_nonpos_of_nonneg (not_lt.mp hneg) (le_of_lt hK)
        linarith
      exact_mod_cast this
    have habs := abs_le.mp hn
    suffices hy : ∃ n' k' : ℤ,
        |n'| ≤ 16777216 ∧ -149 ≤ k' ∧ g - 1 / 16777216 = n' * 2 ^ k' by
      obtain ⟨n', k', hn', hk', hy⟩ := hy
      have := f32_le_of_le (g - p) (g - 1 / 16777216) n' k' hn' hk' hy (by linarith)
      linarith
    by_cases hcase : -24 ≤ k
    · obtain ⟨j, hj⟩ := zpow_multiple (-24) k hcase
      refine ⟨n * 2 ^ j - 1, -24, ?_, by norm_num, ?_⟩
      · have hle : ((n * 2 ^ j : ℤ) : ℚ) ≤ 16777216 := by
          have : g = ((n * 2 ^ j : ℤ) : ℚ) * (1 / 16777216) := by
            rw [hform, hj, h24]
            push_cast
            ring
          rw [this] at h1
          linarith
        have hle2 : n * 2 ^ j ≤ 16777216 := by exact_mod_cast hle
        have hge2 : 0 < n * 2 ^ j := mul_pos hnpos (by positivity)
        rw [abs_le]
        constructor <;> omega
      · rw [hform, hj, h24]
        push_cast
        ring
    · obtain ⟨j, hj⟩ := zpow_multiple k (-24) (by omega)
      refine ⟨n - 2 ^ j, k, ?_, hk, ?_⟩
      · have hle : ((2 ^ j : ℤ) : ℚ) ≤ n := by
          rw [hform, ← h24, hj] at hge
          exact le_of_mul_le_mul_right hge hK
        have hle2 : (2 : ℤ) ^ j ≤ n := by exact_mod_cast hle
        have hpj : (0 : ℤ) < 2 ^ j := by positivity
        rw [abs_le]
        constructor <;> omega
      · rw [hform, ← h24, hj]
        push_cast
        ring

theorem f32_abs_le (x b : ℚ) (n k : ℤ) (hn : |n| ≤ 16777216) (hk : -149 ≤ k)
    (hb : b = n * 2 ^ k) (hx : |x| ≤ b) : |f32 x| ≤ b := by
  have h := abs_le.mp hx
  rw [abs_le]
  constructor
  · exact le_f32_of_le x (-b) (-n) k (by rw [abs_neg]; exact hn) hk
      (by rw [hb]; push_cast; ring) h.1
  · exact f32_le_of_le x b n k hn hk hb h.2

theorem inTransition_iff (m : WeatherManager) :
    m.inTransition = true ↔ m.mNextWeather ≠ invalidWeatherID := by
  simp [WeatherManager.inTransition]

theorem inTransition_false_iff (m : WeatherManager) :
    m.inTransition = false ↔ m.mNextWeather = invalidWeatherID := by
  simp [WeatherManager.inTransition]

theorem weatherSetting_isSome_iff (settings : List Weather) (id : Int) :
    (∃ w, weatherSetting settings id = some w) ↔ validWeatherID settings id := by
  unfold weatherSetting validWeatherID
  by_cases h : 0 ≤ id
  · simp only [h, if_true, true_and]
    constructor
    · rintro ⟨w, hw⟩
      exact (List.getElem?_eq_some.mp hw).1
    · intro hlt
      exact ⟨_, List.getElem?_eq_getElem hlt⟩
  · simp [h]

theorem validWeatherID_ne_invalid {settings : List Weather} {id : Int}
    (h : validWeatherID settings id) : id ≠ invalidWeatherID := by
  intro hid
  have h0 := h.1
  rw [hid] at h0
  simp [invalidWeatherID] at h0

/-! ## Requests: `addWeatherTransition` -/

theorem addWeatherTransition_steady (m : WeatherManager) (id : Int)
    (hsteady : m.mNextWeather = invalidWeatherID)
    (hvalid : validWeatherID m.mWeatherSettings id) (hne : id ≠ m.mCurrentWeather) :
    m.addWeatherTransition id = some { m with mNextWeather := id, mTransitionFactor := 1 } := by
  simp [WeatherManager.addWeatherTransition, WeatherManager.inTransition, hvalid, hsteady, hne]

theorem addWeatherTransition_queue (m : WeatherManager) (id : Int)
    (htrans : m.mNextWeather ≠ invalidWeatherID)
    (hvalid : validWeatherID m.mWeatherSettings id) (hne : id ≠ m.mNextWeather) :
    m.addWeatherTransition id = some { m with mQueuedWeather := id } := by
  simp [WeatherManager.addWeatherTransition, WeatherManager.inTransition, hvalid, htrans, hne]

theorem addWeatherTransition_same_next (m : WeatherManager) (id : Int)
    (hvalid : validWeatherID m.mWeatherSettings id) (heq : id = m.mNextWeather) :
    m.addWeatherTransition id = some m := by
  have htrans : m.mNextWeather ≠ invalidWeatherID := heq ▸ validWeatherID_ne_invalid hvalid
  rw [heq] at hvalid
  simp [WeatherManager.addWeatherTransition, WeatherManager.inTransition, hvalid, htrans, heq]

theorem addWeatherTransition_same_current (m : WeatherManager) (id : Int)
    (hsteady : m.mNextWeather = invalidWeatherID)
    (hvalid : validWeatherID m.mWeatherSettings id) (heq : id = m.mCurrentWeather) :
    m.addWeatherTransition id = some m := by
  rw [heq] at hvalid
  simp [WeatherManager.addWeatherTransition, WeatherManager.inTransition, hvalid, hsteady, heq]

/-- C5: in a Steady state (`mNextWeather` unset), `addWeatherTransition` with a valid id
different from the current weather sets `mNextWeather` to the id and `mTransitionFactor` to
1, and changes nothing else: `mCurrentWeather`, `mQueuedWeather` and every other member keep
their values. -/
theorem c5_request_while_steady (m : WeatherManager) (id : Int)
    (hsteady : m.mNextWeather = invalidWeatherID)
    (hvalid : validWeatherID m.mWeatherSettings id) (hne : id ≠ m.mCurrentWeather) :
    ∃ m', m.addWeatherTransition id = some m' ∧
      m' = { m with mNextWeather := id, mTransitionFactor := 1 } ∧
      m'.mNextWeather = id ∧ m'.mTransitionFactor = 1 ∧
      m'.mCurrentWeather = m.mCurrentWeather ∧ m'.mQueuedWeather = m.mQueuedWeather :=
  ⟨_, addWeatherTransition_steady m id hsteady hvalid hne, rfl, rfl, rfl, rfl, rfl⟩

/-- Witness of C5: Steady on weather 0, request of weather 4. -/
theorem c5_request_while_steady_witness :
    (engine 1 false 0 0 invalidWeatherID invalidWeatherID).mNextWeather = invalidWeatherID ∧
    validWeatherID (engine 1 false 0 0 invalidWeatherID invalidWeatherID).mWeatherSettings 4 ∧
    (4 : Int) ≠ (engine 1 false 0 0 invalidWeatherID invalidWeatherID).mCurrentWeather ∧
    ∃ m', (engine 1 false 0 0 invalidWeatherID invalidWeatherID).addWeatherTransition 4
        = some m' ∧
      m' = { engine 1 false 0 0 invalidWeatherID invalidWeatherID with
              mNextWeather := 4, mTransitionFactor := 1 } ∧
      m'.mNextWeather = 4 ∧ m'.mTransitionFactor = 1 ∧
      m'.mCurrentWeather = (engine 1 false 0 0 invalidWeatherID invalidWeatherID).mCurrentWeather ∧
      m'.mQueuedWeather = (engine 1 false 0 0 invalidWeatherID invalidWeatherID).mQueuedWeather :=
  ⟨rfl, by decide, by decide,
    c5_request_while_steady (engine 1 false 0 0 invalidWeatherID invalidWeatherID) 4 rfl
      (by decide) (by decide)⟩

theorem addWeatherTransition_transitioning (m : WeatherManager) (id : Int)
    (htrans : m.mNextWeather ≠ invalidWeatherID)
    (hvalid : validWeatherID m.mWeatherSettings id) :
    m.addWeatherTransition id
      = some { m with mQueuedWeather := if id = m.mNextWeather then m.mQueuedWeather else id } := by
  by_cases h : id = m.mNextWeather
  · rw [addWeatherTransition_same_next m id hvalid h]
    simp [h]
  · rw [addWeatherTransition_queue m id htrans hvalid h]
    simp [h]

/-- C1 (as the code has it): in a Transitioning state, three successive
`addWeatherTransition` calls with valid ids `a`, `b`, `c`, the last one different from the
weather being transitioned to, leave `mQueuedWeather == c` and change nothing else. -/
theorem c1_queue_last_wins (m : WeatherManager) (a b c : Int)
    (htrans : m.mNextWeather ≠ invalidWeatherID)
    (ha : validWeatherID m.mWeatherSettings a) (hb : validWeatherID m.mWeatherSettings b)
    (hc : validWeatherID m.mWeatherSettings c) (hcn : c ≠ m.mNextWeather) :
    m.addAll [a, b, c] = some { m with mQueuedWeather := c } := by
  have h1 := addWeatherTransition_transitioning m a htrans ha
  have h2 := addWeatherTransition_transitioning
    { m with mQueuedWeather := if a = m.mNextWeather then m.mQueuedWeather else a } b htrans hb
  have h3 := addWeatherTransition_queue
    { m with mQueuedWeather := if b = m.mNextWeather then
        (if a = m.mNextWeather then m.mQueuedWeather else a) else b } c htrans hc hcn
  simp only [WeatherManager.addAll, h1, Option.some_bind]
  simp only [] at h2
  simp only [h2, Option.some_bind]
  simp only [] at h3
  simp only [h3, Option.some_bind]

/-- Witness of C1: while changing from weather 0 to weather 1, requests of 2, 3 and 4. -/
theorem c1_queue_last_wins_witness :
    (engine 1 false 1 0 1 invalidWeatherID).addAll [2, 3, 4]
      = some { engine 1 false 1 0 1 invalidWeatherID with mQueuedWeather := 4 } :=
  c1_queue_last_wins (engine 1 false 1 0 1 invalidWeatherID) 2 3 4
    (by decide) (by decide) (by decide) (by decide) (by decide)

/-- Counterexample to C1 as stated: while changing from weather 0 to weather 1, the requests
A = 2, B = 3, C = 1 are all valid, yet they leave `mQueuedWeather == 3` (that is B), not C:
the request of the weather already being transitioned to is ignored. -/
theorem c1_counterexample :
    (engine 1 false 1 0 1 invalidWeatherID).inTransition = true ∧
    validWeatherID (engine 1 false 1 0 1 invalidWeatherID).mWeatherSettings 2 ∧
    validWeatherID (engine 1 false 1 0 1 invalidWeatherID).mWeatherSettings 3 ∧
    validWeatherID (engine 1 false 1 0 1 invalidWeatherID).mWeatherSettings 1 ∧
    (engine 1 false 1 0 1 invalidWeatherID).addAll [2, 3, 1] = some (engine 1 false 1 0 1 3) ∧
    (engine 1 false 1 0 1 3).mQueuedWeather = 3 ∧
    (engine 1 false 1 0 1 3).mQueuedWeather ≠ 1 := by
  refine ⟨by decide, by decide, by decide, by decide, ?_, rfl, by decide⟩
  rfl

/-- C6 (as the code has it): `addWeatherTransition` with a valid id is a no-op, leaving every
member unchanged, when the id is the weather being transitioned to (`id == mNextWeather`),
or when the engine is Steady and the id is the current weather. -/
theorem c6_request_noop (m : WeatherManager) (id : Int)
    (hvalid : validWeatherID m.mWeatherSettings id)
    (h : id = m.mNextWeather ∨ (m.mNextWeather = invalidWeatherID ∧ id = m.mCurrentWeather)) :
    m.addWeatherTransition id = some m := by
  rcases h with h | ⟨hs, hc⟩
  · exact addWeatherTransition_same_next m id hvalid h
  · exact addWeatherTransition_same_current m id hs hvalid hc

/-- Witness of C6: while changing from weather 0 to weather 1, a request of weather 1. -/
theorem c6_request_noop_witness :
    (engine 1 false 1 0 1 invalidWeatherID).addWeatherTransition 1
      = some (engine 1 false 1 0 1 invalidWeatherID) :=
  c6_request_noop (engine 1 false 1 0 1 invalidWeatherID) 1 (by decide) (Or.inl rfl)

/-- Counterexample to C6 as stated: while changing from weather 0 to weather 1, a request of
weather 0, which is valid and equal to the current weather, is not a no-op: it sets
`mQueuedWeather` to 0. -/
theorem c6_counterexample :
    validWeatherID (engine 1 false 1 0 1 invalidWeatherID).mWeatherSettings 0 ∧
    (0 : Int) = (engine 1 false 1 0 1 invalidWeatherID).mCurrentWeather ∧
    (engine 1 false 1 0 1 invalidWeatherID).addWeatherTransition 0
      = some (engine 1 false 1 0 1 0) ∧
    (engine 1 false 1 0 1 0).mQueuedWeather
      ≠ (engine 1 false 1 0 1 invalidWeatherID).mQueuedWeather :=
  ⟨by decide, rfl, rfl, by decide⟩

/-! ## Advancing: `updateWeatherTransitions` -/

theorem updateWeatherTransitions_collapse (m : WeatherManager) (e : ℚ)
    (h : m.mFastForward = true ∨ m.mNextWeather = invalidWeatherID) :
    m.updateWeatherTransitions e
      = some { m with
          mCurrentWeather :=
            if m.mQueuedWeather ≠ invalidWeatherID then m.mQueuedWeather
            else if m.mNextWeather ≠ invalidWeatherID then m.mNextWeather
            else m.mCurrentWeather
          mNextWeather := invalidWeatherID
          mQueuedWeather := invalidWeatherID
          mFastForward := false } := by
  have hc : (!m.mFastForward && m.inTransition) = false := by
    rcases h with h | h
    · simp [h]
    · simp [WeatherManager.inTransition, h]
  unfold WeatherManager.updateWeatherTransitions
  rw [hc]
  by_cases hq : m.mQueuedWeather = invalidWeatherID
  · by_cases hn : m.mNextWeather = invalidWeatherID
    · simp [hq, hn]
    · simp [hq, hn]
  · simp [hq]

/-- C8: if the fast-forward flag is set or the engine is Steady, `updateWeatherTransitions`
with any elapsed time sets `mCurrentWeather` to the queued id if one is set, else to the next
id if one is set, else leaves it; it unsets `mNextWeather` and `mQueuedWeather`, clears
`mFastForward`, and changes no other member. On a Steady state with nothing queued the
three weather ids are therefore unchanged. -/
theorem c8_collapse (m : WeatherManager) (e : ℚ)
    (h : m.mFastForward = true ∨ m.mNextWeather = invalidWeatherID) :
    m.updateWeatherTransitions e
        = some { m with
            mCurrentWeather :=
              if m.mQueuedWeather ≠ invalidWeatherID then m.mQueuedWeather
              else if m.mNextWeather ≠ invalidWeatherID then m.mNextWeather
              else m.mCurrentWeather
            mNextWeather := invalidWeatherID
            mQueuedWeather := invalidWeatherID
            mFastForward := false } ∧
      (m.mNextWeather = invalidWeatherID → m.mQueuedWeather = invalidWeatherID →
        m.updateWeatherTransitions e = some { m with mFastForward := false }) := by
  refine ⟨updateWeatherTransitions_collapse m e h, ?_⟩
  intro hn hq
  rw [updateWeatherTransitions_collapse m e h]
  simp [hn, hq]

/-- Witness of C8: a fast-forward while changing from weather 0 to weather 1 with
weather 2 queued ends Steady on weather 2; an advance of a Steady engine on weather 3 with
nothing queued leaves it as it is. -/
theorem c8_collapse_witness :
    ((engine 1 true (1 / 2) 0 1 2).mFastForward = true ∧
      (engine 1 true (1 / 2) 0 1 2).updateWeatherTransitions 3
        = some (engine 1 false (1 / 2) 2 invalidWeatherID invalidWeatherID)) ∧
    ((engine 1 false 0 3 invalidWeatherID invalidWeatherID).mNextWeather = invalidWeatherID ∧
      (engine 1 false 0 3 invalidWeatherID invalidWeatherID).updateWeatherTransitions 3
        = some (engine 1 false 0 3 invalidWeatherID invalidWeatherID)) :=
  ⟨⟨rfl, (c8_collapse (engine 1 true (1 / 2) 0 1 2) 3 (Or.inl rfl)).1⟩,
   ⟨rfl, (c8_collapse (engine 1 false 0 3 invalidWeatherID invalidWeatherID) 3
      (Or.inr rfl)).2 rfl rfl⟩⟩

theorem updateWeatherTransitions_running (m : WeatherManager) (e : ℚ) (next : Weather)
    (hff : m.mFastForward = false) (htrans : m.mNextWeather ≠ invalidWeatherID)
    (hnext : weatherSetting m.mWeatherSettings m.mNextWeather = some next)
    (hpos : 0 < m.mTransitionFactor - e * next.transitionDelta) :
    m.updateWeatherTransitions e
      = some { m with mTransitionFactor := m.mTransitionFactor - e * next.transitionDelta } := by
  have hc : (!m.mFastForward && m.inTransition) = true := by
    simp [WeatherManager.inTransition, hff, htrans]
  unfold WeatherManager.updateWeatherTransitions
  rw [hc]
  simp only [if_true, hnext]
  rw [if_neg (not_le.mpr hpos)]

theorem updateWeatherTransitions_finish (m : WeatherManager) (e : ℚ) (next : Weather)
    (hff : m.mFastForward = false) (htrans : m.mNextWeather ≠ invalidWeatherID)
    (hnext : weatherSetting m.mWeatherSettings m.mNextWeather = some next)
    (hle : m.mTransitionFactor - e * next.transitionDelta ≤ 0)
    (hq : m.mQueuedWeather = invalidWeatherID) :
    m.updateWeatherTransitions e
      = some { m with
          mCurrentWeather := m.mNextWeather
          mNextWeather := invalidWeatherID
          mQueuedWeather := invalidWeatherID
          mTransitionFactor := 0 } := by
  have hc : (!m.mFastForward && m.inTransition) = true := by
    simp [WeatherManager.inTransition, hff, htrans]
  unfold WeatherManager.updateWeatherTransitions
  rw [hc]
  simp only [if_true, hnext]
  rw [if_pos hle]
  simp [WeatherManager.inTransition, hq]

theorem updateWeatherTransitions_carry (m : WeatherManager) (e : ℚ) (next queued : Weather)
    (hff : m.mFastForward = false) (htrans : m.mNextWeather ≠ invalidWeatherID)
    (hnext : weatherSetting m.mWeatherSettings m.mNextWeather = some next)
    (hle : m.mTransitionFactor - e * next.transitionDelta ≤ 0)
    (hq : m.mQueuedWeather ≠ invalidWeatherID)
    (hqueued : weatherSetting m.mWeatherSettings m.mQueuedWeather = some queued) :
    m.updateWeatherTransitions e
      = if next.transitionDelta = 0 then none
        else some { m with
          mCurrentWeather := m.mNextWeather
          mNextWeather := m.mQueuedWeather
          mQueuedWeather := invalidWeatherID
          mTransitionFactor :=
            1 - (-(m.mTransitionFactor - e * next.transitionDelta) / next.transitionDelta)
                * queued.transitionDelta } := by
  have hc : (!m.mFastForward && m.inTransition) = true := by
    simp [WeatherManager.inTransition, hff, htrans]
  unfold WeatherManager.updateWeatherTransitions
  rw [hc]
  simp only [if_true, hnext]
  rw [if_pos hle]
  simp only [WeatherManager.inTransition, bne_iff_ne, ne_eq, hq, not_false_eq_true, if_true,
    hqueued, fdiv]
  by_cases hd : next.transitionDelta = 0
  · simp [hd]
  · simp only [hd, if_false, Option.some.injEq]
    congr 1
    ring

/-- C2, the code at a failing input: Steady on weather 0 after `forceWeather(0)`, then
`addWeatherTransition(1)` (factor 1), then `advanceTime(8, false)` sets the fast-forward
flag. One, or three, `updateWeatherTransitions` calls then leave the engine Steady on
weather 1 with the flag clear, but `mTransitionFactor` is still 1, not 0: the fast-forward
branch never writes the factor. -/
theorem c2_fast_forward_keeps_factor :
    ((engine (1 / 10) false 0 7 5 3).forceWeather 0).addWeatherTransition 1
      = some (engine (1 / 10) false 1 0 1 invalidWeatherID) ∧
    (engine (1 / 10) false 1 0 1 invalidWeatherID).advanceTime 8 false
      = { engine (1 / 10) true 1 0 1 invalidWeatherID with mTimePassed := 8 } ∧
    ({ engine (1 / 10) true 1 0 1 invalidWeatherID with mTimePassed := 8 }).updateAll [1]
      = some { engine (1 / 10) false 1 1 invalidWeatherID invalidWeatherID with
                mTimePassed := 8 } ∧
    ({ engine (1 / 10) true 1 0 1 invalidWeatherID with mTimePassed := 8 }).updateAll [1, 2, 3]
      = some { engine (1 / 10) false 1 1 invalidWeatherID invalidWeatherID with
                mTimePassed := 8 } ∧
    ({ engine (1 / 10) false 1 1 invalidWeatherID invalidWeatherID with
        mTimePassed := 8 }).mTransitionFactor ≠ 0 := by
  refine ⟨?_, ?_, ?_, ?_, ?_⟩
  · rfl
  · simp [WeatherManager.advanceTime, engine, engineOver]
  · rfl
  · rfl
  · simp [engine, engineOver]

/-- C9, the code at two failing inputs, every profile having the same transition speed > 0.
From `forceWeather(0)`, `addWeatherTransition(1)` and `addWeatherTransition(2)` leave the
engine changing from 0 to 1 with 2 queued and factor 1. With speed 1/10,
`updateWeatherTransitions(25)` then moves on to the queued change (current 1, next 2) and
carries the overshoot over: the factor is `1 - (3/2 / (1/10)) * (1/10) = -1/2`. With speed
20, `updateWeatherTransitions(1/5)` does the same and the factor is
`1 - (3 / 20) * 20 = -2`. In both the factor is below 0 while `mNextWeather` is set. -/
theorem c9_factor_below_zero :
    ((((engine (1 / 10) false 0 7 5 3).forceWeather 0).addAll [1, 2]).bind
        (fun m => m.updateWeatherTransitions 25)
      = some (engine (1 / 10) false (-1 / 2) 1 2 invalidWeatherID) ∧
     (∀ w ∈ (engine (1 / 10) false 0 7 5 3).mWeatherSettings, 0 < w.transitionDelta) ∧
     (engine (1 / 10) false (-1 / 2) 1 2 invalidWeatherID).mTransitionFactor < 0 ∧
     (engine (1 / 10) false (-1 / 2) 1 2 invalidWeatherID).inTransition = true) ∧
    ((((engine 20 false 0 7 5 3).forceWeather 0).addAll [1, 2]).bind
        (fun m => m.updateWeatherTransitions (1 / 5))
      = some (engine 20 false (-2) 1 2 invalidWeatherID) ∧
     (∀ w ∈ (engine 20 false 0 7 5 3).mWeatherSettings, 0 < w.transitionDelta) ∧
     (engine 20 false (-2) 1 2 invalidWeatherID).mTransitionFactor < 0 ∧
     (engine 20 false (-2) 1 2 invalidWeatherID).inTransition = true) := by
  refine ⟨⟨?_, ?_, ?_, by decide⟩, ⟨?_, ?_, ?_, by decide⟩⟩
  · have h1 : ((engine (1 / 10) false 0 7 5 3).forceWeather 0).addAll [1, 2]
        = some (engine (1 / 10) false 1 0 1 2) := rfl
    rw [h1, Option.some_bind]
    rw [updateWeatherTransitions_carry (engine (1 / 10) false 1 0 1 2) 25
      (profileWithDelta (1 / 10)) (profileWithDelta (1 / 10)) rfl (by decide) rfl
      (by norm_num [engine, engineOver, profileWithDelta, Weather.transitionDelta])
      (by decide) rfl]
    norm_num [engine, engineOver, profileWithDelta, Weather.transitionDelta]
  · intro w hw
    simp only [engine, engineOver, tenProfiles, List.mem_replicate] at hw
    rw [hw.2]
    norm_num [profileWithDelta, Weather.transitionDelta]
  · norm_num [engine, engineOver]
  · have h1 : ((engine 20 false 0 7 5 3).forceWeather 0).addAll [1, 2]
        = some (engine 20 false 1 0 1 2) := rfl
    rw [h1, Option.some_bind]
    rw [updateWeatherTransitions_carry (engine 20 false 1 0 1 2) (1 / 5)
      (profileWithDelta 20) (profileWithDelta 20) rfl (by decide) rfl
      (by norm_num [engine, engineOver, profileWithDelta, Weather.transitionDelta])
      (by decide) rfl]
    norm_num [engine, engineOver, profileWithDelta, Weather.transitionDelta]
  · intro w hw
    simp only [engine, engineOver, tenProfiles, List.mem_replicate] at hw
    rw [hw.2]
    norm_num [profileWithDelta, Weather.transitionDelta]
  · norm_num [engine, engineOver]

/-! ## A single transition, from request to completion -/

theorem weatherSetting_ne_invalid {settings : List Weather} {id : Int} {w : Weather}
    (h : weatherSetting settings id = some w) : id ≠ invalidWeatherID :=
  validWeatherID_ne_invalid ((weatherSetting_isSome_iff settings id).mp ⟨w, h⟩)

theorem updateWeatherTransitionsFloat_running (m : WeatherManager) (e : ℚ) (next : Weather)
    (hff : m.mFastForward = false) (htrans : m.mNextWeather ≠ invalidWeatherID)
    (hnext : weatherSetting m.mWeatherSettings m.mNextWeather = some next)
    (hpos : 0 < f32 (m.mTransitionFactor - f32 (e * next.transitionDelta))) :
    m.updateWeatherTransitionsFloat e
      = some { m with
          mTransitionFactor := f32 (m.mTransitionFactor - f32 (e * next.transitionDelta)) } := by
  have hc : (!m.mFastForward && m.inTransition) = true := by
    simp [WeatherManager.inTransition, hff, htrans]
  unfold WeatherManager.updateWeatherTransitionsFloat
  rw [hc]
  simp only [if_true, hnext]
  rw [if_neg (not_le.mpr hpos)]

theorem updateWeatherTransitionsFloat_finish (m : WeatherManager) (e : ℚ) (next : Weather)
    (hff : m.mFastForward = false) (htrans : m.mNextWeather ≠ invalidWeatherID)
    (hnext : weatherSetting m.mWeatherSettings m.mNextWeather = some next)
    (hle : f32 (m.mTransitionFactor - f32 (e * next.transitionDelta)) ≤ 0)
    (hq : m.mQueuedWeather = invalidWeatherID) :
    m.updateWeatherTransitionsFloat e
      = some { m with
          mCurrentWeather := m.mNextWeather
          mNextWeather := invalidWeatherID
          mQueuedWeather := invalidWeatherID
          mTransitionFactor := 0 } := by
  have hc : (!m.mFastForward && m.inTransition) = true := by
    simp [WeatherManager.inTransition, hff, htrans]
  unfold WeatherManager.updateWeatherTransitionsFloat
  rw [hc]
  simp only [if_true, hnext]
  rw [if_pos hle]
  simp [WeatherManager.inTransition, hq]

theorem updateWeatherTransitionsFloat_carry (m : WeatherManager) (e : ℚ)
    (next queued : Weather)
    (hff : m.mFastForward = false) (htrans : m.mNextWeather ≠ invalidWeatherID)
    (hnext : weatherSetting m.mWeatherSettings m.mNextWeather = some next)
    (hle : f32 (m.mTransitionFactor - f32 (e * next.transitionDelta)) ≤ 0)
    (hq : m.mQueuedWeather ≠ invalidWeatherID)
    (hqueued : weatherSetting m.mWeatherSettings m.mQueuedWeather = some queued) :
    m.updateWeatherTransitionsFloat e
      = if next.transitionDelta = 0 then none
        else some { m with
          mCurrentWeather := m.mNextWeather
          mNextWeather := m.mQueuedWeather
          mQueuedWeather := invalidWeatherID
          mTransitionFactor :=
            f32 (1 - f32 (-(f32 (f32 (m.mTransitionFactor - f32 (e * next.transitionDelta))
                  / next.transitionDelta)) * queued.transitionDelta)) } := by
  have hc : (!m.mFastForward && m.inTransition) = true := by
    simp [WeatherManager.inTransition, hff, htrans]
  unfold WeatherManager.updateWeatherTransitionsFloat
  rw [hc]
  simp only [if_true, hnext]
  rw [if_pos hle]
  simp only [WeatherManager.inTransition, bne_iff_ne, ne_eq, hq, not_false_eq_true, if_true,
    hqueued, fdiv]
  by_cases hd : next.transitionDelta = 0
  · simp [hd]
  · simp only [hd, if_false]

theorem updateWeatherTransitionsFloat_collapse (m : WeatherManager) (e : ℚ)
    (h : m.mFastForward = true ∨ m.mNextWeather = invalidWeatherID) :
    m.updateWeatherTransitionsFloat e
      = some { m with
          mCurrentWeather :=
            if m.mQueuedWeather ≠ invalidWeatherID then m.mQueuedWeather
            else if m.mNextWeather ≠ invalidWeatherID then m.mNextWeather
            else m.mCurrentWeather
          mNextWeather := invalidWeatherID
          mQueuedWeather := invalidWeatherID
          mFastForward := false } := by
  have hc : (!m.mFastForward && m.inTransition) = false := by
    rcases h with h | h
    · simp [h]
    · simp [WeatherManager.inTransition, h]
  unfold WeatherManager.updateWeatherTransitionsFloat
  rw [hc]
  by_cases hq : m.mQueuedWeather = invalidWeatherID
  · by_cases hn : m.mNextWeather = invalidWeatherID
    · simp [hq, hn]
    · simp [hq, hn]
  · simp [hq]

theorem updateFloat_single (m : WeatherManager) (id : Int) (w : Weather) (f e : ℚ)
    (hff : m.mFastForward = false) (hq : m.mQueuedWeather = invalidWeatherID)
    (hw : weatherSetting m.mWeatherSettings id = some w) :
    ({ m with mNextWeather := id, mTransitionFactor := f }).updateWeatherTransitionsFloat e
      = some (if f32 (f - f32 (e * w.transitionDelta)) ≤ 0 then
          { m with mCurrentWeather := id, mNextWeather := invalidWeatherID,
                   mTransitionFactor := 0 }
        else { m with mNextWeather := id,
                      mTransitionFactor := f32 (f - f32 (e * w.transitionDelta)) }) := by
  have hid := weatherSetting_ne_invalid hw
  by_cases hle : f32 (f - f32 (e * w.transitionDelta)) ≤ 0
  · rw [if_pos hle]
    rw [updateWeatherTransitionsFloat_finish
      { m with mNextWeather := id, mTransitionFactor := f } e w hff hid hw hle hq]
    simp [hq]
  · rw [if_neg hle]
    exact updateWeatherTransitionsFloat_running
      { m with mNextWeather := id, mTransitionFactor := f } e w hff hid hw (not_le.mp hle)

theorem updateFloat_done (m : WeatherManager) (id : Int) (e : ℚ)
    (hff : m.mFastForward = false) (hq : m.mQueuedWeather = invalidWeatherID) :
    ({ m with mCurrentWeather := id, mNextWeather := invalidWeatherID,
              mTransitionFactor := 0 }).updateWeatherTransitionsFloat e
      = some { m with mCurrentWeather := id, mNextWeather := invalidWeatherID,
                      mTransitionFactor := 0 } := by
  rw [updateWeatherTransitionsFloat_collapse _ e (Or.inr rfl)]
  simp [hq, hff]

theorem updateAllFloat_done (m : WeatherManager) (id : Int) (es : List ℚ)
    (hff : m.mFastForward = false) (hq : m.mQueuedWeather = invalidWeatherID) :
    ({ m with mCurrentWeather := id, mNextWeather := invalidWeatherID,
              mTransitionFactor := 0 }).updateAllFloat es
      = some { m with mCurrentWeather := id, mNextWeather := invalidWeatherID,
                      mTransitionFactor := 0 } := by
  induction es with
  | nil => rfl
  | cons e es ih =>
    simp only [WeatherManager.updateAllFloat]
    rw [updateFloat_done m id e hff hq, Option.some_bind]
    exact ih

theorem updateAllFloat_append (es1 es2 : List ℚ) :
    ∀ m : WeatherManager,
      m.updateAllFloat (es1 ++ es2)
        = (m.updateAllFloat es1).bind (fun s => s.updateAllFloat es2) := by
  induction es1 with
  | nil =>
    intro m
    rfl
  | cons e es ih =>
    intro m
    simp only [List.cons_append, WeatherManager.updateAllFloat]
    cases h : m.updateWeatherTransitionsFloat e with
    | none => rfl
    | some s => exact ih s

theorem updateAllFloat_cons_running (m : WeatherManager) (id : Int) (w : Weather)
    (f e g : ℚ) (es : List ℚ)
    (hff : m.mFastForward = false) (hq : m.mQueuedWeather = invalidWeatherID)
    (hw : weatherSetting m.mWeatherSettings id = some w)
    (hg : f32 (f - f32 (e * w.transitionDelta)) = g) (hpos : 0 < g) :
    ({ m with mNextWeather := id, mTransitionFactor := f }).updateAllFloat (e :: es)
      = ({ m with mNextWeather := id, mTransitionFactor := g }).updateAllFloat es := by
  simp only [WeatherManager.updateAllFloat]
  rw [updateFloat_single m id w f e hff hq hw, Option.some_bind, hg, if_neg (not_le.mpr hpos)]

theorem f32_step_le (f p : ℚ) (hf : f32 f = f) (hp : 0 ≤ p) : f32 (f - p) ≤ f := by
  obtain ⟨n, k, hn, hk, hform⟩ := f32_form f
  rw [hf] at hform
  exact f32_le_of_le (f - p) f n k hn hk hform (by linarith)

theorem updateAllFloat_single_invariant (m : WeatherManager) (id : Int) (w : Weather)
    (hff : m.mFastForward = false) (hq : m.mQueuedWeather = invalidWeatherID)
    (hw : weatherSetting m.mWeatherSettings id = some w)
    (hdelta : 0 ≤ w.transitionDelta) (es : List ℚ) :
    (∀ x ∈ es, 0 ≤ x) → ∀ f : ℚ, 0 < f → f ≤ 1 → f32 f = f →
      (∃ g : ℚ, 0 < g ∧ g ≤ 1 ∧ f32 g = g ∧
        ({ m with mNextWeather := id, mTransitionFactor := f }).updateAllFloat es
          = some { m with mNextWeather := id, mTransitionFactor := g }) ∨
      ({ m with mNextWeather := id, mTransitionFactor := f }).updateAllFloat es
        = some { m with mCurrentWeather := id, mNextWeather := invalidWeatherID,
                        mTransitionFactor := 0 } := by
  induction es with
  | nil =>
    intro _ f hf h1 hfl
    exact Or.inl ⟨f, hf, h1, hfl, rfl⟩
  | cons e es ih =>
    intro hes f hf h1 hfl
    have he : 0 ≤ e := hes e (List.mem_cons_self _ _)
    have hes' : ∀ x ∈ es, 0 ≤ x := fun x hx => hes x (List.mem_cons_of_mem _ hx)
    simp only [WeatherManager.updateAllFloat]
    rw [updateFloat_single m id w f e hff hq hw, Option.some_bind]
    by_cases hstep : f32 (f - f32 (e * w.transitionDelta)) ≤ 0
    · rw [if_pos hstep]
      exact Or.inr (updateAllFloat_done m id es hff hq)
    · rw [if_neg hstep]
      exact ih hes' _ (not_le.mp hstep)
        (le_trans (f32_step_le f _ hfl (f32_nonneg _ (mul_nonneg he hdelta))) h1)
        (f32_f32 _)

/-- C3 (as the code has it): start Steady on `c` (nothing next, nothing queued) with
fast-forward clear and request a valid `id != c` whose profile has a transition speed > 0.
Then, after any number of earlier `updateWeatherTransitions` calls with elapsed times > 0
and no further request, every call with `e > 0`, evaluated in binary32, succeeds and either
leaves the engine changing from `c` toward `id` with a factor that is > 0 and not larger
than before the call, and strictly smaller when `e * transitionDelta(id) >= 2^-24`, or
leaves it Steady on `id` with factor 0. In particular the factor is never <= 0 while
`mNextWeather` is still set. -/
theorem c3_transition_not_increasing (m : WeatherManager) (id : Int) (w : Weather)
    (es : List ℚ) (e : ℚ)
    (hsteady : m.mNextWeather = invalidWeatherID)
    (hq : m.mQueuedWeather = invalidWeatherID) (hff : m.mFastForward = false)
    (hne : id ≠ m.mCurrentWeather)
    (hw : weatherSetting m.mWeatherSettings id = some w)
    (hpos : 0 < w.transitionDelta) (hes : ∀ x ∈ es, 0 < x) (he : 0 < e) :
    ∃ m1 s s', m.addWeatherTransition id = some m1 ∧ m1.mTransitionFactor = 1 ∧
      m1.updateAllFloat es = some s ∧ s.updateWeatherTransitionsFloat e = some s' ∧
      ((s'.mCurrentWeather = m.mCurrentWeather ∧ s'.mNextWeather = id ∧
          0 < s'.mTransitionFactor ∧ s'.mTransitionFactor ≤ s.mTransitionFactor ∧
          (1 / 16777216 ≤ e * w.transitionDelta →
            s'.mTransitionFactor < s.mTransitionFactor)) ∨
        (s'.mCurrentWeather = id ∧ s'.mNextWeather = invalidWeatherID ∧
          s'.mTransitionFactor = 0)) ∧
      (s'.mNextWeather ≠ invalidWeatherID → 0 < s'.mTransitionFactor) := by
  have hvalid := (weatherSetting_isSome_iff m.mWeatherSettings id).mp ⟨w, hw⟩
  have hadd := addWeatherTransition_steady m id hsteady hvalid hne
  have hprod : 0 ≤ f32 (e * w.transitionDelta) :=
    f32_nonneg _ (le_of_lt (mul_pos he hpos))
  rcases updateAllFloat_single_invariant m id w hff hq hw (le_of_lt hpos) es
      (fun x hx => le_of_lt (hes x hx)) 1 one_pos (le_refl 1) f32_one
    with ⟨g, hg, hg1, hgf, hrun⟩ | hrun
  · have hupd := updateFloat_single m id w g e hff hq hw
    by_cases hstep : f32 (g - f32 (e * w.transitionDelta)) ≤ 0
    · rw [if_pos hstep] at hupd
      exact ⟨_, _, _, hadd, rfl, hrun, hupd, Or.inr ⟨rfl, rfl, rfl⟩,
        fun h => absurd rfl h⟩
    · rw [if_neg hstep] at hupd
      refine ⟨_, _, _, hadd, rfl, hrun, hupd,
        Or.inl ⟨rfl, rfl, not_le.mp hstep, f32_step_le g _ hgf hprod, ?_⟩,
        fun _ => not_le.mp hstep⟩
      intro hbig
      exact f32_sub_lt g _ hgf hg hg1
        (le_f32_of_le _ (1 / 16777216) 1 (-24) (by norm_num) (by norm_num) (by norm_num)
          hbig)
  · exact ⟨_, _, _, hadd, rfl, hrun, updateFloat_done m id e hff hq,
      Or.inr ⟨rfl, rfl, rfl⟩, fun h => absurd rfl h⟩

/-- Witness of C3: Steady on weather 0, request of weather 4 at speed `0.1f`; after advances
by 2 and by 3 seconds, an advance by 1 second. -/
theorem c3_transition_not_increasing_witness :
    (0 : ℚ) < (profileWithDelta tenthFloat).transitionDelta ∧
    ∃ m1 s s',
      (engine tenthFloat false 0 0 invalidWeatherID invalidWeatherID).addWeatherTransition 4
        = some m1 ∧ m1.mTransitionFactor = 1 ∧
      m1.updateAllFloat [2, 3] = some s ∧ s.updateWeatherTransitionsFloat 1 = some s' ∧
      ((s'.mCurrentWeather
            = (engine tenthFloat false 0 0 invalidWeatherID invalidWeatherID).mCurrentWeather ∧
          s'.mNextWeather = 4 ∧
          0 < s'.mTransitionFactor ∧ s'.mTransitionFactor ≤ s.mTransitionFactor ∧
          (1 / 16777216 ≤ 1 * (profileWithDelta tenthFloat).transitionDelta →
            s'.mTransitionFactor < s.mTransitionFactor)) ∨
        (s'.mCurrentWeather = 4 ∧ s'.mNextWeather = invalidWeatherID ∧
          s'.mTransitionFactor = 0)) ∧
      (s'.mNextWeather ≠ invalidWeatherID → 0 < s'.mTransitionFactor) :=
  ⟨by norm_num [profileWithDelta, Weather.transitionDelta, tenthFloat],
   c3_transition_not_increasing
     (engine tenthFloat false 0 0 invalidWeatherID invalidWeatherID) 4
     (profileWithDelta tenthFloat) [2, 3] 1 rfl rfl rfl (by decide) rfl
     (by norm_num [profileWithDelta, Weather.transitionDelta, tenthFloat])
     (by
       intro x hx
       simp only [List.mem_cons, List.mem_singleton, List.not_mem_nil, or_false] at hx
       rcases hx with hx | hx <;> rw [hx] <;> norm_num)
     one_pos⟩

/-- Counterexample to C3 as stated: Steady on weather 0, request of weather 4 at speed
`0.1f`, then an advance by `2^-24` seconds. The product `2^-24 * 0.1f` is about 6e-9 and
the difference `1.0f - 6e-9` rounds back to `1.0f`: the call leaves the engine changing
toward 4 with the factor 1 it had before, not a strictly smaller one. -/
theorem c3_counterexample :
    (0 : ℚ) < (profileWithDelta tenthFloat).transitionDelta ∧
    (0 : ℚ) < 1 / 16777216 ∧
    ∃ m1 s',
      (engine tenthFloat false 0 0 invalidWeatherID invalidWeatherID).addWeatherTransition 4
        = some m1 ∧ m1.mTransitionFactor = 1 ∧
      m1.updateWeatherTransitionsFloat (1 / 16777216) = some s' ∧
      s'.mNextWeather = 4 ∧ s'.mTransitionFactor = 1 ∧
      ¬ s'.mTransitionFactor < m1.mTransitionFactor := by
  have hdelta : (profileWithDelta tenthFloat).transitionDelta = tenthFloat := rfl
  have hp : f32 (1 / 16777216 * tenthFloat) = 13421773 / 2251799813685248 :=
    (f32_fixed (1 / 16777216 * tenthFloat) (13421773) (-51) (by norm_num) (by norm_num)
        (by norm_num [zpow_neg, tenthFloat])).trans (by norm_num [zpow_neg, tenthFloat])
  have hg : f32 (1 - 13421773 / 2251799813685248) = 1 := by
    rw [f32_eval (1 - 13421773 / 2251799813685248) (-1) (16777216) (by norm_num)
      (by norm_num [abs_of_pos]) (by norm_num [abs_of_pos]) (by
        unfold roundEven
        norm_num [Int.floor_eq_iff])]
    norm_num
  have hstep : f32 (1 - f32 (1 / 16777216 * (profileWithDelta tenthFloat).transitionDelta))
      = 1 := by
    rw [hdelta, hp, hg]
  have hupd := updateFloat_single
    (engine tenthFloat false 0 0 invalidWeatherID invalidWeatherID) 4
    (profileWithDelta tenthFloat) 1 (1 / 16777216) rfl rfl rfl
  rw [hstep, if_neg (by norm_num)] at hupd
  have hspeed : (0 : ℚ) < (profileWithDelta tenthFloat).transitionDelta := by
    rw [hdelta]
    norm_num [tenthFloat]
  refine ⟨hspeed, by norm_num, _, _,
    addWeatherTransition_steady _ 4 rfl (by decide) (by decide), rfl, hupd, rfl, rfl, ?_⟩
  exact lt_irrefl _

/-- C4 (as the code has it): start Steady on `c` (nothing next, nothing queued) with
fast-forward clear and request a valid `id != c` whose profile has a transition speed > 0,
which sets `mNextWeather = id` and the factor to 1. Then one `updateWeatherTransitions`
call whose elapsed time `e` has `e * transitionDelta(id) >= 1`, evaluated in binary32 and
coming after any number of earlier calls with elapsed times >= 0, ends with
`mCurrentWeather == id`, `mNextWeather` and `mQueuedWeather` unset and factor 0. -/
theorem c4_transition_completes_in_one_call (m : WeatherManager) (id : Int) (w : Weather)
    (es : List ℚ) (e : ℚ)
    (hsteady : m.mNextWeather = invalidWeatherID)
    (hq : m.mQueuedWeather = invalidWeatherID) (hff : m.mFastForward = false)
    (hne : id ≠ m.mCurrentWeather)
    (hw : weatherSetting m.mWeatherSettings id = some w)
    (hpos : 0 < w.transitionDelta) (hes : ∀ x ∈ es, 0 ≤ x)
    (he : 1 ≤ e * w.transitionDelta) :
    ∃ m1 s, m.addWeatherTransition id = some m1 ∧
      m1.mNextWeather = id ∧ m1.mTransitionFactor = 1 ∧
      m1.updateAllFloat (es ++ [e]) = some s ∧
      s.mCurrentWeather = id ∧ s.mNextWeather = invalidWeatherID ∧
      s.mQueuedWeather = invalidWeatherID ∧ s.mTransitionFactor = 0 := by
  have hvalid := (weatherSetting_isSome_iff m.mWeatherSettings id).mp ⟨w, hw⟩
  have hlast : ∀ g : ℚ, g ≤ 1 →
      ({ m with mNextWeather := id, mTransitionFactor := g }).updateAllFloat [e]
        = some { m with mCurrentWeather := id, mNextWeather := invalidWeatherID,
                        mTransitionFactor := 0 } := by
    intro g hg1
    have hp : 1 ≤ f32 (e * w.transitionDelta) :=
      le_f32_of_le _ 1 1 0 (by norm_num) (by norm_num) (by norm_num) he
    have hle : f32 (g - f32 (e * w.transitionDelta)) ≤ 0 := f32_nonpos _ (by linarith)
    simp only [WeatherManager.updateAllFloat]
    rw [updateFloat_single m id w g e hff hq hw, Option.some_bind, if_pos hle]
  refine ⟨_, { m with mCurrentWeather := id, mNextWeather := invalidWeatherID,
                      mTransitionFactor := 0 },
    addWeatherTransition_steady m id hsteady hvalid hne, rfl, rfl, ?_, rfl, rfl, hq, rfl⟩
  rw [updateAllFloat_append]
  rcases updateAllFloat_single_invariant m id w hff hq hw (le_of_lt hpos) es hes 1 one_pos
      (le_refl 1) f32_one with ⟨g, _, hg1, _, hrun⟩ | hrun
  · rw [hrun, Option.some_bind]
    exact hlast g hg1
  · rw [hrun, Option.some_bind]
    exact updateAllFloat_done m id [e] hff hq

/-- Witness of C4 (c = 0, id = 4, "Rain"): at speed `0.1f`, after an advance by 3 seconds,
one advance by 10 seconds completes the change to weather 4. -/
theorem c4_transition_completes_in_one_call_witness :
    (1 : ℚ) ≤ 10 * (profileWithDelta tenthFloat).transitionDelta ∧
    ∃ m1 s,
      (engine tenthFloat false 0 0 invalidWeatherID invalidWeatherID).addWeatherTransition 4
        = some m1 ∧
      m1.mNextWeather = 4 ∧ m1.mTransitionFactor = 1 ∧
      m1.updateAllFloat ([3] ++ [10]) = some s ∧
      s.mCurrentWeather = 4 ∧ s.mNextWeather = invalidWeatherID ∧
      s.mQueuedWeather = invalidWeatherID ∧ s.mTransitionFactor = 0 :=
  ⟨by norm_num [profileWithDelta, Weather.transitionDelta, tenthFloat],
   c4_transition_completes_in_one_call
     (engine tenthFloat false 0 0 invalidWeatherID invalidWeatherID) 4
     (profileWithDelta tenthFloat) [3] 10 rfl rfl rfl (by decide) rfl
     (by norm_num [profileWithDelta, Weather.transitionDelta, tenthFloat])
     (by
       intro x hx
       simp only [List.mem_singleton] at hx
       rw [hx]
       norm_num)
     (by norm_num [profileWithDelta, Weather.transitionDelta, tenthFloat])⟩

/-- Counterexample to C4 as stated: Steady on weather 0, request of weather 4 at speed
`0.1f`, then five advances by 2 seconds. The elapsed times sum to 10 seconds and
`10 * 0.1f >= 1`, but each difference is rounded to binary32 and the factor goes
1, 0.8000000119, 0.6000000238, 0.4000000358, 0.2000000328, 2^-25: after the five calls the
engine is still changing from 0 toward 4, with a factor above 0. -/
theorem c4_counterexample :
    (1 : ℚ) ≤ [(2 : ℚ), 2, 2, 2, 2].sum * (profileWithDelta tenthFloat).transitionDelta ∧
    ∃ m1 s,
      (engine tenthFloat false 0 0 invalidWeatherID invalidWeatherID).addWeatherTransition 4
        = some m1 ∧
      m1.mNextWeather = 4 ∧ m1.mTransitionFactor = 1 ∧
      m1.updateAllFloat [2, 2, 2, 2, 2] = some s ∧
      s.mCurrentWeather = 0 ∧ s.mNextWeather = 4 ∧ s.mTransitionFactor = 1 / 33554432 := by
  have hdelta : (profileWithDelta tenthFloat).transitionDelta = tenthFloat := rfl
  have hp : f32 (2 * tenthFloat) = 13421773 / 67108864 :=
    (f32_fixed (2 * tenthFloat) (13421773) (-26) (by norm_num) (by norm_num)
        (by norm_num [zpow_neg, tenthFloat])).trans (by norm_num [zpow_neg, tenthFloat])
  have hg1 : f32 (1 - 13421773 / 67108864) = 13421773 / 16777216 := by
    rw [f32_eval (1 - 13421773 / 67108864) (-1) (13421773) (by norm_num)
      (by norm_num [abs_of_pos]) (by norm_num [abs_of_pos]) (by
        unfold roundEven
        norm_num [Int.floor_eq_iff])]
    norm_num
  have hg2 : f32 (13421773 / 16777216 - 13421773 / 67108864) = 5033165 / 8388608 := by
    rw [f32_eval (13421773 / 16777216 - 13421773 / 67108864) (-1) (10066330) (by norm_num)
      (by norm_num [abs_of_pos]) (by norm_num [abs_of_pos]) (by
        unfold roundEven
        norm_num [Int.floor_eq_iff])]
    norm_num
  have hg3 : f32 (5033165 / 8388608 - 13421773 / 67108864) = 6710887 / 16777216 := by
    rw [f32_eval (5033165 / 8388608 - 13421773 / 67108864) (-2) (13421774) (by norm_num)
      (by norm_num [abs_of_pos]) (by norm_num [abs_of_pos]) (by
        unfold roundEven
        norm_num [Int.floor_eq_iff])]
    norm_num
  have hg4 : f32 (6710887 / 16777216 - 13421773 / 67108864) = 13421775 / 67108864 :=
    (f32_fixed (6710887 / 16777216 - 13421773 / 67108864) (13421775) (-26) (by norm_num)
      (by norm_num)
        (by norm_num [zpow_neg])).trans (by norm_num [zpow_neg])
  have hg5 : f32 (13421775 / 67108864 - 13421773 / 67108864) = 1 / 33554432 :=
    (f32_fixed (13421775 / 67108864 - 13421773 / 67108864) (8388608) (-48) (by norm_num)
      (by norm_num)
        (by norm_num [zpow_neg])).trans (by norm_num [zpow_neg])
  have hrun :
      ({ engine tenthFloat false 0 0 invalidWeatherID invalidWeatherID with
          mNextWeather := 4, mTransitionFactor := 1 } : WeatherManager).updateAllFloat
          [2, 2, 2, 2, 2]
        = some { engine tenthFloat false 0 0 invalidWeatherID invalidWeatherID with
            mNextWeather := 4, mTransitionFactor := 1 / 33554432 } := by
    rw [updateAllFloat_cons_running
        (engine tenthFloat false 0 0 invalidWeatherID invalidWeatherID) 4
        (profileWithDelta tenthFloat) _ 2 _ _ rfl rfl rfl
        (by rw [hdelta, hp, hg1]) (by norm_num),
      updateAllFloat_cons_running
        (engine tenthFloat false 0 0 invalidWeatherID invalidWeatherID) 4
        (profileWithDelta tenthFloat) _ 2 _ _ rfl rfl rfl
        (by rw [hdelta, hp, hg2]) (by norm_num),
      updateAllFloat_cons_running
        (engine tenthFloat false 0 0 invalidWeatherID invalidWeatherID) 4
        (profileWithDelta tenthFloat) _ 2 _ _ rfl rfl rfl
        (by rw [hdelta, hp, hg3]) (by norm_num),
      updateAllFloat_cons_running
        (engine tenthFloat false 0 0 invalidWeatherID invalidWeatherID) 4
        (profileWithDelta tenthFloat) _ 2 _ _ rfl rfl rfl
        (by rw [hdelta, hp, hg4]) (by norm_num),
      updateAllFloat_cons_running
        (engine tenthFloat false 0 0 invalidWeatherID invalidWeatherID) 4
        (profileWithDelta tenthFloat) _ 2 _ _ rfl rfl rfl
        (by rw [hdelta, hp, hg5]) (by norm_num)]
    rfl
  have hsum : (1 : ℚ)
      ≤ [(2 : ℚ), 2, 2, 2, 2].sum * (profileWithDelta tenthFloat).transitionDelta := by
    rw [hdelta]
    norm_num [tenthFloat]
  exact ⟨hsum, _, _,
    addWeatherTransition_steady _ 4 rfl (by decide) (by decide), rfl, rfl, hrun, rfl, rfl,
    rfl⟩

/-! ## Weighted selection: `RegionWeather::chooseNewWeather` -/

theorem chooseLoop_spec (chance : Int) :
    ∀ (l : List Int) (sum : Int) (i0 : Nat),
      i0 ≤ RegionWeather.chooseLoop chance l sum i0 ∧
      RegionWeather.chooseLoop chance l sum i0 ≤ i0 + l.length ∧
      (∀ j, i0 + j < RegionWeather.chooseLoop chance l sum i0 →
        sum + (l.take (j + 1)).sum < chance) ∧
      (RegionWeather.chooseLoop chance l sum i0 < i0 + l.length →
        chance ≤ sum + (l.take (RegionWeather.chooseLoop chance l sum i0 - i0 + 1)).sum) := by
  intro l
  induction l with
  | nil =>
    intro sum i0
    simp [RegionWeather.chooseLoop]
  | cons c rest ih =>
    intro sum i0
    by_cases hc : chance ≤ sum + c
    · simp [RegionWeather.chooseLoop, hc]
    · obtain ⟨h1, h2, h3, h4⟩ := ih (sum + c) (i0 + 1)
      simp only [RegionWeather.chooseLoop, hc, if_false, List.length_cons]
      refine ⟨by omega, by omega, ?_, ?_⟩
      · intro j hj
        cases j with
        | zero => simpa using not_le.mp hc
        | succ j =>
          have := h3 j (by omega)
          simp only [List.take_succ_cons, List.sum_cons]
          linarith
      · intro hlt
        have := h4 (by omega)
        have hidx : RegionWeather.chooseLoop chance rest (sum + c) (i0 + 1) - i0 + 1
            = (RegionWeather.chooseLoop chance rest (sum + c) (i0 + 1) - (i0 + 1) + 1) + 1 := by
          omega
        rw [hidx, List.take_succ_cons, List.sum_cons]
        linarith

theorem chooseLoop_found (chance : Int) (l : List Int) (i : Nat)
    (hi : i < l.length) (hle : chance ≤ prefixSum l i) :
    RegionWeather.chooseLoop chance l 0 0 < l.length := by
  obtain ⟨_, h2, h3, _⟩ := chooseLoop_spec chance l 0 0
  by_contra hnot
  have hlt : 0 + i < RegionWeather.chooseLoop chance l 0 0 := by omega
  have := h3 i hlt
  unfold prefixSum at hle
  linarith

theorem weight_pos_of_least (l : List Int) (d : Int) (k : Nat) (hk : k < l.length)
    (hd : 1 ≤ d) (hle : d ≤ prefixSum l k) (hmin : ∀ j, j < k → prefixSum l j < d) :
    0 < l[k] := by
  unfold prefixSum at hle
  rw [List.sum_take_succ l k hk] at hle
  rcases Nat.eq_zero_or_pos k with h0 | hpos
  · have hz : (List.take k l).sum = 0 := by rw [h0]; simp
    rw [hz] at hle
    omega
  · have hprev := hmin (k - 1) (by omega)
    unfold prefixSum at hprev
    rw [Nat.sub_add_cancel hpos] at hprev
    omega

theorem chooseNewWeather_mWeather (r : RegionWeather) (d : Int) :
    (r.chooseNewWeather (d - 1)).mWeather
      = ((RegionWeather.chooseLoop d r.mChances 0 0 : Nat) : Int) := by
  simp [RegionWeather.chooseNewWeather]

theorem getWeather_unset (r : RegionWeather) (roll : Int)
    (h : r.mWeather = invalidWeatherID) :
    r.getWeather roll = ((r.chooseNewWeather roll).mWeather, r.chooseNewWeather roll) := by
  simp [RegionWeather.getWeather, h]

/-- C10: for every table of non-negative weights and every draw `d` in [1,100] (the value
`rollDice(100) + 1`), if some index has a prefix sum `>= d` then `chooseNewWeather` (and so
`getWeather` on a region with no weather selected) selects the least index `k` whose prefix
sum `chances[0] + ... + chances[k]` is `>= d`, and the weight at `k` is not zero. For the
weights [50,50,0,0,0,0,0,0,0,0] the draws 40, 60 and 100 select the indices 0, 1 and 1. -/
theorem c10_weighted_selection :
    (∀ (r : RegionWeather) (d : Int), 1 ≤ d → d ≤ 100 → (∀ c ∈ r.mChances, 0 ≤ c) →
      (∃ i, i < r.mChances.length ∧ d ≤ prefixSum r.mChances i) →
      ∃ k : Nat, (r.chooseNewWeather (d - 1)).mWeather = k ∧
        (r.mWeather = invalidWeatherID → (r.getWeather (d - 1)).1 = k) ∧
        k < r.mChances.length ∧ d ≤ prefixSum r.mChances k ∧
        (∀ j, j < k → prefixSum r.mChances j < d) ∧
        (∃ c, r.mChances[k]? = some c ∧ 0 < c)) ∧
    ((ascadianIsles.chooseNewWeather (40 - 1)).mWeather = 0 ∧
      (ascadianIsles.getWeather (40 - 1)).1 = 0) ∧
    ((ascadianIsles.chooseNewWeather (60 - 1)).mWeather = 1 ∧
      (ascadianIsles.getWeather (60 - 1)).1 = 1) ∧
    ((ascadianIsles.chooseNewWeather (100 - 1)).mWeather = 1 ∧
      (ascadianIsles.getWeather (100 - 1)).1 = 1) := by
  refine ⟨?_, by decide, by decide, by decide⟩
  intro r d hd1 _ _ hex
  obtain ⟨i, hi, hle⟩ := hex
  have hfound := chooseLoop_found d r.mChances i hi hle
  obtain ⟨_, _, h3, h4⟩ := chooseLoop_spec d r.mChances 0 0
  have hk : d ≤ prefixSum r.mChances (RegionWeather.chooseLoop d r.mChances 0 0) := by
    have := h4 (by omega)
    simpa [prefixSum] using this
  have hmin : ∀ j, j < RegionWeather.chooseLoop d r.mChances 0 0 →
      prefixSum r.mChances j < d := by
    intro j hj
    have := h3 j (by omega)
    simpa [prefixSum] using this
  refine ⟨RegionWeather.chooseLoop d r.mChances 0 0, chooseNewWeather_mWeather r d, ?_,
    hfound, hk, hmin, r.mChances[RegionWeather.chooseLoop d r.mChances 0 0],
    List.getElem?_eq_getElem hfound, ?_⟩
  · intro hunset
    rw [getWeather_unset r (d - 1) hunset]
    exact chooseNewWeather_mWeather r d
  · exact weight_pos_of_least r.mChances d _ hfound hd1 hk hmin

/-- Witness of C10: the table [50,50,0,0,0,0,0,0,0,0] and the draw 60 meet the hypotheses
(index 1 has prefix sum 100), and the selected index is 1. -/
theorem c10_weighted_selection_witness :
    ∃ k : Nat, (ascadianIsles.chooseNewWeather (60 - 1)).mWeather = k ∧
      (ascadianIsles.mWeather = invalidWeatherID → (ascadianIsles.getWeather (60 - 1)).1 = k) ∧
      k < ascadianIsles.mChances.length ∧ 60 ≤ prefixSum ascadianIsles.mChances k ∧
      (∀ j, j < k → prefixSum ascadianIsles.mChances j < 60) ∧
      (∃ c, ascadianIsles.mChances[k]? = some c ∧ 0 < c) :=
  c10_weighted_selection.1 ascadianIsles 60 (by decide) (by decide) (by decide)
    ⟨1, by decide, by decide⟩

/-! ## Regional weather: out-of-range selection, `setChances`, repeated `getWeather` -/

theorem prefixSum_le_sum (l : List Int) (hnn : ∀ c ∈ l, 0 ≤ c) (i : Nat) :
    prefixSum l i ≤ l.sum := by
  unfold prefixSum
  have hsplit := List.sum_take_add_sum_drop l (i + 1)
  have hdrop : 0 ≤ (l.drop (i + 1)).sum :=
    List.sum_nonneg (fun c hc => hnn c (List.mem_of_mem_drop hc))
  linarith

theorem prefixSum_last (l : List Int) : prefixSum l (l.length - 1) = l.sum := by
  unfold prefixSum
  rw [List.take_of_length_le (by omega)]

theorem chooseLoop_le_length (chance : Int) (l : List Int) :
    RegionWeather.chooseLoop chance l 0 0 ≤ l.length := by
  have := (chooseLoop_spec chance l 0 0).2.1
  omega

theorem chooseLoop_eq_length (chance : Int) (l : List Int)
    (h : ∀ i, i < l.length → prefixSum l i < chance) :
    RegionWeather.chooseLoop chance l 0 0 = l.length := by
  obtain ⟨_, h2, _, h4⟩ := chooseLoop_spec chance l 0 0
  by_contra hne
  have hlt : RegionWeather.chooseLoop chance l 0 0 < l.length := by omega
  have hle := h4 (by omega)
  have := h _ hlt
  unfold prefixSum at this
  simp only [Nat.sub_zero, zero_add] at hle
  linarith

/-- C11 (as the code has it): for every table of non-negative weights and every draw
`d >= 1` (so every draw in [1,100]), the id selected by `chooseNewWeather`, and returned by
`getWeather` on a region with no weather selected, is at most the table length; it is a
valid index when the weights sum to at least `d` (in particular to at least 100), and it
is the table length itself, one past the last index, when they sum to less than `d`. -/
theorem c11_selected_index (r : RegionWeather) (d : Int) (hd : 1 ≤ d)
    (hnn : ∀ c ∈ r.mChances, 0 ≤ c) :
    ∃ k : Nat, (r.chooseNewWeather (d - 1)).mWeather = k ∧
      (r.mWeather = invalidWeatherID → (r.getWeather (d - 1)).1 = k) ∧
      k ≤ r.mChances.length ∧
      (d ≤ r.mChances.sum → k < r.mChances.length) ∧
      (r.mChances.sum < d → k = r.mChances.length) := by
  refine ⟨RegionWeather.chooseLoop d r.mChances 0 0, chooseNewWeather_mWeather r d, ?_,
    chooseLoop_le_length d r.mChances, ?_, ?_⟩
  · intro hunset
    rw [getWeather_unset r (d - 1) hunset]
    exact chooseNewWeather_mWeather r d
  · intro hsum
    have hpos : 0 < r.mChances.length := by
      rcases Nat.eq_zero_or_pos r.mChances.length with h0 | h0
      · rw [List.length_eq_zero.mp h0] at hsum
        simp at hsum
        omega
      · exact h0
    exact chooseLoop_found d r.mChances (r.mChances.length - 1) (by omega)
      (by rw [prefixSum_last]; exact hsum)
  · intro hsum
    exact chooseLoop_eq_length d r.mChances
      (fun i _ => lt_of_le_of_lt (prefixSum_le_sum r.mChances hnn i) hsum)

/-- Witness of C11: the weights 50, 50, 0, ... and the draw 60 select a valid index. -/
theorem c11_selected_index_witness :
    ∃ k : Nat, (ascadianIsles.chooseNewWeather (60 - 1)).mWeather = k ∧
      (ascadianIsles.mWeather = invalidWeatherID → (ascadianIsles.getWeather (60 - 1)).1 = k) ∧
      k ≤ ascadianIsles.mChances.length ∧
      ((60 : Int) ≤ ascadianIsles.mChances.sum → k < ascadianIsles.mChances.length) ∧
      (ascadianIsles.mChances.sum < (60 : Int) → k = ascadianIsles.mChances.length) :=
  c11_selected_index ascadianIsles 60 (by decide) (by decide)

/-- Counterexample to C11 as stated: the table 10, 10, 0, 0, 0, 0, 0, 0, 0, 0 is not empty
and the draw 50 lies in [1,100], yet `chooseNewWeather` selects, and `getWeather` returns,
the id 10, which is the table length and not a valid index. -/
theorem c11_counterexample :
    sparseRegion.mChances ≠ [] ∧ (1 : Int) ≤ 50 ∧ (50 : Int) ≤ 100 ∧
    (sparseRegion.chooseNewWeather (50 - 1)).mWeather = 10 ∧
    (sparseRegion.getWeather (50 - 1)).1 = 10 ∧
    ¬ ((sparseRegion.getWeather (50 - 1)).1 < (sparseRegion.mChances.length : Int)) := by
  decide

theorem setChancesLoop_some (chances : List Int) :
    ∀ (i : Nat) (table : List Int), i + chances.length ≤ table.length →
      ∃ res, RegionWeather.setChancesLoop chances i table = some res ∧
        res.length = table.length ∧
        ∀ j, res[j]? = if i ≤ j ∧ j < i + chances.length then chances[j - i]? else table[j]? := by
  induction chances with
  | nil =>
    intro i table _
    refine ⟨table, rfl, rfl, ?_⟩
    intro j
    have hj : ¬ (i ≤ j ∧ j < i + ([] : List Int).length) := by
      simp only [List.length_nil]; omega
    rw [if_neg hj]
  | cons c rest ih =>
    intro i table hlen
    simp only [List.length_cons] at hlen
    have hi : i < table.length := by omega
    obtain ⟨res, hres, hl, hget⟩ := ih (i + 1) (table.set i c)
      (by rw [List.length_set]; omega)
    refine ⟨res, ?_, ?_, ?_⟩
    · simp only [RegionWeather.setChancesLoop, hi, if_true]
      exact hres
    · rw [hl, List.length_set]
    · intro j
      rw [hget j]
      simp only [List.length_cons]
      by_cases hj : i + 1 ≤ j ∧ j < i + 1 + rest.length
      · have hj' : i ≤ j ∧ j < i + (rest.length + 1) := by omega
        rw [if_pos hj, if_pos hj']
        have hsub : j - i = (j - (i + 1)) + 1 := by omega
        rw [hsub, List.getElem?_cons_succ]
      · rw [if_neg hj]
        by_cases hji : j = i
        · have hj' : i ≤ j ∧ j < i + (rest.length + 1) := by omega
          rw [if_pos hj', hji]
          simp [hi]
        · have hj' : ¬ (i ≤ j ∧ j < i + (rest.length + 1)) := by omega
          rw [if_neg hj', List.getElem?_set_ne (Ne.symm hji)]

theorem setChancesLoop_none (chances : List Int) :
    ∀ (i : Nat) (table : List Int), i ≤ table.length → table.length < i + chances.length →
      RegionWeather.setChancesLoop chances i table = none := by
  induction chances with
  | nil =>
    intro i table h1 h2
    simp at h2
    omega
  | cons c rest ih =>
    intro i table h1 h2
    simp only [List.length_cons] at h2
    by_cases hi : i < table.length
    · simp only [RegionWeather.setChancesLoop, hi, if_true]
      exact ih (i + 1) (table.set i c) (by rw [List.length_set]; omega)
        (by rw [List.length_set]; omega)
    · simp [RegionWeather.setChancesLoop, hi]

theorem chooseNewWeather_mChances (r : RegionWeather) (roll : Int) :
    (r.chooseNewWeather roll).mChances = r.mChances := rfl

theorem setChances_defined (r : RegionWeather) (chances : List Int) (roll : Int)
    (hlen : chances.length ≤ r.mChances.length) :
    ∃ r', r.setChances chances roll = some r' ∧
      r'.mChances.length = r.mChances.length ∧
      (∀ j, r'.mChances[j]? = if j < chances.length then chances[j]? else r.mChances[j]?) ∧
      (r' = { r with mChances := r'.mChances } ∨
        r' = ({ r with mChances := r'.mChances } : RegionWeather).chooseNewWeather roll) ∧
      ((r.mWeather < 0 ∨ r.mWeather.toNat ≥ r.mChances.length
          ∨ r'.mChances[r.mWeather.toNat]? = some 0) →
        r' = ({ r with mChances := r'.mChances } : RegionWeather).chooseNewWeather roll) ∧
      (¬ (r.mWeather < 0 ∨ r.mWeather.toNat ≥ r.mChances.length
          ∨ r'.mChances[r.mWeather.toNat]? = some 0) →
        r' = { r with mChances := r'.mChances }) := by
  obtain ⟨res, hres, hl, hget⟩ := setChancesLoop_some chances 0 r.mChances (by omega)
  have hget' : ∀ j, res[j]? = if j < chances.length then chances[j]? else r.mChances[j]? := by
    intro j
    rw [hget j]
    simp
  unfold RegionWeather.setChances
  rw [hres]
  simp only []
  by_cases hc : r.mWeather < 0 ∨ r.mWeather.toNat ≥ res.length
      ∨ res[r.mWeather.toNat]? = some 0
  · rw [if_pos hc]
    refine ⟨_, rfl, hl, hget', Or.inr rfl, fun _ => rfl, ?_⟩
    intro hnot
    exact absurd (by rw [hl] at hc; exact hc) hnot
  · rw [if_neg hc]
    refine ⟨_, rfl, hl, hget', Or.inl rfl, ?_, fun _ => rfl⟩
    intro h
    exact absurd (by rw [hl]; exact h) hc

theorem setChances_too_long (r : RegionWeather) (chances : List Int) (roll : Int)
    (hlen : r.mChances.length < chances.length) :
    r.setChances chances roll = none := by
  unfold RegionWeather.setChances
  rw [setChancesLoop_none chances 0 r.mChances (by omega) (by omega)]

theorem getWeather_selected (r : RegionWeather) (roll : Int)
    (h : r.mWeather ≠ invalidWeatherID) : r.getWeather roll = (r.mWeather, r) := by
  simp [RegionWeather.getWeather, h]

theorem chooseNewWeather_ne_invalid (r : RegionWeather) (roll : Int) :
    (r.chooseNewWeather roll).mWeather ≠ invalidWeatherID := by
  simp only [RegionWeather.chooseNewWeather, invalidWeatherID]
  omega

theorem chooseLoop_weight_ne_zero (d : Int) (hd : 1 ≤ d) (l : List Int) :
    l[RegionWeather.chooseLoop d l 0 0]? ≠ some 0 := by
  intro hz
  obtain ⟨hlt, hval⟩ := List.getElem?_eq_some.mp hz
  obtain ⟨_, _, h3, h4⟩ := chooseLoop_spec d l 0 0
  have hk : d ≤ prefixSum l (RegionWeather.chooseLoop d l 0 0) := by
    have := h4 (by omega)
    simpa [prefixSum] using this
  have hmin : ∀ j, j < RegionWeather.chooseLoop d l 0 0 → prefixSum l j < d := by
    intro j hj
    have := h3 j (by omega)
    simpa [prefixSum] using this
  have hpos := weight_pos_of_least l d _ hlt hd hk hmin
  rw [hval] at hpos
  exact absurd hpos (lt_irrefl 0)

/-- C12: let a region's selected id be a valid index `k` and let `setChances` write a table
no longer than the region's own. If the entry at `k` is 0 afterwards then, for every draw
`roll + 1 >= 1` made by `setChances` (so every draw in [1,100]) and whatever `getWeather`
would draw, the next `getWeather` returns the id that `setChances` has freshly drawn from
the new table, it is different from `k`, and `getWeather` leaves the region as it is. -/
theorem c12_reselection (r : RegionWeather) (chances : List Int) (roll roll2 : Int)
    (hroll : 0 ≤ roll) (hlen : chances.length ≤ r.mChances.length)
    (_hk : 0 ≤ r.mWeather) :
    ∃ r', r.setChances chances roll = some r' ∧
      (r'.mChances[r.mWeather.toNat]? = some 0 →
        (r'.getWeather roll2).1 ≠ r.mWeather ∧
        (r'.getWeather roll2).1
          = ((RegionWeather.chooseLoop (roll + 1) r'.mChances 0 0 : Nat) : Int) ∧
        (r'.getWeather roll2).2 = r') := by
  obtain ⟨r', hset, _, _, _, hre, _⟩ := setChances_defined r chances roll hlen
  refine ⟨r', hset, ?_⟩
  intro hz
  have hr' := hre (Or.inr (Or.inr hz))
  have hw : r'.mWeather = ((RegionWeather.chooseLoop (roll + 1) r'.mChances 0 0 : Nat) : Int) := by
    rw [hr']
    rfl
  have hne : r'.mWeather ≠ invalidWeatherID := by
    rw [hr']
    exact chooseNewWeather_ne_invalid _ roll
  rw [getWeather_selected r' roll2 hne]
  refine ⟨?_, hw, rfl⟩
  intro heq
  simp only [] at heq
  have hidx : r.mWeather.toNat = RegionWeather.chooseLoop (roll + 1) r'.mChances 0 0 := by
    rw [← heq, hw]
    exact Int.toNat_ofNat _
  rw [hidx] at hz
  exact chooseLoop_weight_ne_zero (roll + 1) (by omega) r'.mChances hz

/-- Witness of C12: the region has Cloudy (1) selected and the weights 50, 50, 0, ...;
`setChances` with the weights 100, 0 zeroes the entry at 1 and, with the draw 60, selects
weather 0, which the next `getWeather` returns. -/
theorem c12_reselection_witness :
    (∃ r', cloudyRegion.setChances [100, 0] 59 = some r' ∧
      (r'.mChances[cloudyRegion.mWeather.toNat]? = some 0 →
        (r'.getWeather 7).1 ≠ cloudyRegion.mWeather ∧
        (r'.getWeather 7).1
          = ((RegionWeather.chooseLoop (59 + 1) r'.mChances 0 0 : Nat) : Int) ∧
        (r'.getWeather 7).2 = r')) ∧
    cloudyRegion.setChances [100, 0] 59
      = some { mWeather := 0, mChances := [100, 0, 0, 0, 0, 0, 0, 0, 0, 0] } ∧
    ([100, 0, 0, 0, 0, 0, 0, 0, 0, 0] : List Int)[cloudyRegion.mWeather.toNat]? = some 0 :=
  ⟨c12_reselection cloudyRegion [100, 0] 59 7 (by decide) (by decide) (by decide),
   by decide, by decide⟩

/-- C13, the code at a failing input: a region with ten weights and `setChances` with
eleven. `reserve` leaves the size at ten, so the eleventh write, `mChances[10] = 0`, is out
of bounds and the call has no defined result; the same holds for every table longer than
the region's. For a table that is not longer, entry `i` becomes `w[i]` for `i < len(w)`,
the other entries and the length are unchanged. -/
theorem c13_setChances_no_growth :
    cloudyRegion.mChances.length = 10 ∧ elevenChances.length = 11 ∧
    cloudyRegion.setChances elevenChances 59 = none ∧
    (∀ (r : RegionWeather) (w : List Int) (roll : Int),
      r.mChances.length < w.length → r.setChances w roll = none) ∧
    (∀ (r : RegionWeather) (w : List Int) (roll : Int),
      w.length ≤ r.mChances.length →
      ∃ r', r.setChances w roll = some r' ∧
        r'.mChances.length = r.mChances.length ∧
        (∀ i, i < w.length → r'.mChances[i]? = w[i]?) ∧
        (∀ i, w.length ≤ i → r'.mChances[i]? = r.mChances[i]?)) := by
  refine ⟨rfl, rfl, by decide, setChances_too_long, ?_⟩
  intro r w roll hlen
  obtain ⟨r', hset, hl, hget, _⟩ := setChances_defined r w roll hlen
  refine ⟨r', hset, hl, ?_, ?_⟩
  · intro i hi
    rw [hget i, if_pos hi]
  · intro i hi
    rw [hget i, if_neg (by omega)]

/-- C14: for every region and every draw, after a `getWeather` call has returned `id`,
a further `getWeather` call returns the same `id` whatever it would draw (it makes no
draw) and leaves the region unchanged; so does any number of further calls. -/
theorem c14_getWeather_idempotent (r : RegionWeather) (roll roll2 : Int)
    (rolls : List Int) :
    (r.getWeather roll).2.getWeather roll2 = ((r.getWeather roll).1, (r.getWeather roll).2) ∧
    rolls.foldl (fun s x => (s.getWeather x).2) (r.getWeather roll).2 = (r.getWeather roll).2 ∧
    (∀ x ∈ rolls,
      ((rolls.foldl (fun s x => (s.getWeather x).2) (r.getWeather roll).2).getWeather x).1
        = (r.getWeather roll).1) := by
  have hne : (r.getWeather roll).2.mWeather ≠ invalidWeatherID := by
    by_cases h : r.mWeather = invalidWeatherID
    · rw [getWeather_unset r roll h]
      exact chooseNewWeather_ne_invalid r roll
    · rw [getWeather_selected r roll h]
      exact h
  have hid : (r.getWeather roll).1 = (r.getWeather roll).2.mWeather := by
    simp [RegionWeather.getWeather]
  have hstep : ∀ x, (r.getWeather roll).2.getWeather x
      = ((r.getWeather roll).1, (r.getWeather roll).2) := by
    intro x
    rw [getWeather_selected _ x hne, hid]
  have hfold : rolls.foldl (fun s x => (s.getWeather x).2) (r.getWeather roll).2
      = (r.getWeather roll).2 := by
    induction rolls with
    | nil => rfl
    | cons x xs ih =>
      rw [List.foldl_cons, hstep x]
      exact ih
  refine ⟨hstep roll2, hfold, ?_⟩
  intro x _
  rw [hfold, hstep x]

/-! ## Moons: `MoonModel` -/

theorem toUnsigned_small (x : Int) (h0 : 0 ≤ x) (h8 : x < 8) : toUnsigned x = x.toNat := by
  unfold toUnsigned uintSize
  congr 1
  exact Int.emod_eq_of_lt h0 (by norm_num; omega)

theorem phase_index (day : Int) (hday : 0 ≤ day) :
    toUnsigned ((day.tdiv 3).tmod 8) = (day.toNat / 3) % 8 := by
  have h3 : 0 ≤ day / 3 := Int.ediv_nonneg hday (by norm_num)
  rw [Int.tdiv_eq_ediv hday (by norm_num), Int.tmod_eq_emod h3 (by norm_num)]
  rw [toUnsigned_small _ (by omega) (by omega)]
  omega

theorem wrapInt_of_range (i : Int) (h0 : -2147483648 ≤ i) (h1 : i < 2147483648) :
    wrapInt i = i := by
  unfold wrapInt
  norm_num
  omega

theorem unsigned_day_offset (d : Nat) (hd : d + 15 < uintSize) :
    ((d + (uintSize - 1)) % uintSize + 16) % uintSize = d + 15 := by
  unfold uintSize at *
  omega

theorem moonRiseHour_unsigned (m : MoonModel) (d : Nat) (hd : d + 15 < uintSize) :
    m.moonRiseHour d
      = f32 (m.mDailyIncrement
          + fmod (f32 (f32 ((d + 15 : Nat) : ℚ) * m.mDailyIncrement)) 24) := by
  unfold MoonModel.moonRiseHour
  simp only []
  rw [unsigned_day_offset d hd]

theorem sampleMoon_moonRiseHour (d : Nat) (hd : d + 15 < uintSize) :
    sampleMoon.moonRiseHour d = f32 (1 + fmod (f32 ((d + 15 : Nat) : ℚ)) 24) := by
  rw [moonRiseHour_unsigned sampleMoon d hd]
  have hinc : sampleMoon.mDailyIncrement = 1 := rfl
  rw [hinc, mul_one, f32_f32]

/-- C16 (as the code has it): for every time stamp with day >= 0, `MoonModel::phase`, which is the
phase of `calculateState`, equals `(day / 3) mod 8` (integer division) when the hour is
before `moonRiseHour(day)`; when it is not, and the day is below `INT_MAX = 2147483647` so
that the `int` sum `day + 1` does not overflow, the phase equals `((day + 1) / 3) mod 8`.
For every day from 0 to `INT_MAX - 1` the phase lies in 0..7. -/
theorem c16_moon_phase_below_int_max (m : MoonModel) (gameTime : TimeStamp)
    (hday : 0 ≤ gameTime.getDay) :
    (gameTime.getHour < m.moonRiseHour (toUnsigned gameTime.getDay) →
      m.phase gameTime = (gameTime.getDay.toNat / 3) % 8) ∧
    (gameTime.getDay < 2147483647 →
      ¬ gameTime.getHour < m.moonRiseHour (toUnsigned gameTime.getDay) →
      m.phase gameTime = ((gameTime.getDay.toNat + 1) / 3) % 8) ∧
    (gameTime.getDay < 2147483647 → m.phase gameTime < 8) ∧
    (m.calculateState gameTime).mPhase = m.phase gameTime := by
  have hbefore : gameTime.getHour < m.moonRiseHour (toUnsigned gameTime.getDay) →
      m.phase gameTime = (gameTime.getDay.toNat / 3) % 8 := by
    intro h
    unfold MoonModel.phase
    rw [if_pos h]
    exact phase_index _ hday
  have hafter : gameTime.getDay < 2147483647 →
      ¬ gameTime.getHour < m.moonRiseHour (toUnsigned gameTime.getDay) →
      m.phase gameTime = ((gameTime.getDay.toNat + 1) / 3) % 8 := by
    intro hmax h
    unfold MoonModel.phase
    rw [if_neg h, wrapInt_of_range _ (by omega) (by omega), phase_index _ (by omega)]
    have : (gameTime.getDay + 1).toNat = gameTime.getDay.toNat + 1 := by omega
    rw [this]
  refine ⟨hbefore, hafter, ?_, rfl⟩
  intro hmax
  by_cases h : gameTime.getHour < m.moonRiseHour (toUnsigned gameTime.getDay)
  · rw [hbefore h]
    exact Nat.mod_lt _ (by norm_num)
  · rw [hafter hmax h]
    exact Nat.mod_lt _ (by norm_num)

theorem sampleMoon_moonRiseHour_day5 : sampleMoon.moonRiseHour (toUnsigned 5) = 21 := by
  have h5 : toUnsigned 5 = 5 := by decide
  rw [h5, sampleMoon_moonRiseHour 5 (by decide)]
  have ha : f32 (((5 + 15 : Nat) : ℚ)) = 20 :=
    (f32_natCast (5 + 15) (by norm_num)).trans (by norm_num)
  have hb : fmod 20 24 = 20 := by norm_num [fmod]
  have hc : f32 (1 + 20) = 21 :=
    (f32_fixed (1 + 20) 21 0 (by norm_num) (by norm_num) (by norm_num)).trans (by norm_num)
  rw [ha, hb, hc]

/-- Witness of C16: with a daily increment of 1 the moon rises at hour 21 on day 5; the phase
at hour 3 is (5 / 3) mod 8 = 1, the phase at hour 22 is (6 / 3) mod 8 = 2. -/
theorem c16_moon_phase_below_int_max_witness :
    (0 : Int) ≤ (TimeStamp.mk 5 3).getDay ∧
    sampleMoon.phase (TimeStamp.mk 5 3) = 1 ∧ sampleMoon.phase (TimeStamp.mk 5 22) = 2 := by
  refine ⟨by decide, ?_, ?_⟩
  · rw [(c16_moon_phase_below_int_max sampleMoon (TimeStamp.mk 5 3) (by decide)).1
      (by rw [show (TimeStamp.mk 5 3).getDay = 5 from rfl, sampleMoon_moonRiseHour_day5]
          norm_num [TimeStamp.getHour])]
    decide
  · rw [(c16_moon_phase_below_int_max sampleMoon (TimeStamp.mk 5 22) (by decide)).2.1
      (by decide)
      (by rw [show (TimeStamp.mk 5 22).getDay = 5 from rfl, sampleMoon_moonRiseHour_day5]
          norm_num [TimeStamp.getHour])]
    decide

theorem sampleMoon_moonRiseHour_int_max :
    sampleMoon.moonRiseHour (toUnsigned 2147483647) = 9 := by
  have hu : toUnsigned 2147483647 = 2147483647 := by decide
  rw [hu, sampleMoon_moonRiseHour 2147483647 (by decide)]
  have ha : f32 (((2147483647 + 15 : Nat) : ℚ)) = 2147483648 := by
    rw [show (((2147483647 + 15 : Nat) : ℚ)) = 2147483662 by norm_num]
    rw [f32_eval (2147483662) (31) (8388608) (by norm_num) (by norm_num [abs_of_pos])
      (by norm_num [abs_of_pos]) (by
        unfold roundEven
        norm_num [Int.floor_eq_iff])]
    norm_num
  have hb : fmod 2147483648 24 = 8 := by norm_num [fmod, Int.floor_eq_iff]
  have hc : f32 (1 + 8) = 9 :=
    (f32_fixed (1 + 8) 9 0 (by norm_num) (by norm_num) (by norm_num)).trans (by norm_num)
  rw [ha, hb, hc]

/-- Counterexample to C16 as stated: on day `INT_MAX = 2147483647` at hour 12, after the
moon rise of the sample moon (hour 9 on that day), the `int` sum `day + 1` wraps to
`INT_MIN`; `(INT_MIN / 3) % 8` is -2, which `phase` returns as the `unsigned int`
4294967294: not `((day + 1) / 3) mod 8 = 2` and not a value in 0..7. -/
theorem c16_counterexample :
    (0 : Int) ≤ (TimeStamp.mk 2147483647 12).getDay ∧
    ¬ (TimeStamp.mk 2147483647 12).getHour
        < sampleMoon.moonRiseHour (toUnsigned (TimeStamp.mk 2147483647 12).getDay) ∧
    sampleMoon.phase (TimeStamp.mk 2147483647 12) = 4294967294 ∧
    ((TimeStamp.mk 2147483647 12).getDay.toNat + 1) / 3 % 8 = 2 ∧
    ¬ sampleMoon.phase (TimeStamp.mk 2147483647 12) < 8 := by
  have hafter : ¬ (TimeStamp.mk 2147483647 12).getHour
      < sampleMoon.moonRiseHour (toUnsigned (TimeStamp.mk 2147483647 12).getDay) := by
    rw [show (TimeStamp.mk 2147483647 12).getDay = 2147483647 from rfl,
      sampleMoon_moonRiseHour_int_max]
    norm_num [TimeStamp.getHour]
  have hphase : sampleMoon.phase (TimeStamp.mk 2147483647 12) = 4294967294 := by
    unfold MoonModel.phase
    rw [if_neg hafter]
    decide
  refine ⟨by decide, hafter, hphase, by decide, ?_⟩
  rw [hphase]
  decide

theorem shadowBlend_bounds (m : MoonModel) (a : ℚ) :
    0 ≤ m.shadowBlend a ∧ m.shadowBlend a ≤ 1 := by
  unfold MoonModel.shadowBlend
  simp only []
  split_ifs with h1 h2 h3
  · have hfa : 0 < m.mFadeStartAngle - m.mFadeEndAngle := by linarith [h1.1, h1.2]
    exact ⟨div_nonneg (by linarith [h1.1]) hfa.le,
      (div_le_one hfa).mpr (by linarith [h1.2])⟩
  · exact ⟨zero_le_one, le_refl 1⟩
  · have hfa : 0 < m.mFadeStartAngle - m.mFadeEndAngle := by linarith [h3.1, h3.2]
    exact ⟨div_nonneg (by linarith [h3.2]) hfa.le,
      (div_le_one hfa).mpr (by linarith [h3.1])⟩
  · exact ⟨le_refl 0, zero_le_one⟩

theorem hourlyAlpha_bounds (m : MoonModel) (h : ℚ) :
    0 ≤ m.hourlyAlpha h ∧ m.hourlyAlpha h ≤ 1 := by
  unfold MoonModel.hourlyAlpha
  split_ifs with h1 h2 h3
  · have hd : 0 < m.mFadeOutFinish - m.mFadeOutStart := by linarith [h1.1, h1.2]
    exact ⟨div_nonneg (by linarith [h1.2]) hd.le, (div_le_one hd).mpr (by linarith [h1.1])⟩
  · exact ⟨le_refl 0, zero_le_one⟩
  · have hd : 0 < m.mFadeInFinish - m.mFadeInStart := by linarith [h3.1, h3.2]
    exact ⟨div_nonneg (by linarith [h3.1]) hd.le, (div_le_one hd).mpr (by linarith [h3.2])⟩
  · exact ⟨zero_le_one, le_refl 1⟩

theorem earlyMoonShadowAlpha_bounds (m : MoonModel) (a : ℚ) :
    0 ≤ m.earlyMoonShadowAlpha a ∧ m.earlyMoonShadowAlpha a ≤ 1 := by
  unfold MoonModel.earlyMoonShadowAlpha
  simp only []
  split_ifs with h1 h2 h3
  · have hd : 0 < m.mMoonShadowEarlyFadeAngle := by linarith [h1.1, h1.2]
    exact ⟨div_nonneg (by linarith [h1.1]) hd.le, (div_le_one hd).mpr (by linarith [h1.2])⟩
  · exact ⟨zero_le_one, le_refl 1⟩
  · have hd : 0 < m.mMoonShadowEarlyFadeAngle := by linarith [h3.1, h3.2]
    exact ⟨div_nonneg (by linarith [h3.2]) hd.le, (div_le_one hd).mpr (by linarith [h3.1])⟩
  · exact ⟨le_refl 0, zero_le_one⟩

/-- C18: the transparency that `calculateState` returns is
`earlyMoonShadowAlpha(angle) * hourlyAlpha(hour)`, where `angle` is the rotation from the
horizon it returns. Both factors, hence the transparency, and the shadow blend lie in
[0,1] for every model and every time stamp: within each fading band the divisor is positive
and the ramp stays between 0 and 1, so the orderings of the fade hours and angles are not
even needed. -/
theorem c18_moon_transparency (m : MoonModel) (gameTime : TimeStamp) :
    (m.calculateState gameTime).mMoonAlpha
      = m.earlyMoonShadowAlpha (m.angle gameTime) * m.hourlyAlpha gameTime.getHour ∧
    (m.calculateState gameTime).mShadowBlend = m.shadowBlend (m.angle gameTime) ∧
    (0 ≤ m.earlyMoonShadowAlpha (m.angle gameTime) ∧
      m.earlyMoonShadowAlpha (m.angle gameTime) ≤ 1) ∧
    (0 ≤ m.hourlyAlpha gameTime.getHour ∧ m.hourlyAlpha gameTime.getHour ≤ 1) ∧
    (0 ≤ (m.calculateState gameTime).mMoonAlpha ∧
      (m.calculateState gameTime).mMoonAlpha ≤ 1) ∧
    (0 ≤ (m.calculateState gameTime).mShadowBlend ∧
      (m.calculateState gameTime).mShadowBlend ≤ 1) := by
  have he := earlyMoonShadowAlpha_bounds m (m.angle gameTime)
  have hh := hourlyAlpha_bounds m gameTime.getHour
  refine ⟨rfl, rfl, he, hh, ?_, shadowBlend_bounds m (m.angle gameTime)⟩
  show 0 ≤ m.earlyMoonShadowAlpha (m.angle gameTime) * m.hourlyAlpha gameTime.getHour ∧
    m.earlyMoonShadowAlpha (m.angle gameTime) * m.hourlyAlpha gameTime.getHour ≤ 1
  exact ⟨mul_nonneg he.1 hh.1, mul_le_one₀ he.2 hh.1 hh.2⟩

theorem shadowBlend_symmetric (m : MoonModel) (a : ℚ)
    (h1 : m.mFadeEndAngle < m.mFadeStartAngle) (h2 : m.mFadeStartAngle ≤ 90) :
    m.shadowBlend a = m.shadowBlend (180 - a) := by
  have hfa : m.mFadeStartAngle - m.mFadeEndAngle ≠ 0 := by
    intro h; linarith
  unfold MoonModel.shadowBlend
  simp only [ge_iff_le]
  split_ifs <;>
    simp only [not_and_or, not_le, not_lt] at * <;>
    casesm* _ ∧ _, _ ∨ _ <;>
    first
      | rfl
      | (exfalso; linarith)
      | (field_simp <;> linarith)

theorem earlyMoonShadowAlpha_symmetric (m : MoonModel) (a : ℚ)
    (h1 : m.mFadeEndAngle < 90) (h3 : 0 < m.mMoonShadowEarlyFadeAngle) :
    m.earlyMoonShadowAlpha a = m.earlyMoonShadowAlpha (180 - a) := by
  have hfa : m.mMoonShadowEarlyFadeAngle ≠ 0 := ne_of_gt h3
  unfold MoonModel.earlyMoonShadowAlpha
  simp only [ge_iff_le]
  split_ifs <;>
    simp only [not_and_or, not_le, not_lt] at * <;>
    casesm* _ ∧ _, _ ∨ _ <;>
    first
      | rfl
      | (exfalso; linarith)
      | (field_simp; linarith)

/-- C17: for every model with `fadeEndAngle < fadeStartAngle <= 90` and an early fade angle
`> 0`, and every angle `a`, `shadowBlend(a) == shadowBlend(180 - a)` and
`earlyMoonShadowAlpha(a) == earlyMoonShadowAlpha(180 - a)`. -/
theorem c17_shadow_ramps_symmetric (m : MoonModel) (a : ℚ)
    (h1 : m.mFadeEndAngle < m.mFadeStartAngle) (h2 : m.mFadeStartAngle ≤ 90)
    (h3 : 0 < m.mMoonShadowEarlyFadeAngle) :
    m.shadowBlend a = m.shadowBlend (180 - a) ∧
    m.earlyMoonShadowAlpha a = m.earlyMoonShadowAlpha (180 - a) :=
  ⟨shadowBlend_symmetric m a h1 h2,
   earlyMoonShadowAlpha_symmetric m a (lt_of_lt_of_le h1 h2) h3⟩

/-- Witness of C17: fade angles 40 (end) and 50 (start), early fade angle 1/2. At 45 and at
135 degrees the shadow blend is 1/2; at 159/4 and at 561/4 degrees the early shadow alpha
is 1/2. -/
theorem c17_shadow_ramps_symmetric_witness :
    (sampleMoon.mFadeEndAngle < sampleMoon.mFadeStartAngle ∧
      sampleMoon.mFadeStartAngle ≤ 90 ∧ 0 < sampleMoon.mMoonShadowEarlyFadeAngle) ∧
    (sampleMoon.shadowBlend 45 = sampleMoon.shadowBlend (180 - 45) ∧
      sampleMoon.earlyMoonShadowAlpha 45 = sampleMoon.earlyMoonShadowAlpha (180 - 45)) ∧
    (sampleMoon.shadowBlend 45 = 1 / 2 ∧ sampleMoon.shadowBlend 135 = 1 / 2) ∧
    (sampleMoon.earlyMoonShadowAlpha (159 / 4) = sampleMoon.earlyMoonShadowAlpha (180 - 159 / 4) ∧
      sampleMoon.earlyMoonShadowAlpha (159 / 4) = 1 / 2 ∧
      sampleMoon.earlyMoonShadowAlpha (561 / 4) = 1 / 2) := by
  have hyp : sampleMoon.mFadeEndAngle < sampleMoon.mFadeStartAngle ∧
      sampleMoon.mFadeStartAngle ≤ 90 ∧ 0 < sampleMoon.mMoonShadowEarlyFadeAngle := by
    norm_num [sampleMoon]
  refine ⟨hyp, c17_shadow_ramps_symmetric sampleMoon 45 hyp.1 hyp.2.1 hyp.2.2, ?_,
    (c17_shadow_ramps_symmetric sampleMoon (159 / 4) hyp.1 hyp.2.1 hyp.2.2).2, ?_, ?_⟩
  · norm_num [MoonModel.shadowBlend, sampleMoon]
  · norm_num [MoonModel.earlyMoonShadowAlpha, sampleMoon]
  · norm_num [MoonModel.earlyMoonShadowAlpha, sampleMoon]

/-! ## The result: `calculateResult` and `calculateTransitionResult` -/

theorem lerp_zero (x y : ℚ) : lerp x y 0 = x := by
  simp [lerp]

theorem lerp_one (x y : ℚ) : lerp x y 1 = y := by
  simp [lerp]

theorem lerpVec4f_zero (x y : Vec4f) : lerpVec4f x y 0 = x := by
  cases x
  simp [lerpVec4f, Vec4f.scale, Vec4f.add]

theorem lerpVec4f_one (x y : Vec4f) : lerpVec4f x y 1 = y := by
  cases y
  simp [lerpVec4f, Vec4f.scale, Vec4f.add]

theorem calculateResult_some (m : WeatherManager) (weatherID : Int) (w : Weather)
    (gameHour : ℚ) (h : weatherSetting m.mWeatherSettings weatherID = some w) :
    m.calculateResult weatherID gameHour
      = some { m with mResult := m.calculateResultFor m.mResult w gameHour } := by
  simp [WeatherManager.calculateResult, h]

theorem calculateResultFor_mResult (m : WeatherManager) (r prev : WeatherResult)
    (w : Weather) (gameHour : ℚ) :
    ({ m with mResult := r } : WeatherManager).calculateResultFor prev w gameHour
      = m.calculateResultFor prev w gameHour := rfl

theorem calculateResultFor_twice (m : WeatherManager) (prev : WeatherResult)
    (cur next : Weather) (gameHour : ℚ) :
    sameBlendedFields
      (m.calculateResultFor (m.calculateResultFor prev cur gameHour) next gameHour)
      (m.calculateResultFor prev next gameHour) := by
  unfold sameBlendedFields WeatherManager.calculateResultFor WeatherManager.nightResult
    WeatherManager.sunriseResult WeatherManager.dayResult WeatherManager.sunsetResult
  simp only []
  split_ifs <;> exact ⟨rfl, rfl, rfl, rfl, rfl, rfl, rfl, rfl, rfl⟩

theorem calculateTransitionResult_blended (m : WeatherManager) (factor gameHour : ℚ)
    (cur next : Weather)
    (hcur : weatherSetting m.mWeatherSettings m.mCurrentWeather = some cur)
    (hnext : weatherSetting m.mWeatherSettings m.mNextWeather = some next) :
    ∃ t, m.calculateTransitionResult factor gameHour = some t ∧
      t.mResult.mFogColor
        = lerpVec4f (m.calculateResultFor m.mResult cur gameHour).mFogColor
            (m.calculateResultFor (m.calculateResultFor m.mResult cur gameHour)
              next gameHour).mFogColor factor ∧
      t.mResult.mSunColor
        = lerpVec4f (m.calculateResultFor m.mResult cur gameHour).mSunColor
            (m.calculateResultFor (m.calculateResultFor m.mResult cur gameHour)
              next gameHour).mSunColor factor ∧
      t.mResult.mSkyColor
        = lerpVec4f (m.calculateResultFor m.mResult cur gameHour).mSkyColor
            (m.calculateResultFor (m.calculateResultFor m.mResult cur gameHour)
              next gameHour).mSkyColor factor ∧
      t.mResult.mAmbientColor
        = lerpVec4f (m.calculateResultFor m.mResult cur gameHour).mAmbientColor
            (m.calculateResultFor (m.calculateResultFor m.mResult cur gameHour)
              next gameHour).mAmbientColor factor ∧
      t.mResult.mFogDepth
        = lerp (m.calculateResultFor m.mResult cur gameHour).mFogDepth
            (m.calculateResultFor (m.calculateResultFor m.mResult cur gameHour)
              next gameHour).mFogDepth factor ∧
      t.mResult.mWindSpeed
        = lerp (m.calculateResultFor m.mResult cur gameHour).mWindSpeed
            (m.calculateResultFor (m.calculateResultFor m.mResult cur gameHour)
              next gameHour).mWindSpeed factor ∧
      t.mResult.mCloudSpeed
        = lerp (m.calculateResultFor m.mResult cur gameHour).mCloudSpeed
            (m.calculateResultFor (m.calculateResultFor m.mResult cur gameHour)
              next gameHour).mCloudSpeed factor ∧
      t.mResult.mGlareView
        = lerp (m.calculateResultFor m.mResult cur gameHour).mGlareView
            (m.calculateResultFor (m.calculateResultFor m.mResult cur gameHour)
              next gameHour).mGlareView factor ∧
      t.mResult.mNightFade
        = lerp (m.calculateResultFor m.mResult cur gameHour).mNightFade
            (m.calculateResultFor (m.calculateResultFor m.mResult cur gameHour)
              next gameHour).mNightFade factor := by
  have h1 := calculateResult_some m m.mCurrentWeather cur gameHour hcur
  have h2 := calculateResult_some
    { m with mResult := m.calculateResultFor m.mResult cur gameHour } m.mNextWeather next
    gameHour hnext
  unfold WeatherManager.calculateTransitionResult
  rw [h1]
  simp only []
  rw [h2]
  simp only [hnext]
  by_cases hf : factor < 1 / 2
  · rw [if_pos hf]
    exact ⟨_, rfl, rfl, rfl, rfl, rfl, rfl, rfl, rfl, rfl, rfl⟩
  · rw [if_neg hf]
    exact ⟨_, rfl, rfl, rfl, rfl, rfl, rfl, rfl, rfl, rfl, rfl⟩

/-- C19: for every manager whose current and next ids index the profiles `cur` and `next`,
and every hour, `calculateTransitionResult(0, hour)` agrees with
`calculateResult(mCurrentWeather, hour)`, and `calculateTransitionResult(1, hour)` agrees
with `calculateResult(mNextWeather, hour)`, on the fog, sun, sky and ambient colours, the
fog depth, the wind speed, the cloud speed, the glare and the night fade (all four calls
starting from the same `mResult`). -/
theorem c19_boundary_round_trip (m : WeatherManager) (gameHour : ℚ) (cur next : Weather)
    (hcur : weatherSetting m.mWeatherSettings m.mCurrentWeather = some cur)
    (hnext : weatherSetting m.mWeatherSettings m.mNextWeather = some next) :
    ∃ c n t0 t1,
      m.calculateResult m.mCurrentWeather gameHour = some c ∧
      m.calculateResult m.mNextWeather gameHour = some n ∧
      m.calculateTransitionResult 0 gameHour = some t0 ∧
      m.calculateTransitionResult 1 gameHour = some t1 ∧
      sameBlendedFields t0.mResult c.mResult ∧ sameBlendedFields t1.mResult n.mResult := by
  obtain ⟨t0, ht0, a1, a2, a3, a4, a5, a6, a7, a8, a9⟩ :=
    calculateTransitionResult_blended m 0 gameHour cur next hcur hnext
  obtain ⟨t1, ht1, b1, b2, b3, b4, b5, b6, b7, b8, b9⟩ :=
    calculateTransitionResult_blended m 1 gameHour cur next hcur hnext
  obtain ⟨e1, e2, e3, e4, e5, e6, e7, e8, e9⟩ :=
    calculateResultFor_twice m m.mResult cur next gameHour
  refine ⟨_, _, t0, t1, calculateResult_some m _ cur gameHour hcur,
    calculateResult_some m _ next gameHour hnext, ht0, ht1, ?_, ?_⟩
  · exact ⟨a1.trans (lerpVec4f_zero _ _), a2.trans (lerpVec4f_zero _ _),
      a3.trans (lerpVec4f_zero _ _), a4.trans (lerpVec4f_zero _ _),
      a5.trans (lerp_zero _ _), a6.trans (lerp_zero _ _), a7.trans (lerp_zero _ _),
      a8.trans (lerp_zero _ _), a9.trans (lerp_zero _ _)⟩
  · exact ⟨(b1.trans (lerpVec4f_one _ _)).trans e1, (b2.trans (lerpVec4f_one _ _)).trans e2,
      (b3.trans (lerpVec4f_one _ _)).trans e3, (b4.trans (lerpVec4f_one _ _)).trans e4,
      (b5.trans (lerp_one _ _)).trans e5, (b6.trans (lerp_one _ _)).trans e6,
      (b7.trans (lerp_one _ _)).trans e7, (b8.trans (lerp_one _ _)).trans e8,
      (b9.trans (lerp_one _ _)).trans e9⟩

/-- Witness of C19: over the profiles whose numbers are all 1 and all 3, current 0 and
next 1, at hour 12. -/
theorem c19_boundary_round_trip_witness :
    weatherSetting (engineOver twoProfiles false 1 0 1 invalidWeatherID).mWeatherSettings
        (engineOver twoProfiles false 1 0 1 invalidWeatherID).mCurrentWeather
      = some (flatProfile 1 "") ∧
    weatherSetting (engineOver twoProfiles false 1 0 1 invalidWeatherID).mWeatherSettings
        (engineOver twoProfiles false 1 0 1 invalidWeatherID).mNextWeather
      = some (flatProfile 3 "rain") ∧
    ∃ c n t0 t1,
      (engineOver twoProfiles false 1 0 1 invalidWeatherID).calculateResult
        (engineOver twoProfiles false 1 0 1 invalidWeatherID).mCurrentWeather 12 = some c ∧
      (engineOver twoProfiles false 1 0 1 invalidWeatherID).calculateResult
        (engineOver twoProfiles false 1 0 1 invalidWeatherID).mNextWeather 12 = some n ∧
      (engineOver twoProfiles false 1 0 1 invalidWeatherID).calculateTransitionResult 0 12
        = some t0 ∧
      (engineOver twoProfiles false 1 0 1 invalidWeatherID).calculateTransitionResult 1 12
        = some t1 ∧
      sameBlendedFields t0.mResult c.mResult ∧ sameBlendedFields t1.mResult n.mResult :=
  ⟨rfl, rfl,
   c19_boundary_round_trip (engineOver twoProfiles false 1 0 1 invalidWeatherID) 12
     (flatProfile 1 "") (flatProfile 3 "rain") rfl rfl⟩

theorem calculateResultFor_discrete (m : WeatherManager) (prev : WeatherResult)
    (w : Weather) (gameHour : ℚ) :
    (m.calculateResultFor prev w gameHour).mIsStorm = w.mIsStorm ∧
    (m.calculateResultFor prev w gameHour).mParticleEffect = w.mParticleEffect ∧
    (m.calculateResultFor prev w gameHour).mRainEffect = w.mRainEffect ∧
    (m.calculateResultFor prev w gameHour).mRainSpeed = w.mRainSpeed ∧
    (m.calculateResultFor prev w gameHour).mRainFrequency = w.mRainFrequency ∧
    (m.calculateResultFor prev w gameHour).mAmbientLoopSoundID = w.mAmbientLoopSoundID := by
  unfold WeatherManager.calculateResultFor WeatherManager.nightResult
    WeatherManager.sunriseResult WeatherManager.dayResult WeatherManager.sunsetResult
  simp only []
  split_ifs <;> exact ⟨rfl, rfl, rfl, rfl, rfl, rfl⟩

theorem calculateTransitionResult_discrete (m : WeatherManager) (factor gameHour : ℚ)
    (cur next : Weather)
    (hcur : weatherSetting m.mWeatherSettings m.mCurrentWeather = some cur)
    (hnext : weatherSetting m.mWeatherSettings m.mNextWeather = some next) :
    ∃ t, m.calculateTransitionResult factor gameHour = some t ∧
      (factor < 1 / 2 →
        t.mResult.mIsStorm = cur.mIsStorm ∧
        t.mResult.mParticleEffect = cur.mParticleEffect ∧
        t.mResult.mRainEffect = cur.mRainEffect ∧
        t.mResult.mRainSpeed = cur.mRainSpeed ∧
        t.mResult.mRainFrequency = cur.mRainFrequency ∧
        t.mResult.mAmbientLoopSoundID = cur.mAmbientLoopSoundID ∧
        t.mResult.mAmbientSoundVolume = 1 - 2 * factor ∧
        t.mResult.mEffectFade = 1 - 2 * factor) ∧
      (1 / 2 ≤ factor →
        t.mResult.mIsStorm = next.mIsStorm ∧
        t.mResult.mParticleEffect = next.mParticleEffect ∧
        t.mResult.mRainEffect = next.mRainEffect ∧
        t.mResult.mRainSpeed = next.mRainSpeed ∧
        t.mResult.mRainFrequency = next.mRainFrequency ∧
        t.mResult.mAmbientLoopSoundID = next.mAmbientLoopSoundID ∧
        t.mResult.mAmbientSoundVolume = 2 * (factor - 1 / 2) ∧
        t.mResult.mEffectFade = 2 * (factor - 1 / 2)) := by
  have h1 := calculateResult_some m m.mCurrentWeather cur gameHour hcur
  have h2 := calculateResult_some
    { m with mResult := m.calculateResultFor m.mResult cur gameHour } m.mNextWeather next
    gameHour hnext
  obtain ⟨c1, c2, c3, c4, c5, c6⟩ := calculateResultFor_discrete m m.mResult cur gameHour
  obtain ⟨n1, n2, n3, n4, n5, n6⟩ := calculateResultFor_discrete m
    (m.calculateResultFor m.mResult cur gameHour) next gameHour
  unfold WeatherManager.calculateTransitionResult
  rw [h1]
  simp only []
  rw [h2]
  simp only [hnext]
  by_cases hf : factor < 1 / 2
  · rw [if_pos hf]
    refine ⟨_, rfl, fun _ => ⟨c1, c2, c3, c4, c5, c6, ?_, ?_⟩, fun h => absurd hf (not_lt.mpr h)⟩
    · show 1 - factor * 2 = 1 - 2 * factor
      ring
    · show 1 - factor * 2 = 1 - 2 * factor
      ring
  · rw [if_neg hf]
    exact ⟨_, rfl, fun h => absurd h hf, fun _ => ⟨n1, n2, n3, n4, n5, n6, rfl, rfl⟩⟩

/-- C20: for every manager whose current and next ids index the profiles `cur` and `next`,
every hour and every factor, `calculateTransitionResult(factor, hour)` takes the storm flag,
particle effect, rain effect, rain speed, rain frequency and ambient sound id from `cur`
when `factor < 0.5`, with ambient volume == effect fade == `1 - 2 * factor`, and from
`next` when `factor >= 0.5`, with ambient volume == effect fade == `2 * (factor - 0.5)`.
Hence for a factor in [0,1] the volume lies in [0,1], and it is 0 at factor 0.5. -/
theorem c20_discrete_crossfade (m : WeatherManager) (factor gameHour : ℚ)
    (cur next : Weather)
    (hcur : weatherSetting m.mWeatherSettings m.mCurrentWeather = some cur)
    (hnext : weatherSetting m.mWeatherSettings m.mNextWeather = some next) :
    ∃ t, m.calculateTransitionResult factor gameHour = some t ∧
      (factor < 1 / 2 →
        t.mResult.mIsStorm = cur.mIsStorm ∧
        t.mResult.mParticleEffect = cur.mParticleEffect ∧
        t.mResult.mRainEffect = cur.mRainEffect ∧
        t.mResult.mRainSpeed = cur.mRainSpeed ∧
        t.mResult.mRainFrequency = cur.mRainFrequency ∧
        t.mResult.mAmbientLoopSoundID = cur.mAmbientLoopSoundID ∧
        t.mResult.mAmbientSoundVolume = 1 - 2 * factor ∧
        t.mResult.mEffectFade = 1 - 2 * factor) ∧
      (1 / 2 ≤ factor →
        t.mResult.mIsStorm = next.mIsStorm ∧
        t.mResult.mParticleEffect = next.mParticleEffect ∧
        t.mResult.mRainEffect = next.mRainEffect ∧
        t.mResult.mRainSpeed = next.mRainSpeed ∧
        t.mResult.mRainFrequency = next.mRainFrequency ∧
        t.mResult.mAmbientLoopSoundID = next.mAmbientLoopSoundID ∧
        t.mResult.mAmbientSoundVolume = 2 * (factor - 1 / 2) ∧
        t.mResult.mEffectFade = 2 * (factor - 1 / 2)) ∧
      (0 ≤ factor → factor ≤ 1 →
        0 ≤ t.mResult.mAmbientSoundVolume ∧ t.mResult.mAmbientSoundVolume ≤ 1) ∧
      (factor = 1 / 2 → t.mResult.mAmbientSoundVolume = 0) := by
  obtain ⟨t, ht, hlow, hhigh⟩ :=
    calculateTransitionResult_discrete m factor gameHour cur next hcur hnext
  refine ⟨t, ht, hlow, hhigh, ?_, ?_⟩
  · intro h0 h1
    by_cases hf : factor < 1 / 2
    · rw [(hlow hf).2.2.2.2.2.2.1]
      constructor <;> linarith
    · rw [(hhigh (not_lt.mp hf)).2.2.2.2.2.2.1]
      constructor <;> linarith [not_lt.mp hf]
  · intro hhalf
    rw [(hhigh (le_of_eq hhalf.symm)).2.2.2.2.2.2.1, hhalf]
    norm_num

/-- Witness of C20: over the profiles with no sound and with the sound "rain", current 0
and next 1, at hour 12: at factor 1/4 the sound id is the current profile's and the volume
is 1/2; at factor 3/4 the sound id is "rain" and the volume is 1/2. -/
theorem c20_discrete_crossfade_witness :
    (∃ t, (engineOver twoProfiles false 1 0 1 invalidWeatherID).calculateTransitionResult
          (1 / 4) 12 = some t ∧
      t.mResult.mAmbientLoopSoundID = "" ∧ t.mResult.mAmbientSoundVolume = 1 / 2 ∧
      t.mResult.mEffectFade = 1 / 2) ∧
    (∃ t, (engineOver twoProfiles false 1 0 1 invalidWeatherID).calculateTransitionResult
          (3 / 4) 12 = some t ∧
      t.mResult.mAmbientLoopSoundID = "rain" ∧ t.mResult.mAmbientSoundVolume = 1 / 2 ∧
      t.mResult.mEffectFade = 1 / 2) := by
  constructor
  · obtain ⟨t, ht, hlow, _⟩ :=
      c20_discrete_crossfade (engineOver twoProfiles false 1 0 1 invalidWeatherID) (1 / 4) 12
        (flatProfile 1 "") (flatProfile 3 "rain") rfl rfl
    have h := hlow (by norm_num)
    refine ⟨t, ht, h.2.2.2.2.2.1, ?_, ?_⟩
    · rw [h.2.2.2.2.2.2.1]; norm_num
    · rw [h.2.2.2.2.2.2.2]; norm_num
  · obtain ⟨t, ht, _, hhigh, _⟩ :=
      c20_discrete_crossfade (engineOver twoProfiles false 1 0 1 invalidWeatherID) (3 / 4) 12
        (flatProfile 1 "") (flatProfile 3 "rain") rfl rfl
    have h := hhigh (by norm_num)
    refine ⟨t, ht, h.2.2.2.2.2.1, ?_, ?_⟩
    · rw [h.2.2.2.2.2.2.1]; norm_num
    · rw [h.2.2.2.2.2.2.2]; norm_num

/-! ## The orchestrator: `changeWeather`, `update`, `write` and `readRecord` -/

/-- C21: for every region id and every `weatherID` that is not below the number of
profiles (ten in the constructed manager), `changeWeather(regionID, weatherID)` returns
with the manager unchanged: every region's table and selection, the transition engine and
every other member. -/
theorem c21_out_of_range_ignored (m : WeatherManager) (env : Environment)
    (regionID : String) (weatherID : Nat) (roll : Int)
    (h : m.mWeatherSettings.length ≤ weatherID) :
    m.changeWeather env regionID weatherID roll = some m := by
  unfold WeatherManager.changeWeather
  rw [if_neg (by omega)]

/-- Witness of C21: ten profiles, the player in the region "Ascadian Isles", which is in
the table, and a request of weather 10 for it. -/
theorem c21_out_of_range_ignored_witness :
    (engineInRegion 1 false 0 0 invalidWeatherID invalidWeatherID).mWeatherSettings.length
      ≤ 10 ∧
    (engineInRegion 1 false 0 0 invalidWeatherID invalidWeatherID).changeWeather
        (sampleEnvironment "Ascadian Isles" true true) "Ascadian Isles" 10 59
      = some (engineInRegion 1 false 0 0 invalidWeatherID invalidWeatherID) :=
  ⟨by decide,
   c21_out_of_range_ignored (engineInRegion 1 false 0 0 invalidWeatherID invalidWeatherID)
     (sampleEnvironment "Ascadian Isles" true true) "Ascadian Isles" 10 59 (by decide)⟩

/-- C25: `readRecord` on a weather record (type `REC_WTHR`) whose format version is below 2
skips the record, returns true and leaves the manager unchanged; on a record of any other
type it returns false, does not touch the reader and leaves the manager unchanged. -/
theorem c25_old_format_discarded (m : WeatherManager) (reader : ESMReader) (type : Nat) :
    (type = REC_WTHR → reader.mFormat < 2 →
      m.readRecord reader type = (true, m, ReaderUse.skipped)) ∧
    (type ≠ REC_WTHR → m.readRecord reader type = (false, m, ReaderUse.untouched)) := by
  constructor
  · intro ht hf
    unfold WeatherManager.readRecord
    rw [if_pos ht.symm]
    simp only []
    rw [if_pos hf]
  · intro ht
    unfold WeatherManager.readRecord
    rw [if_neg (fun h => ht h.symm)]

/-- C29, the code at a failing input: with the configured speed 1/10 (the other values
those of `sampleMoon`), the constructor keeps `mSpeed = min(1/10, 180/23) = 1/10`, and the
rotation of the constructed model over 24 hours is `15 * (1/10) * 24 = 36`, below 180.
For every configured speed the constructed speed is `min(speed, 180/23)`: the speed is
capped from above and a slow speed is left as it is. -/
theorem c29_slow_speed_not_raised :
    (MoonModel.construct { sampleMoon with mSpeed := 1 / 10 }).mSpeed = 1 / 10 ∧
    (MoonModel.construct { sampleMoon with mSpeed := 1 / 10 }).rotation 24 = 36 ∧
    (MoonModel.construct { sampleMoon with mSpeed := 1 / 10 }).rotation 24 < 180 ∧
    (∀ fallback : MoonModel,
      (MoonModel.construct fallback).mSpeed = min fallback.mSpeed (180 / 23) ∧
      (MoonModel.construct fallback).mSpeed ≤ 180 / 23 ∧
      (fallback.mSpeed ≤ 180 / 23 → (MoonModel.construct fallback).mSpeed = fallback.mSpeed)) := by
  refine ⟨?_, ?_, ?_, ?_⟩
  · norm_num [MoonModel.construct, sampleMoon]
  · norm_num [MoonModel.construct, MoonModel.rotation, sampleMoon]
  · norm_num [MoonModel.construct, MoonModel.rotation, sampleMoon]
  · intro fallback
    refine ⟨rfl, min_le_right _ _, fun h => min_eq_left h⟩

/-- C30 (as the code has it): when `update` runs the thunder with a strike under way (the
current weather is 5, no transition is in progress and `mThunderFlash > 0`), it sets
`mThunderChanceNeeded` to the value of `rollDice(100)`, which lies in [0,99], and resets
`mThunderChance` to 0. -/
theorem c30_thunder_reset (m : WeatherManager) (duration : ℚ) (soundRoll chanceRoll : Int)
    (hweather : m.mCurrentWeather = 5) (hsteady : m.inTransition = false)
    (hflash : 0 < m.mThunderFlash) (hlo : 0 ≤ chanceRoll) (hhi : chanceRoll < 100) :
    (m.updateThunder duration soundRoll chanceRoll).1.mThunderChanceNeeded = chanceRoll ∧
    0 ≤ (m.updateThunder duration soundRoll chanceRoll).1.mThunderChanceNeeded ∧
    (m.updateThunder duration soundRoll chanceRoll).1.mThunderChanceNeeded ≤ 99 ∧
    (m.updateThunder duration soundRoll chanceRoll).1.mThunderChance = 0 := by
  have hrun : m.updateThunder duration soundRoll chanceRoll
      = m.thunderActive duration soundRoll chanceRoll := by
    unfold WeatherManager.updateThunder
    rw [if_pos ⟨hweather, hsteady⟩, if_pos hflash]
  rw [hrun]
  have hneeded : (m.thunderActive duration soundRoll chanceRoll).1.mThunderChanceNeeded
      = (chanceRoll : ℚ) := rfl
  refine ⟨hneeded, ?_, ?_, rfl⟩
  · rw [hneeded]
    exact_mod_cast hlo
  · rw [hneeded]
    have : chanceRoll ≤ 99 := by omega
    exact_mod_cast this

/-- Witness of C30: Steady on weather 5 with a flash of 1/2 under way; the dice show 42. -/
theorem c30_thunder_reset_witness :
    ({ engine 1 false 0 5 invalidWeatherID invalidWeatherID with
        mThunderFlash := 1 / 2, mThunderChance := 7 }).mCurrentWeather = 5 ∧
    ((({ engine 1 false 0 5 invalidWeatherID invalidWeatherID with
        mThunderFlash := 1 / 2, mThunderChance := 7 } : WeatherManager).updateThunder
          (1 / 60) 2 42).1.mThunderChanceNeeded = 42 ∧
     (({ engine 1 false 0 5 invalidWeatherID invalidWeatherID with
        mThunderFlash := 1 / 2, mThunderChance := 7 } : WeatherManager).updateThunder
          (1 / 60) 2 42).1.mThunderChance = 0) := by
  have h := c30_thunder_reset
    ({ engine 1 false 0 5 invalidWeatherID invalidWeatherID with
        mThunderFlash := 1 / 2, mThunderChance := 7 } : WeatherManager) (1 / 60) 2 42
    rfl (by decide) (by norm_num [engine, engineOver]) (by decide) (by decide)
  exact ⟨rfl, by exact_mod_cast h.1, h.2.2.2⟩

/-- Counterexample to C30 as stated: with a strike under way and the dice showing 0, which
`rollDice(100)` can return, the new threshold `mThunderChanceNeeded` is 0, outside
[1,100]. -/
theorem c30_counterexample :
    (({ engine 1 false 0 5 invalidWeatherID invalidWeatherID with
        mThunderFlash := 1 / 2, mThunderChance := 7 } : WeatherManager).updateThunder
          (1 / 60) 2 0).1.mThunderChanceNeeded = 0 ∧
    ¬ ((1 : ℚ) ≤ (({ engine 1 false 0 5 invalidWeatherID invalidWeatherID with
        mThunderFlash := 1 / 2, mThunderChance := 7 } : WeatherManager).updateThunder
          (1 / 60) 2 0).1.mThunderChanceNeeded) := by
  have hrun : ({ engine 1 false 0 5 invalidWeatherID invalidWeatherID with
        mThunderFlash := 1 / 2, mThunderChance := 7 } : WeatherManager).updateThunder
          (1 / 60) 2 0
      = ({ engine 1 false 0 5 invalidWeatherID invalidWeatherID with
        mThunderFlash := 1 / 2, mThunderChance := 7 } : WeatherManager).thunderActive
          (1 / 60) 2 0 := by
    unfold WeatherManager.updateThunder
    rw [if_pos ⟨rfl, by decide⟩, if_pos (by norm_num [engine, engineOver])]
  rw [hrun]
  have hneeded : (({ engine 1 false 0 5 invalidWeatherID invalidWeatherID with
        mThunderFlash := 1 / 2, mThunderChance := 7 } : WeatherManager).thunderActive
          (1 / 60) 2 0).1.mThunderChanceNeeded = ((0 : Int) : ℚ) := rfl
  rw [hneeded]
  norm_num

/-! ### What each part of `update` can change -/

theorem stopSounds_frame (m : WeatherManager) :
    (m.stopSounds).1 = { m with
      mAmbientSound := none
      mPlayingSoundID := (m.stopSounds).1.mPlayingSoundID } := by
  unfold WeatherManager.stopSounds
  cases h : m.mAmbientSound with
  | none =>
    simp only []
    cases m
    simp only [WeatherManager.mk.injEq, true_and, and_true] at h ⊢
    exact h
  | some sound => rfl

theorem calculateResult_frame (m m' : WeatherManager) (weatherID : Int) (gameHour : ℚ)
    (h : m.calculateResult weatherID gameHour = some m') :
    m' = { m with mResult := m'.mResult } := by
  unfold WeatherManager.calculateResult at h
  cases hw : weatherSetting m.mWeatherSettings weatherID with
  | none => rw [hw] at h; exact absurd h (by simp)
  | some w =>
    rw [hw] at h
    simp only [Option.some.injEq] at h
    rw [← h]

theorem calculateTransitionResult_frame (m m' : WeatherManager) (factor gameHour : ℚ)
    (h : m.calculateTransitionResult factor gameHour = some m') :
    m' = { m with mResult := m'.mResult } := by
  unfold WeatherManager.calculateTransitionResult at h
  cases h1 : m.calculateResult m.mCurrentWeather gameHour with
  | none => rw [h1] at h; exact absurd h (by simp)
  | some m1 =>
    rw [h1] at h
    simp only [] at h
    have f1 := calculateResult_frame m m1 _ _ h1
    cases h2 : m1.calculateResult m1.mNextWeather gameHour with
    | none => rw [h2] at h; exact absurd h (by simp)
    | some m2 =>
      rw [h2] at h
      simp only [] at h
      have f2 := calculateResult_frame m1 m2 _ _ h2
      cases h3 : weatherSetting m2.mWeatherSettings m2.mNextWeather with
      | none => rw [h3] at h; exact absurd h (by simp)
      | some next =>
        rw [h3] at h
        simp only [Option.some.injEq] at h
        rw [← h, f2, f1]

theorem calculateWeatherResult_frame (m m' : WeatherManager) (gameHour : ℚ)
    (h : m.calculateWeatherResult gameHour = some m') :
    m' = { m with mResult := m'.mResult } := by
  unfold WeatherManager.calculateWeatherResult at h
  by_cases ht : (!m.inTransition) = true
  · rw [if_pos ht] at h
    exact calculateResult_frame m m' _ _ h
  · rw [if_neg ht] at h
    exact calculateTransitionResult_frame m m' _ _ h

theorem updateThunder_frame (m : WeatherManager) (duration : ℚ) (soundRoll chanceRoll : Int) :
    (m.updateThunder duration soundRoll chanceRoll).1 = { m with
      mThunderSoundDelay := (m.updateThunder duration soundRoll chanceRoll).1.mThunderSoundDelay
      mThunderFlash := (m.updateThunder duration soundRoll chanceRoll).1.mThunderFlash
      mThunderChance := (m.updateThunder duration soundRoll chanceRoll).1.mThunderChance
      mThunderChanceNeeded :=
        (m.updateThunder duration soundRoll chanceRoll).1.mThunderChanceNeeded } := by
  unfold WeatherManager.updateThunder WeatherManager.thunderActive WeatherManager.thunderIdle
  simp only []
  split_ifs <;> rfl

theorem updateAmbientSound_frame (m : WeatherManager) (env : Environment) :
    (m.updateAmbientSound env).1 = { m with
      mAmbientSound := (m.updateAmbientSound env).1.mAmbientSound
      mPlayingSoundID := (m.updateAmbientSound env).1.mPlayingSoundID } := by
  cases hs : m.mAmbientSound <;>
    simp only [WeatherManager.updateAmbientSound, WeatherManager.stopSounds, hs] <;>
    split_ifs <;> rfl

theorem stopSounds_weatherPart (m : WeatherManager) :
    weatherPart (m.stopSounds).1 = weatherPart m := by
  rw [stopSounds_frame m]; rfl

theorem stopSounds_displayPart (m : WeatherManager) :
    displayPart (m.stopSounds).1 = displayPart m := by
  rw [stopSounds_frame m]; rfl

theorem calculateWeatherResult_weatherPart (m m' : WeatherManager) (gameHour : ℚ)
    (h : m.calculateWeatherResult gameHour = some m') : weatherPart m' = weatherPart m := by
  rw [calculateWeatherResult_frame m m' gameHour h]; rfl

theorem updateThunder_weatherPart (m : WeatherManager) (duration : ℚ)
    (soundRoll chanceRoll : Int) :
    weatherPart (m.updateThunder duration soundRoll chanceRoll).1 = weatherPart m := by
  rw [updateThunder_frame m]; rfl

theorem updateAmbientSound_weatherPart (m : WeatherManager) (env : Environment) :
    weatherPart (m.updateAmbientSound env).1 = weatherPart m := by
  rw [updateAmbientSound_frame m]; rfl

theorem updateAmbientSound_displayPart (m : WeatherManager) (env : Environment) :
    displayPart (m.updateAmbientSound env).1 = displayPart m := by
  rw [updateAmbientSound_frame m]; rfl

theorem updateExterior_weatherPart (m m' : WeatherManager) (env : Environment)
    (duration : ℚ) (paused : Bool) (soundRoll chanceRoll : Int) (calls : List Call)
    (h : m.updateExterior env duration paused soundRoll chanceRoll = some (m', calls)) :
    weatherPart m' = weatherPart m := by
  unfold WeatherManager.updateExterior at h
  simp only [] at h
  cases h1 : m.calculateWeatherResult env.mTimeStamp.getHour with
  | none => rw [h1] at h; exact absurd h (by simp)
  | some m1 =>
    rw [h1] at h
    simp only [Option.some.injEq, Prod.mk.injEq] at h
    rw [← h.1, updateAmbientSound_weatherPart,
      ← calculateWeatherResult_weatherPart m m1 _ h1]
    by_cases hp : (!paused) = true
    · rw [if_pos hp, updateThunder_weatherPart]
      split_ifs <;> rfl
    · rw [if_neg hp]
      split_ifs <;> rfl

theorem addWeatherTransition_shown (m m' : WeatherManager) (weatherID : Int)
    (h : m.addWeatherTransition weatherID = some m') :
    displayPart m' = displayPart m ∧ m'.mAmbientSound = m.mAmbientSound ∧
      m'.mPlayingSoundID = m.mPlayingSoundID ∧ m'.mRegions = m.mRegions ∧
      m'.mWeatherSettings = m.mWeatherSettings ∧ m'.mCurrentRegion = m.mCurrentRegion := by
  unfold WeatherManager.addWeatherTransition at h
  split_ifs at h <;> cases h <;> exact ⟨rfl, rfl, rfl, rfl, rfl, rfl⟩

theorem updateWeatherTransitions_shown (m m' : WeatherManager) (e : ℚ)
    (h : m.updateWeatherTransitions e = some m') :
    displayPart m' = displayPart m ∧ m'.mAmbientSound = m.mAmbientSound ∧
      m'.mPlayingSoundID = m.mPlayingSoundID ∧ m'.mRegions = m.mRegions ∧
      m'.mWeatherSettings = m.mWeatherSettings ∧ m'.mCurrentRegion = m.mCurrentRegion := by
  unfold WeatherManager.updateWeatherTransitions fdiv at h
  simp only [] at h
  by_cases hc : (!m.mFastForward && m.inTransition) = true
  · rw [if_pos hc] at h
    cases hn : weatherSetting m.mWeatherSettings m.mNextWeather with
    | none => rw [hn] at h; cases h
    | some next =>
      rw [hn] at h
      simp only [] at h
      by_cases hle : m.mTransitionFactor - e * next.transitionDelta ≤ 0
      · rw [if_pos hle] at h
        by_cases hq : (m.mQueuedWeather != invalidWeatherID) = true
        · simp only [WeatherManager.inTransition, hq, if_true] at h
          cases hqs : weatherSetting m.mWeatherSettings m.mQueuedWeather with
          | none => rw [hqs] at h; cases h
          | some queued =>
            rw [hqs] at h
            simp only [] at h
            by_cases hd : next.transitionDelta = 0
            · rw [if_pos hd] at h; cases h
            · rw [if_neg hd] at h
              cases h
              exact ⟨rfl, rfl, rfl, rfl, rfl, rfl⟩
        · simp only [WeatherManager.inTransition, hq] at h
          cases h
          exact ⟨rfl, rfl, rfl, rfl, rfl, rfl⟩
      · rw [if_neg hle] at h
        cases h
        exact ⟨rfl, rfl, rfl, rfl, rfl, rfl⟩
  · rw [if_neg hc] at h
    split_ifs at h <;> cases h <;> exact ⟨rfl, rfl, rfl, rfl, rfl, rfl⟩

theorem updateRequest_shown (m : WeatherManager) (env : Environment) (roll : Int) :
    displayPart (m.updateRequest env roll).1 = displayPart m ∧
      (m.updateRequest env roll).1.mAmbientSound = m.mAmbientSound ∧
      (m.updateRequest env roll).1.mPlayingSoundID = m.mPlayingSoundID ∧
      (m.updateRequest env roll).1.mWeatherSettings = m.mWeatherSettings := by
  unfold WeatherManager.updateRequest WeatherManager.updateWeatherTimeOrRegion
    WeatherManager.updateWeatherTime WeatherManager.updateWeatherRegion
  simp only []
  repeat' split
  all_goals exact ⟨rfl, rfl, rfl, rfl⟩

theorem updateWeather_shown (m m' : WeatherManager) (env : Environment) (duration : ℚ)
    (roll : Int) (h : m.updateWeather env duration roll = some m') :
    displayPart m' = displayPart m ∧ m'.mAmbientSound = m.mAmbientSound ∧
      m'.mPlayingSoundID = m.mPlayingSoundID ∧ m'.mWeatherSettings = m.mWeatherSettings := by
  obtain ⟨r1, r2, r3, r4⟩ := updateRequest_shown m env roll
  unfold WeatherManager.updateWeather at h
  cases hreq : (m.updateRequest env roll).2 with
  | none =>
    rw [hreq] at h
    simp only [] at h
    obtain ⟨u1, u2, u3, _, u5, _⟩ := updateWeatherTransitions_shown _ _ _ h
    exact ⟨u1.trans r1, u2.trans r2, u3.trans r3, u5.trans r4⟩
  | some weatherID =>
    rw [hreq] at h
    simp only [] at h
    cases hadd : (m.updateRequest env roll).1.addWeatherTransition weatherID with
    | none => rw [hadd] at h; exact absurd h (by simp)
    | some m1 =>
      rw [hadd] at h
      simp only [] at h
      obtain ⟨a1, a2, a3, _, a5, _⟩ := addWeatherTransition_shown _ _ _ hadd
      obtain ⟨u1, u2, u3, _, u5, _⟩ := updateWeatherTransitions_shown _ _ _ h
      exact ⟨(u1.trans a1).trans r1, (u2.trans a2).trans r2, (u3.trans a3).trans r3,
        (u5.trans a5).trans r4⟩

theorem update_paused (m : WeatherManager) (env : Environment) (duration : ℚ)
    (r1 r2 r3 : Int) :
    m.update env duration true r1 r2 r3
      = if (env.mCellExterior || env.mCellQuasiExterior) = false then
          some ((m.stopSounds).1, Call.setSkyEnabled false :: (m.stopSounds).2)
        else m.updateExterior env duration true r2 r3 := by
  unfold WeatherManager.update
  cases h : (env.mCellExterior || env.mCellQuasiExterior) <;> simp [h]

theorem update_unpaused (m : WeatherManager) (env : Environment) (duration : ℚ)
    (r1 r2 r3 : Int) :
    m.update env duration false r1 r2 r3
      = (m.updateWeather env duration r1).bind (fun m1 =>
          if (env.mCellExterior || env.mCellQuasiExterior) = false then
            some ((m1.stopSounds).1, Call.setSkyEnabled false :: (m1.stopSounds).2)
          else m1.updateExterior env duration false r2 r3) := by
  unfold WeatherManager.update
  cases hw : m.updateWeather env duration r1 with
  | none => simp
  | some m1 =>
    cases h : (env.mCellExterior || env.mCellQuasiExterior) <;> simp [h]

/-- C26 (as the code has it): in a cell that is neither an exterior nor a quasi-exterior,
`update` calls `setSkyEnabled(false)`, then `stopSounds()`, and returns: afterwards no
sound is held, and the weather result, the wind speed, the storm flag, the storm direction
and the thunder are as before the call. If a sound was held it has been stopped and
`mPlayingSoundID` is empty; if none was held `mPlayingSoundID` is left as it was. The call
returns whenever its first block does, so always when paused. -/
theorem c26_non_exterior_update (m : WeatherManager) (env : Environment) (duration : ℚ)
    (paused : Bool) (r1 r2 r3 : Int)
    (hext : env.mCellExterior = false) (hquasi : env.mCellQuasiExterior = false) :
    ((paused = true ∨ ∃ m1, m.updateWeather env duration r1 = some m1) →
      ∃ m' calls, m.update env duration paused r1 r2 r3 = some (m', calls)) ∧
    (∀ m' calls, m.update env duration paused r1 r2 r3 = some (m', calls) →
      displayPart m' = displayPart m ∧ m'.mAmbientSound = none ∧
      calls.head? = some (Call.setSkyEnabled false) ∧
      (∀ sound, m.mAmbientSound = some sound →
        m'.mPlayingSoundID = "" ∧ calls = [Call.setSkyEnabled false, Call.stopSound sound]) ∧
      (m.mAmbientSound = none →
        m'.mPlayingSoundID = m.mPlayingSoundID ∧ calls = [Call.setSkyEnabled false])) := by
  have hcell : (env.mCellExterior || env.mCellQuasiExterior) = false := by
    rw [hext, hquasi]; rfl
  have hstop : ∀ m1 : WeatherManager, ∀ m' calls,
      some ((m1.stopSounds).1, Call.setSkyEnabled false :: (m1.stopSounds).2)
        = some (m', calls) →
      displayPart m' = displayPart m1 ∧ m'.mAmbientSound = none ∧
      calls.head? = some (Call.setSkyEnabled false) ∧
      (∀ sound, m1.mAmbientSound = some sound →
        m'.mPlayingSoundID = "" ∧ calls = [Call.setSkyEnabled false, Call.stopSound sound]) ∧
      (m1.mAmbientSound = none →
        m'.mPlayingSoundID = m1.mPlayingSoundID ∧ calls = [Call.setSkyEnabled false]) := by
    intro m1 m' calls h
    cases h
    refine ⟨stopSounds_displayPart m1, ?_, rfl, ?_, ?_⟩
    · rw [stopSounds_frame m1]
    · intro sound hs
      simp [WeatherManager.stopSounds, hs]
    · intro hs
      simp [WeatherManager.stopSounds, hs]
  constructor
  · intro hret
    cases paused with
    | true =>
      rw [update_paused, if_pos hcell]
      exact ⟨_, _, rfl⟩
    | false =>
      rcases hret with hp | ⟨m1, hm1⟩
      · cases hp
      · rw [update_unpaused, hm1, Option.some_bind, if_pos hcell]
        exact ⟨_, _, rfl⟩
  · intro m' calls h
    cases paused with
    | true =>
      rw [update_paused, if_pos hcell] at h
      exact hstop m m' calls h
    | false =>
      rw [update_unpaused] at h
      cases hw : m.updateWeather env duration r1 with
      | none => rw [hw] at h; cases h
      | some m1 =>
        rw [hw, Option.some_bind, if_pos hcell] at h
        obtain ⟨s1, s2, s3, _⟩ := updateWeather_shown m m1 env duration r1 hw
        obtain ⟨t1, t2, t3, t4, t5⟩ := hstop m1 m' calls h
        refine ⟨t1.trans s1, t2, t3, ?_, ?_⟩
        · intro sound hs
          exact t4 sound (s2.trans hs)
        · intro hs
          obtain ⟨u1, u2⟩ := t5 (s2.trans hs)
          exact ⟨u1.trans s3, u2⟩

theorem updateThunder_sound (m : WeatherManager) (duration : ℚ) (soundRoll chanceRoll : Int) :
    (m.updateThunder duration soundRoll chanceRoll).1.mResult = m.mResult ∧
    (m.updateThunder duration soundRoll chanceRoll).1.mAmbientSound = m.mAmbientSound ∧
    (m.updateThunder duration soundRoll chanceRoll).1.mPlayingSoundID = m.mPlayingSoundID := by
  refine ⟨?_, ?_, ?_⟩ <;> rw [updateThunder_frame m duration soundRoll chanceRoll]

theorem updateExterior_sound (m m' : WeatherManager) (env : Environment)
    (duration : ℚ) (paused : Bool) (soundRoll chanceRoll : Int) (calls : List Call)
    (h : m.updateExterior env duration paused soundRoll chanceRoll = some (m', calls)) :
    ∃ m1 m4 : WeatherManager,
      m.calculateWeatherResult env.mTimeStamp.getHour = some m1 ∧
      m4.mResult = m1.mResult ∧ m4.mAmbientSound = m1.mAmbientSound ∧
      m4.mPlayingSoundID = m1.mPlayingSoundID ∧
      m' = (m4.updateAmbientSound env).1 := by
  unfold WeatherManager.updateExterior at h
  simp only [] at h
  cases h1 : m.calculateWeatherResult env.mTimeStamp.getHour with
  | none => rw [h1] at h; exact absurd h (by simp)
  | some m1 =>
    rw [h1] at h
    simp only [Option.some.injEq, Prod.mk.injEq] at h
    refine ⟨m1, _, rfl, ?_, ?_, ?_, h.1.symm⟩
    all_goals
      cases paused
      · simp only [Bool.not_false, if_true]
        first
        | rw [(updateThunder_sound _ duration soundRoll chanceRoll).1]
        | rw [(updateThunder_sound _ duration soundRoll chanceRoll).2.1]
        | rw [(updateThunder_sound _ duration soundRoll chanceRoll).2.2]
        split_ifs <;> rfl
      · simp only [Bool.not_true, Bool.false_eq_true, if_false]
        split_ifs <;> rfl

theorem updateAmbientSound_silent (m : WeatherManager) (env : Environment)
    (hs : m.mAmbientSound = none) (hp : env.mSoundPlays = false) :
    (m.updateAmbientSound env).1.mAmbientSound = none ∧
    (m.updateAmbientSound env).1.mPlayingSoundID = m.mResult.mAmbientLoopSoundID := by
  simp only [WeatherManager.updateAmbientSound, WeatherManager.stopSounds, hs, hp]
  by_cases h1 : m.mPlayingSoundID = m.mResult.mAmbientLoopSoundID
  · simp [h1, hs]
  · by_cases h2 : m.mResult.mAmbientLoopSoundID = ""
    · rw [h2] at h1
      simp [h1, h2, hs]
    · simp [h1, h2, hs]

theorem updateExterior_returns (m m1 : WeatherManager) (env : Environment)
    (duration : ℚ) (paused : Bool) (soundRoll chanceRoll : Int)
    (h : m.calculateWeatherResult env.mTimeStamp.getHour = some m1) :
    ∃ m' calls, m.updateExterior env duration paused soundRoll chanceRoll
      = some (m', calls) := by
  unfold WeatherManager.updateExterior
  simp only []
  rw [h]
  exact ⟨_, _, rfl⟩

/-- Witness of C26: the rain engine holds the sound "rain" and is updated, paused, in a
cell that is not an exterior: the sound is stopped and the playing id is empty. -/
theorem c26_non_exterior_update_witness :
    ∃ m' calls,
      (rainEngine (some ⟨"rain", 1⟩) "rain").update (sampleEnvironment "" false true)
        (1 / 60) true 59 2 42 = some (m', calls) ∧
      m'.mAmbientSound = none ∧ m'.mPlayingSoundID = "" ∧
      calls = [Call.setSkyEnabled false, Call.stopSound ⟨"rain", 1⟩] := by
  have h := c26_non_exterior_update (rainEngine (some ⟨"rain", 1⟩) "rain")
    (sampleEnvironment "" false true) (1 / 60) true 59 2 42 rfl rfl
  obtain ⟨m', calls, hm⟩ := h.1 (Or.inl rfl)
  obtain ⟨_, h2, _, h4, _⟩ := h.2 m' calls hm
  obtain ⟨h5, h6⟩ := h4 ⟨"rain", 1⟩ rfl
  exact ⟨m', calls, hm, h2, h5, h6⟩

/-- Counterexample to C26 as stated: the rain engine plays nothing and is updated in an
exterior while the sound manager hands out no sound handle: afterwards it holds no sound
and its playing id is "rain". The next update, in a cell that is not an exterior, returns
with the playing id still "rain", not cleared. -/
theorem c26_counterexample :
    ∃ m1 calls1 m2 calls2,
      (rainEngine none "").update (sampleEnvironment "" true false) (1 / 60) true 59 2 42
        = some (m1, calls1) ∧
      m1.mAmbientSound = none ∧ m1.mPlayingSoundID = "rain" ∧
      m1.update (sampleEnvironment "" false false) (1 / 60) true 59 2 42
        = some (m2, calls2) ∧
      m2.mAmbientSound = none ∧ m2.mPlayingSoundID = "rain" ∧ m2.mPlayingSoundID ≠ "" := by
  have hc : (rainEngine none "").calculateWeatherResult
      (sampleEnvironment "" true false).mTimeStamp.getHour
        = some { rainEngine none "" with
            mResult := (rainEngine none "").calculateResultFor (rainEngine none "").mResult
              (flatProfile 3 "rain") (sampleEnvironment "" true false).mTimeStamp.getHour } := by
    unfold WeatherManager.calculateWeatherResult
    rw [if_pos (by decide)]
    exact calculateResult_some _ _ _ _ rfl
  obtain ⟨m1, calls1, h1⟩ := updateExterior_returns (rainEngine none "") _
    (sampleEnvironment "" true false) (1 / 60) true 2 42 hc
  obtain ⟨k1, k4, hk, e1, e2, e3, e4⟩ := updateExterior_sound _ _ _ _ _ _ _ _ h1
  rw [hc] at hk
  cases hk
  have hsil := updateAmbientSound_silent k4 (sampleEnvironment "" true false) e2 rfl
  rw [← e4, e1] at hsil
  have hid : m1.mPlayingSoundID = "rain" :=
    hsil.2.trans (calculateResultFor_discrete _ _ _ _).2.2.2.2.2
  have hstop : m1.stopSounds = (m1, []) := by
    simp [WeatherManager.stopSounds, hsil.1]
  refine ⟨m1, calls1, m1, [Call.setSkyEnabled false], ?_, hsil.1, hid, ?_, hsil.1, hid, ?_⟩
  · rw [update_paused, if_neg (by decide)]
    exact h1
  · rw [update_paused, if_pos (by decide), hstop]
  · rw [hid]
    decide

theorem addAll_append (m : WeatherManager) (xs ys : List Int) :
    m.addAll (xs ++ ys) = (m.addAll xs).bind (fun m' => m'.addAll ys) := by
  induction xs generalizing m with
  | nil => rfl
  | cons x xs ih =>
    simp only [List.cons_append, WeatherManager.addAll]
    cases m.addWeatherTransition x with
    | none => rfl
    | some m1 => exact ih m1

theorem addAll_queued (m : WeatherManager) (ids : List Int)
    (htrans : m.mNextWeather ≠ invalidWeatherID)
    (hids : ∀ id ∈ ids, validWeatherID m.mWeatherSettings id ∧ id ≠ m.mNextWeather) :
    ∃ queued, m.addAll ids = some { m with mQueuedWeather := queued } := by
  induction ids generalizing m with
  | nil => exact ⟨m.mQueuedWeather, rfl⟩
  | cons id ids ih =>
    have hid := hids id (List.mem_cons_self id ids)
    simp only [WeatherManager.addAll]
    rw [addWeatherTransition_queue m id htrans hid.1 hid.2, Option.some_bind]
    obtain ⟨queued, hq⟩ := ih { m with mQueuedWeather := id } htrans
      (fun x hx => hids x (List.mem_cons_of_mem id hx))
    exact ⟨queued, hq⟩

/-- C23 (what the code does with stacked requests): from a Steady state, requests of
`first`, then of the ids of `between`, then of `last`, all valid and the later ones
different from `first`, with no advance between them, leave the engine changing to `first`
with `last` queued: the first request is processed at once and the later ones only replace
the queued id. The advance that completes this transition makes `first`, an earlier
requested id, the current weather, and `last` the next one. -/
theorem c23_first_request_becomes_current (m : WeatherManager) (first last : Int)
    (between : List Int) (wfirst wlast : Weather) (e : ℚ)
    (hsteady : m.mNextWeather = invalidWeatherID) (hff : m.mFastForward = false)
    (hfirst : weatherSetting m.mWeatherSettings first = some wfirst)
    (hlast : weatherSetting m.mWeatherSettings last = some wlast)
    (hne : first ≠ m.mCurrentWeather) (hlastne : last ≠ first)
    (hbetween : ∀ id ∈ between, validWeatherID m.mWeatherSettings id ∧ id ≠ first)
    (hdone : 1 - e * wfirst.transitionDelta ≤ 0) :
    ∃ m1 m2, m.addAll (first :: (between ++ [last])) = some m1 ∧
      m1.mCurrentWeather = m.mCurrentWeather ∧ m1.mNextWeather = first ∧
      m1.mQueuedWeather = last ∧ m1.mTransitionFactor = 1 ∧
      m1.updateWeatherTransitions e = some m2 ∧
      m2.mCurrentWeather = first ∧ m2.mNextWeather = last ∧
      m2.mQueuedWeather = invalidWeatherID ∧ first ≠ last := by
  have hvfirst := (weatherSetting_isSome_iff m.mWeatherSettings first).mp ⟨wfirst, hfirst⟩
  have hvlast := (weatherSetting_isSome_iff m.mWeatherSettings last).mp ⟨wlast, hlast⟩
  have hfi : first ≠ invalidWeatherID := validWeatherID_ne_invalid hvfirst
  have hli : last ≠ invalidWeatherID := validWeatherID_ne_invalid hvlast
  have hdelta : wfirst.transitionDelta ≠ 0 := by
    intro h0
    rw [h0] at hdone
    norm_num at hdone
  obtain ⟨queued, hmid⟩ := addAll_queued { m with mNextWeather := first, mTransitionFactor := 1 }
    between hfi hbetween
  have hl := addWeatherTransition_queue
    { m with mNextWeather := first, mTransitionFactor := 1, mQueuedWeather := queued }
    last hfi hvlast hlastne
  have hadd : m.addAll (first :: (between ++ [last]))
      = some { m with mNextWeather := first, mTransitionFactor := 1, mQueuedWeather := last } := by
    simp only [WeatherManager.addAll]
    rw [addWeatherTransition_steady m first hsteady hvfirst hne, Option.some_bind,
      addAll_append, hmid, Option.some_bind]
    exact (congrArg (fun o => Option.bind o (fun m' => WeatherManager.addAll m' [])) hl).trans
      rfl
  have hupd : ∃ m2,
      ({ m with mNextWeather := first, mTransitionFactor := 1, mQueuedWeather := last }
        : WeatherManager).updateWeatherTransitions e = some m2 ∧
      m2.mCurrentWeather = first ∧ m2.mNextWeather = last ∧
      m2.mQueuedWeather = invalidWeatherID := by
    unfold WeatherManager.updateWeatherTransitions
    have hbf : (first != invalidWeatherID) = true := bne_iff_ne.mpr hfi
    have hbl : (last != invalidWeatherID) = true := bne_iff_ne.mpr hli
    simp only [WeatherManager.inTransition, hff, hfirst, hlast, fdiv, hdelta, hdone, hbf, hbl,
      Bool.not_false, Bool.and_self, if_true, if_false]
    exact ⟨_, rfl, rfl, rfl, rfl⟩
  obtain ⟨m2, h1, h2, h3, h4⟩ := hupd
  exact ⟨_, m2, hadd, rfl, rfl, rfl, rfl, h1, h2, h3, h4, fun h => hlastne h.symm⟩

/-- Witness of C23: a Steady engine on weather 0 with transition speed 1/10 receives
requests of 1, 2 and 3 and then advances by 10 seconds: weather 1, the first request,
becomes current and weather 3 is next. -/
theorem c23_first_request_becomes_current_witness :
    ∃ m1 m2,
      (engine (1 / 10) false 0 0 invalidWeatherID invalidWeatherID).addAll [1, 2, 3]
        = some m1 ∧
      m1.mCurrentWeather = 0 ∧ m1.mNextWeather = 1 ∧ m1.mQueuedWeather = 3 ∧
      m1.updateWeatherTransitions 10 = some m2 ∧
      m2.mCurrentWeather = 1 ∧ m2.mNextWeather = 3 := by
  obtain ⟨m1, m2, h1, h2, h3, h4, _, h6, h7, h8, _⟩ :=
    c23_first_request_becomes_current (engine (1 / 10) false 0 0 invalidWeatherID invalidWeatherID)
      1 3 [2] (profileWithDelta (1 / 10)) (profileWithDelta (1 / 10)) 10 rfl rfl rfl rfl
      (by decide) (by decide)
      (by
        intro id hid
        rw [List.mem_singleton] at hid
        subst hid
        exact ⟨by decide, by decide⟩)
      (by norm_num [profileWithDelta, Weather.transitionDelta])
  exact ⟨m1, m2, h1, h2, h3, h4, h6, h7, h8⟩

/-- The same stacked requests made through `changeWeather` for the player's region: three
calls with the ids 1, 2 and 3 leave the engine changing to 1 with 3 queued, and the
advance by 10 seconds makes weather 1 current and weather 3 next. -/
theorem c23_stacked_changeWeather :
    (engineInRegion (1 / 10) false 0 0 invalidWeatherID invalidWeatherID).changeWeather
        (sampleEnvironment "Ascadian Isles" true true) "Ascadian Isles" 1 59
      = some (engineSelected (1 / 10) false 1 0 1 invalidWeatherID 1) ∧
    (engineSelected (1 / 10) false 1 0 1 invalidWeatherID 1).changeWeather
        (sampleEnvironment "Ascadian Isles" true true) "Ascadian Isles" 2 59
      = some (engineSelected (1 / 10) false 1 0 1 2 2) ∧
    (engineSelected (1 / 10) false 1 0 1 2 2).changeWeather
        (sampleEnvironment "Ascadian Isles" true true) "Ascadian Isles" 3 59
      = some (engineSelected (1 / 10) false 1 0 1 3 3) ∧
    (engineSelected (1 / 10) false 1 0 1 3 3).updateWeatherTransitions 10
      = some (engineSelected (1 / 10) false 1 1 3 invalidWeatherID 3) := by
  refine ⟨rfl, rfl, rfl, ?_⟩
  rw [updateWeatherTransitions_carry (engineSelected (1 / 10) false 1 0 1 3 3) 10
    (profileWithDelta (1 / 10)) (profileWithDelta (1 / 10)) rfl (by decide) rfl
    (by norm_num [engineSelected, engineInRegion, engineOver, profileWithDelta,
      Weather.transitionDelta])
    (by decide) rfl]
  norm_num [engineSelected, engineInRegion, engineOver, profileWithDelta,
    Weather.transitionDelta]

theorem toNat_ofNat_small (n : Nat) (h : n < 0xd800) : (Char.ofNat n).toNat = n := by
  have hv : n.isValidChar := Or.inl h
  unfold Char.ofNat
  rw [dif_pos hv]
  simp only [Char.ofNatAux, Char.toNat, Char.ofUInt8]
  show (UInt32.ofNat' n _).toNat = n
  rfl

theorem toLower_toLower (c : Char) : c.toLower.toLower = c.toLower := by
  unfold Char.toLower
  simp only []
  split_ifs with h1 h2
  · exfalso
    have := toNat_ofNat_small (c.toNat + 32) (by omega)
    omega
  · rfl
  · rfl

theorem lowerCase_lowerCase (s : String) : lowerCase (lowerCase s) = lowerCase s := by
  show String.mk ((s.data.map Char.toLower).map Char.toLower)
    = String.mk (s.data.map Char.toLower)
  rw [List.map_map]
  congr 1
  apply List.map_congr_left
  intro c _
  exact toLower_toLower c

theorem mem_mapInsert {V : Type} (entries : List (String × V)) (key : String) (value : V)
    (entry : String × V) (h : entry ∈ mapInsert entries key value) :
    entry ∈ entries ∨ entry.1 = key := by
  unfold mapInsert at h
  cases hf : mapFind entries key with
  | some v =>
    rw [hf] at h
    exact Or.inl h
  | none =>
    rw [hf] at h
    rcases List.mem_append.mp h with h1 | h1
    · exact Or.inl h1
    · rw [List.mem_singleton] at h1
      rw [h1]
      exact Or.inr rfl

theorem mem_insertRegions (store : List ESMRegion) (regions : List (String × RegionWeather))
    (entry : String × RegionWeather) (h : entry ∈ WeatherManager.insertRegions store regions) :
    entry ∈ regions ∨ ∃ region ∈ store, entry.1 = lowerCase region.mId := by
  induction store generalizing regions with
  | nil => exact Or.inl h
  | cons r rest ih =>
    have h1 : entry ∈ WeatherManager.insertRegions rest
        (mapInsert regions (lowerCase r.mId) (RegionWeather.fromRegion r)) := h
    rcases ih _ h1 with h2 | ⟨region, hr, hk⟩
    · rcases mem_mapInsert _ _ _ _ h2 with h3 | h3
      · exact Or.inl h3
      · exact Or.inr ⟨r, List.mem_cons_self r rest, h3⟩
    · exact Or.inr ⟨region, List.mem_cons_of_mem r hr, hk⟩

/-- C27: region identifiers are case-insensitive. Two region ids that are equal after
lowercasing give the same result of `changeWeather` and of `modRegion`. Every key of the
region table after construction is the lowercased id of a region of the store and is
lowercase (lowercasing it again changes nothing); `importRegions` keeps a table of lowercase
keys lowercase, and so the table that `clear` rebuilds has lowercase keys. -/
theorem c27_region_ids_case_insensitive (m : WeatherManager) (env : Environment)
    (id1 id2 : String) (weatherID : Nat) (chances : List Int) (roll roll2 : Int)
    (h : lowerCase id1 = lowerCase id2) :
    m.changeWeather env id1 weatherID roll = m.changeWeather env id2 weatherID roll ∧
    m.modRegion env id1 chances roll roll2 = m.modRegion env id2 chances roll roll2 ∧
    (∀ entry ∈ (WeatherManager.construct m).mRegions,
      (∃ region ∈ m.mStore, entry.1 = lowerCase region.mId) ∧ lowerCase entry.1 = entry.1) ∧
    ((∀ entry ∈ m.mRegions, lowerCase entry.1 = entry.1) →
      ∀ entry ∈ (m.importRegions).mRegions, lowerCase entry.1 = entry.1) ∧
    (∀ entry ∈ (m.clear).1.mRegions, lowerCase entry.1 = entry.1) := by
  refine ⟨?_, ?_, ?_, ?_, ?_⟩
  · unfold WeatherManager.changeWeather
    rw [h]
  · unfold WeatherManager.modRegion
    rw [h]
  · intro entry he
    have he1 : entry ∈ WeatherManager.insertRegions m.mStore [] := he
    rcases mem_insertRegions _ _ _ he1 with h1 | ⟨region, hr, hk⟩
    · cases h1
    · exact ⟨⟨region, hr, hk⟩, by rw [hk, lowerCase_lowerCase]⟩
  · intro hall entry he
    have he1 : entry ∈ WeatherManager.insertRegions m.mStore m.mRegions := he
    rcases mem_insertRegions _ _ _ he1 with h1 | ⟨region, _, hk⟩
    · exact hall entry h1
    · rw [hk, lowerCase_lowerCase]
  · intro entry he
    have he1 : entry ∈ WeatherManager.insertRegions
        (((m.stopSounds).1).mStore) [] := he
    rcases mem_insertRegions _ _ _ he1 with h1 | ⟨region, _, hk⟩
    · cases h1
    · rw [hk, lowerCase_lowerCase]

/-- Witness of C27: "Ascadian Isles" and "ASCADIAN ISLES" are equal after lowercasing, and
a request of weather 1 for the player's region under either id starts the change to
weather 1. -/
theorem c27_region_ids_case_insensitive_witness :
    lowerCase "Ascadian Isles" = lowerCase "ASCADIAN ISLES" ∧
    "Ascadian Isles" ≠ "ASCADIAN ISLES" ∧
    (engineInRegion (1 / 10) false 0 0 invalidWeatherID invalidWeatherID).changeWeather
        (sampleEnvironment "Ascadian Isles" true true) "Ascadian Isles" 1 59
      = (engineInRegion (1 / 10) false 0 0 invalidWeatherID invalidWeatherID).changeWeather
        (sampleEnvironment "Ascadian Isles" true true) "ASCADIAN ISLES" 1 59 ∧
    (engineInRegion (1 / 10) false 0 0 invalidWeatherID invalidWeatherID).changeWeather
        (sampleEnvironment "Ascadian Isles" true true) "ASCADIAN ISLES" 1 59
      = some (engineSelected (1 / 10) false 1 0 1 invalidWeatherID 1) :=
  ⟨by decide, by decide,
   (c27_region_ids_case_insensitive
      (engineInRegion (1 / 10) false 0 0 invalidWeatherID invalidWeatherID)
      (sampleEnvironment "Ascadian Isles" true true) "Ascadian Isles" "ASCADIAN ISLES" 1
      [] 59 59 (by decide)).1,
   rfl⟩

theorem mapFind_append {V : Type} (xs ys : List (String × V)) (key : String) :
    mapFind (xs ++ ys) key = (mapFind xs key).or (mapFind ys key) := by
  induction xs with
  | nil => simp [mapFind]
  | cons x xs ih =>
    obtain ⟨k, v⟩ := x
    by_cases hk : k = key
    · simp [mapFind, hk]
    · simp [mapFind, hk, ih]

theorem mapFind_mapInsert {V : Type} (entries : List (String × V)) (k : String) (v : V)
    (key : String) :
    mapFind (mapInsert entries k v) key
      = (mapFind entries key).or (if k = key then some v else none) := by
  unfold mapInsert
  cases hf : mapFind entries k with
  | some x =>
    by_cases hk : k = key
    · rw [← hk, hf]
      simp
    · simp [hk]
  | none =>
    simp only [mapFind_append, mapFind]

theorem mapFind_foldl {V W : Type} (g : V → W) (entries : List (String × V))
    (acc : List (String × W)) (key : String) :
    mapFind (entries.foldl (fun acc entry => mapInsert acc entry.1 (g entry.2)) acc) key
      = (mapFind acc key).or ((mapFind entries key).map g) := by
  induction entries generalizing acc with
  | nil => simp [mapFind]
  | cons entry rest ih =>
    obtain ⟨k, v⟩ := entry
    rw [List.foldl_cons, ih, mapFind_mapInsert, Option.or_assoc]
    by_cases hk : k = key
    · simp [mapFind, hk]
    · simp [mapFind, hk]

theorem mapFind_saveRegions (regions : List (String × RegionWeather)) (key : String) :
    mapFind (WeatherManager.saveRegions regions) key
      = (mapFind regions key).map RegionWeather.toState := by
  unfold WeatherManager.saveRegions
  rw [mapFind_foldl RegionWeather.toState regions [] key]
  simp [mapFind]

theorem mapFind_loadRegions (regions : List (String × RegionWeatherState)) (key : String) :
    mapFind (WeatherManager.loadRegions regions) key
      = (mapFind regions key).map RegionWeather.fromState := by
  unfold WeatherManager.loadRegions
  rw [mapFind_foldl RegionWeather.fromState regions [] key]
  simp [mapFind]

theorem saveRegions_ne_nil (regions : List (String × RegionWeather)) (h : regions ≠ []) :
    WeatherManager.saveRegions regions ≠ [] := by
  cases regions with
  | nil => exact absurd rfl h
  | cons entry rest =>
    intro hnil
    have hf := mapFind_saveRegions (entry :: rest) entry.1
    rw [hnil] at hf
    simp [mapFind] at hf

theorem mapFind_eq_none {V : Type} (entries : List (String × V)) (key : String)
    (h : key ∉ entries.map Prod.fst) : mapFind entries key = none := by
  induction entries with
  | nil => rfl
  | cons entry rest ih =>
    obtain ⟨k, v⟩ := entry
    rw [List.map_cons, List.mem_cons, not_or] at h
    have hk : ¬ k = key := fun hkk => h.1 hkk.symm
    simp only [mapFind, if_neg hk]
    exact ih h.2

theorem foldl_mapInsert_nodup {V W : Type} (g : V → W) (entries : List (String × V))
    (acc : List (String × W)) (hnd : (entries.map Prod.fst).Nodup)
    (hdisj : ∀ k ∈ entries.map Prod.fst, k ∉ acc.map Prod.fst) :
    entries.foldl (fun acc entry => mapInsert acc entry.1 (g entry.2)) acc
      = acc ++ entries.map (fun entry => (entry.1, g entry.2)) := by
  induction entries generalizing acc with
  | nil => simp
  | cons entry rest ih =>
    obtain ⟨k, v⟩ := entry
    rw [List.map_cons, List.nodup_cons] at hnd
    have hk : k ∉ acc.map Prod.fst := hdisj k (by simp)
    have hins : mapInsert acc k (g v) = acc ++ [(k, g v)] := by
      unfold mapInsert
      rw [mapFind_eq_none acc k hk]
    rw [List.foldl_cons]
    show List.foldl _ (mapInsert acc k (g v)) rest = _
    rw [hins, ih (acc ++ [(k, g v)]) hnd.2, List.append_assoc]
    · rfl
    · intro k1 hk1
      rw [List.map_append, List.mem_append, not_or]
      refine ⟨hdisj k1 (by simp [hk1]), ?_⟩
      simp only [List.map_cons, List.map_nil, List.mem_singleton]
      intro hkk
      rw [hkk] at hk1
      exact hnd.1 hk1

theorem loadRegions_saveRegions (regions : List (String × RegionWeather))
    (hnd : (regions.map Prod.fst).Nodup) :
    WeatherManager.loadRegions (WeatherManager.saveRegions regions) = regions := by
  have hsave : WeatherManager.saveRegions regions
      = regions.map (fun entry => (entry.1, entry.2.toState)) := by
    unfold WeatherManager.saveRegions
    rw [foldl_mapInsert_nodup RegionWeather.toState regions [] hnd (by simp)]
    rfl
  have hkeys : (regions.map (fun entry => (entry.1, entry.2.toState))).map Prod.fst
      = regions.map Prod.fst := by
    rw [List.map_map]
    rfl
  rw [hsave]
  unfold WeatherManager.loadRegions
  rw [foldl_mapInsert_nodup RegionWeather.fromState _ [] (by rw [hkeys]; exact hnd) (by simp),
    List.nil_append, List.map_map]
  conv_rhs => rw [← List.map_id regions]
  apply List.map_congr_left
  intro entry _
  rfl

theorem readRecord_loaded (m : WeatherManager) (reader : ESMReader)
    (hformat : 2 ≤ reader.mFormat) (hregions : reader.mState.mRegions ≠ []) :
    m.readRecord reader REC_WTHR
      = (true,
          { m with
            mCurrentRegion := reader.mState.mCurrentRegion
            mTimePassed := reader.mState.mTimePassed
            mFastForward := reader.mState.mFastForward
            mWeatherUpdateTime := reader.mState.mWeatherUpdateTime
            mTransitionFactor := reader.mState.mTransitionFactor
            mCurrentWeather := reader.mState.mCurrentWeather
            mNextWeather := reader.mState.mNextWeather
            mQueuedWeather := reader.mState.mQueuedWeather
            mRegions := WeatherManager.loadRegions reader.mState.mRegions },
          ReaderUse.loaded) := by
  unfold WeatherManager.readRecord
  simp only []
  rw [if_pos trivial, if_neg (not_lt.mpr hformat), if_neg hregions]

/-- C24: save/load round trip. `write` builds the weather state of a manager `m` that has
at least one region; `readRecord`, called on any manager `m0` with a weather record of a
format version of 2 or more that holds this state, returns true, loads the record and
restores the current region id, the accumulated hours, the fast-forward flag, the reroll
countdown, the transition factor and the current, next and queued weather ids of `m`;
under every key the region table holds the weights and the selected id that the table of
`m` holds there. The keys of a `std::map` being distinct, the table is the one of `m`, and
reading the record into `m` itself gives `m` back. -/
theorem c24_save_load_round_trip (m m0 : WeatherManager) (reader : ESMReader)
    (hformat : 2 ≤ reader.mFormat) (hstate : reader.mState = m.write)
    (hregions : m.mRegions ≠ []) :
    (m0.readRecord reader REC_WTHR).1 = true ∧
    (m0.readRecord reader REC_WTHR).2.2 = ReaderUse.loaded ∧
    (m0.readRecord reader REC_WTHR).2.1.mCurrentRegion = m.mCurrentRegion ∧
    (m0.readRecord reader REC_WTHR).2.1.mTimePassed = m.mTimePassed ∧
    (m0.readRecord reader REC_WTHR).2.1.mFastForward = m.mFastForward ∧
    (m0.readRecord reader REC_WTHR).2.1.mWeatherUpdateTime = m.mWeatherUpdateTime ∧
    (m0.readRecord reader REC_WTHR).2.1.mTransitionFactor = m.mTransitionFactor ∧
    (m0.readRecord reader REC_WTHR).2.1.mCurrentWeather = m.mCurrentWeather ∧
    (m0.readRecord reader REC_WTHR).2.1.mNextWeather = m.mNextWeather ∧
    (m0.readRecord reader REC_WTHR).2.1.mQueuedWeather = m.mQueuedWeather ∧
    (∀ key, mapFind (m0.readRecord reader REC_WTHR).2.1.mRegions key
      = mapFind m.mRegions key) ∧
    ((m.mRegions.map Prod.fst).Nodup →
      (m0.readRecord reader REC_WTHR).2.1.mRegions = m.mRegions ∧
      (m.readRecord reader REC_WTHR).2.1 = m) := by
  have hne : reader.mState.mRegions ≠ [] := by
    rw [hstate]
    exact saveRegions_ne_nil m.mRegions hregions
  rw [readRecord_loaded m0 reader hformat hne, readRecord_loaded m reader hformat hne, hstate]
  refine ⟨rfl, rfl, rfl, rfl, rfl, rfl, rfl, rfl, rfl, rfl, ?_, ?_⟩
  · intro key
    show mapFind (WeatherManager.loadRegions (WeatherManager.saveRegions m.mRegions)) key = _
    rw [mapFind_loadRegions, mapFind_saveRegions, Option.map_map]
    cases mapFind m.mRegions key with
    | none => rfl
    | some region => rfl
  · intro hnd
    have hround := loadRegions_saveRegions m.mRegions hnd
    refine ⟨hround, ?_⟩
    show ({ m with mRegions :=
      WeatherManager.loadRegions (WeatherManager.saveRegions m.mRegions) } : WeatherManager) = m
    rw [hround]

/-- Witness of C24: the engine with the region "ascadian isles", changing from weather 0 to
weather 1 at factor 1/2 with weather 2 queued, is saved and read back into an engine that
was Steady on weather 7. -/
theorem c24_save_load_round_trip_witness :
    ((engineInRegion 1 false (1 / 2) 0 1 2).readRecord
        ⟨2, (engineInRegion 1 false (1 / 2) 0 1 2).write⟩ REC_WTHR).2.1
      = engineInRegion 1 false (1 / 2) 0 1 2 ∧
    ((engineInRegion 1 false 0 7 invalidWeatherID invalidWeatherID).readRecord
        ⟨2, (engineInRegion 1 false (1 / 2) 0 1 2).write⟩ REC_WTHR).2.1.mCurrentWeather = 0 ∧
    ((engineInRegion 1 false 0 7 invalidWeatherID invalidWeatherID).readRecord
        ⟨2, (engineInRegion 1 false (1 / 2) 0 1 2).write⟩ REC_WTHR).2.1.mNextWeather = 1 ∧
    ((engineInRegion 1 false 0 7 invalidWeatherID invalidWeatherID).readRecord
        ⟨2, (engineInRegion 1 false (1 / 2) 0 1 2).write⟩ REC_WTHR).2.1.mQueuedWeather = 2 ∧
    ((engineInRegion 1 false 0 7 invalidWeatherID invalidWeatherID).readRecord
        ⟨2, (engineInRegion 1 false (1 / 2) 0 1 2).write⟩ REC_WTHR).2.1.mTransitionFactor
      = 1 / 2 ∧
    ((engineInRegion 1 false 0 7 invalidWeatherID invalidWeatherID).readRecord
        ⟨2, (engineInRegion 1 false (1 / 2) 0 1 2).write⟩ REC_WTHR).2.1.mRegions
      = [("ascadian isles", ascadianIsles)] := by
  obtain ⟨_, _, _, _, _, _, h7, h8, h9, h10, _, h12⟩ :=
    c24_save_load_round_trip (engineInRegion 1 false (1 / 2) 0 1 2)
      (engineInRegion 1 false 0 7 invalidWeatherID invalidWeatherID)
      ⟨2, (engineInRegion 1 false (1 / 2) 0 1 2).write⟩ (by decide) rfl (by decide)
  exact ⟨(h12 (by decide)).2, h8, h9, h10, h7, (h12 (by decide)).1⟩

theorem chooseNewWeather_valid (settings : List Weather) (r : RegionWeather) (roll : Int)
    (htable : wellFormedTable settings r.mChances) (h0 : 0 ≤ roll) (h100 : roll < 100) :
    validWeatherID settings (r.chooseNewWeather roll).mWeather := by
  obtain ⟨hlen, _, hsum⟩ := htable
  have hm : (r.chooseNewWeather roll).mWeather
      = ((RegionWeather.chooseLoop (roll + 1) r.mChances 0 0 : Nat) : Int) := rfl
  have hpos : 0 < r.mChances.length := by
    rcases Nat.eq_zero_or_pos r.mChances.length with hz | hz
    · rw [List.length_eq_zero.mp hz] at hsum
      simp at hsum
    · exact hz
  have hlt := chooseLoop_found (roll + 1) r.mChances (r.mChances.length - 1) (by omega)
    (by rw [prefixSum_last, hsum]; omega)
  rw [hm]
  refine ⟨Int.natCast_nonneg _, ?_⟩
  rw [Int.toNat_natCast, ← hlen]
  exact hlt

theorem getWeather_valid (settings : List Weather) (r : RegionWeather) (roll : Int)
    (hr : wellFormedRegion settings r) (h0 : 0 ≤ roll) (h100 : roll < 100) :
    validWeatherID settings (r.getWeather roll).1 ∧
    wellFormedRegion settings (r.getWeather roll).2 := by
  by_cases hunset : r.mWeather = invalidWeatherID
  · rw [getWeather_unset r roll hunset]
    have hv := chooseNewWeather_valid settings r roll hr.1 h0 h100
    exact ⟨hv, hr.1, Or.inr hv⟩
  · rw [getWeather_selected r roll hunset]
    rcases hr.2 with h | h
    · exact absurd h hunset
    · exact ⟨h, hr⟩

theorem setChances_valid (settings : List Weather) (r : RegionWeather) (chances : List Int)
    (roll : Int) (hr : wellFormedRegion settings r) (hc : wellFormedTable settings chances)
    (h0 : 0 ≤ roll) (h100 : roll < 100) :
    ∃ r1, r.setChances chances roll = some r1 ∧ wellFormedRegion settings r1 := by
  have hlen : chances.length = r.mChances.length := hc.1.trans hr.1.1.symm
  obtain ⟨r1, hset, hl1, hget, hor, _, _⟩ := setChances_defined r chances roll (le_of_eq hlen)
  have htab : r1.mChances = chances := by
    apply List.ext_getElem?
    intro j
    rw [hget j]
    by_cases hj : j < chances.length
    · rw [if_pos hj]
    · rw [if_neg hj, List.getElem?_eq_none (by omega), List.getElem?_eq_none (by omega)]
  refine ⟨r1, hset, ?_⟩
  rcases hor with h | h
  · rw [h]
    exact ⟨by rw [htab]; exact hc, hr.2⟩
  · rw [h]
    have hv := chooseNewWeather_valid settings
      ({ r with mChances := r1.mChances } : RegionWeather) roll (by rw [htab]; exact hc) h0 h100
    exact ⟨by rw [htab]; exact hc, Or.inr hv⟩

theorem mapFind_mem {V : Type} (entries : List (String × V)) (key : String) (v : V)
    (h : mapFind entries key = some v) : (key, v) ∈ entries := by
  induction entries with
  | nil => cases h
  | cons entry rest ih =>
    obtain ⟨k, x⟩ := entry
    by_cases hk : k = key
    · simp only [mapFind, if_pos hk, Option.some.injEq] at h
      rw [hk, h]
      exact List.mem_cons_self _ _
    · simp only [mapFind, if_neg hk] at h
      exact List.mem_cons_of_mem _ (ih h)

theorem mem_mapSet {V : Type} (entries : List (String × V)) (key : String) (value : V)
    (entry : String × V) (h : entry ∈ mapSet entries key value) :
    entry ∈ entries ∨ entry.2 = value := by
  induction entries with
  | nil => cases h
  | cons e rest ih =>
    obtain ⟨k, x⟩ := e
    by_cases hk : k = key
    · simp only [mapSet, if_pos hk, List.mem_cons] at h
      rcases h with h | h
      · rw [h]
        exact Or.inr rfl
      · exact Or.inl (List.mem_cons_of_mem _ h)
    · simp only [mapSet, if_neg hk, List.mem_cons] at h
      rcases h with h | h
      · rw [h]
        exact Or.inl (List.mem_cons_self _ _)
      · rcases ih h with h1 | h1
        · exact Or.inl (List.mem_cons_of_mem _ h1)
        · exact Or.inr h1

theorem wellFormedRegions_mapSet (settings : List Weather)
    (regions : List (String × RegionWeather)) (key : String) (r : RegionWeather)
    (hall : wellFormedRegions settings regions) (hr : wellFormedRegion settings r) :
    wellFormedRegions settings (mapSet regions key r) := by
  intro entry he
  rcases mem_mapSet regions key r entry he with h | h
  · exact hall entry h
  · rw [h]
    exact hr

theorem wellFormedRegions_find (settings : List Weather)
    (regions : List (String × RegionWeather)) (key : String) (r : RegionWeather)
    (hall : wellFormedRegions settings regions) (h : mapFind regions key = some r) :
    wellFormedRegion settings r :=
  hall (key, r) (mapFind_mem regions key r h)

theorem validSelection_valid {settings : List Weather} {weatherID : Int}
    (h : validSelection settings weatherID) (hne : weatherID ≠ invalidWeatherID) :
    validWeatherID settings weatherID := by
  rcases h with h | h
  · exact absurd h hne
  · exact h

theorem weatherSetting_mem (settings : List Weather) (weatherID : Int) (w : Weather)
    (h : weatherSetting settings weatherID = some w) : w ∈ settings := by
  unfold weatherSetting at h
  by_cases h0 : 0 ≤ weatherID
  · rw [if_pos h0] at h
    obtain ⟨hlt, heq⟩ := List.getElem?_eq_some.mp h
    rw [← heq]
    exact List.getElem_mem hlt
  · rw [if_neg h0] at h
    cases h

theorem addWeatherTransition_valid (m : WeatherManager) (weatherID : Int)
    (hv : validEngine m) (hid : validWeatherID m.mWeatherSettings weatherID) :
    ∃ m', m.addWeatherTransition weatherID = some m' ∧ validEngine m' := by
  unfold WeatherManager.addWeatherTransition
  rw [if_pos hid]
  split_ifs
  · exact ⟨_, rfl, hv.1, hv.2.1, Or.inr hid, hv.2.2.2⟩
  · exact ⟨_, rfl, hv.1, hv.2.1, hv.2.2.1, Or.inr hid⟩
  · exact ⟨_, rfl, hv⟩

theorem updateWeatherTransitions_valid (m m' : WeatherManager) (e : ℚ) (hv : validEngine m)
    (h : m.updateWeatherTransitions e = some m') : validEngine m' := by
  unfold WeatherManager.updateWeatherTransitions fdiv at h
  simp only [] at h
  by_cases hc : (!m.mFastForward && m.inTransition) = true
  · have hnext : validWeatherID m.mWeatherSettings m.mNextWeather := by
      apply validSelection_valid hv.2.2.1
      simp [WeatherManager.inTransition] at hc
      exact hc.2
    rw [if_pos hc] at h
    cases hn : weatherSetting m.mWeatherSettings m.mNextWeather with
    | none => rw [hn] at h; cases h
    | some next =>
      rw [hn] at h
      simp only [] at h
      by_cases hle : m.mTransitionFactor - e * next.transitionDelta ≤ 0
      · rw [if_pos hle] at h
        by_cases hq : (m.mQueuedWeather != invalidWeatherID) = true
        · simp only [WeatherManager.inTransition, hq, if_true] at h
          cases hqs : weatherSetting m.mWeatherSettings m.mQueuedWeather with
          | none => rw [hqs] at h; cases h
          | some queued =>
            rw [hqs] at h
            simp only [] at h
            by_cases hd : next.transitionDelta = 0
            · rw [if_pos hd] at h; cases h
            · rw [if_neg hd] at h
              cases h
              exact ⟨hv.1, hnext, hv.2.2.2, Or.inl rfl⟩
        · simp only [WeatherManager.inTransition, hq] at h
          cases h
          exact ⟨hv.1, hnext, hv.2.2.2, Or.inl rfl⟩
      · rw [if_neg hle] at h
        cases h
        exact hv
  · rw [if_neg hc] at h
    split_ifs at h with h1 h2
    · cases h
      exact ⟨hv.1, validSelection_valid hv.2.2.2 h1, Or.inl rfl, Or.inl rfl⟩
    · cases h
      exact ⟨hv.1, validSelection_valid hv.2.2.1 h2, Or.inl rfl, Or.inl rfl⟩
    · cases h
      exact ⟨hv.1, hv.2.1, Or.inl rfl, Or.inl rfl⟩

theorem updateWeatherTransitions_returns (m : WeatherManager) (e : ℚ) (hv : validEngine m)
    (hdelta : ∀ w ∈ m.mWeatherSettings, w.transitionDelta ≠ 0) :
    ∃ m', m.updateWeatherTransitions e = some m' := by
  unfold WeatherManager.updateWeatherTransitions fdiv
  simp only []
  by_cases hc : (!m.mFastForward && m.inTransition) = true
  · have hnext : validWeatherID m.mWeatherSettings m.mNextWeather := by
      apply validSelection_valid hv.2.2.1
      simp [WeatherManager.inTransition] at hc
      exact hc.2
    obtain ⟨next, hn⟩ := (weatherSetting_isSome_iff _ _).mpr hnext
    rw [if_pos hc, hn]
    simp only []
    by_cases hle : m.mTransitionFactor - e * next.transitionDelta ≤ 0
    · rw [if_pos hle]
      by_cases hq : (m.mQueuedWeather != invalidWeatherID) = true
      · have hqv : validWeatherID m.mWeatherSettings m.mQueuedWeather :=
          validSelection_valid hv.2.2.2 (bne_iff_ne.mp hq)
        obtain ⟨queued, hqs⟩ := (weatherSetting_isSome_iff _ _).mpr hqv
        simp only [WeatherManager.inTransition, hq, if_true, hqs]
        rw [if_neg (hdelta next (weatherSetting_mem _ _ _ hn))]
        exact ⟨_, rfl⟩
      · simp only [WeatherManager.inTransition, hq]
        exact ⟨_, rfl⟩
    · rw [if_neg hle]
      exact ⟨_, rfl⟩
  · rw [if_neg hc]
    exact ⟨_, rfl⟩

theorem validEngine_of_weatherPart (m m' : WeatherManager)
    (h : weatherPart m' = weatherPart m) (hv : validEngine m) : validEngine m' := by
  simp only [weatherPart, Prod.mk.injEq] at h
  obtain ⟨h1, h2, _, _, _, _, _, _, h9, h10, h11⟩ := h
  unfold validEngine
  rw [h1, h2, h9, h10, h11]
  exact hv

theorem updateWeatherTime_valid (m : WeatherManager) (hv : validEngine m) :
    validEngine (m.updateWeatherTime).2 := by
  unfold WeatherManager.updateWeatherTime
  simp only []
  split_ifs
  · refine ⟨?_, hv.2.1, hv.2.2.1, hv.2.2.2⟩
    intro entry he
    obtain ⟨e0, h0, heq⟩ := List.mem_map.mp he
    rw [← heq]
    exact ⟨(hv.1 e0 h0).1, Or.inl rfl⟩
  · exact hv

theorem updateWeatherRegion_valid (m : WeatherManager) (playerRegion : String)
    (hv : validEngine m) : validEngine (m.updateWeatherRegion playerRegion).2 := by
  unfold WeatherManager.updateWeatherRegion
  split_ifs
  · exact hv
  · exact hv

theorem updateWeatherTimeOrRegion_valid (m : WeatherManager) (playerRegion : String)
    (hv : validEngine m) : validEngine (m.updateWeatherTimeOrRegion playerRegion).2 := by
  unfold WeatherManager.updateWeatherTimeOrRegion
  split_ifs
  · exact updateWeatherTime_valid m hv
  · exact updateWeatherRegion_valid _ _ (updateWeatherTime_valid m hv)

theorem updateRequest_valid (m : WeatherManager) (env : Environment) (roll : Int)
    (hv : validEngine m) (h0 : 0 ≤ roll) (h100 : roll < 100) :
    validEngine (m.updateRequest env roll).1 ∧
    ∀ id, (m.updateRequest env roll).2 = some id →
      validWeatherID (m.updateRequest env roll).1.mWeatherSettings id := by
  have ht := updateWeatherTimeOrRegion_valid m (lowerCase env.mPlayerRegion) hv
  unfold WeatherManager.updateRequest
  simp only []
  by_cases hreq : (m.updateWeatherTimeOrRegion (lowerCase env.mPlayerRegion)).1 = true
  · rw [if_pos hreq]
    cases hfind : mapFind (m.updateWeatherTimeOrRegion (lowerCase env.mPlayerRegion)).2.mRegions
        (m.updateWeatherTimeOrRegion (lowerCase env.mPlayerRegion)).2.mCurrentRegion with
    | none =>
      simp only []
      exact ⟨ht, fun id hid => by cases hid⟩
    | some region =>
      simp only []
      have hr := wellFormedRegions_find _ _ _ _ ht.1 hfind
      obtain ⟨g1, g2⟩ := getWeather_valid _ region roll hr h0 h100
      refine ⟨⟨wellFormedRegions_mapSet _ _ _ _ ht.1 g2, ht.2.1, ht.2.2.1, ht.2.2.2⟩, ?_⟩
      intro id hid
      cases hid
      exact g1
  · rw [if_neg hreq]
    exact ⟨ht, fun id hid => by cases hid⟩

theorem updateWeather_valid (m : WeatherManager) (env : Environment) (duration : ℚ)
    (roll : Int) (hv : validEngine m) (h0 : 0 ≤ roll) (h100 : roll < 100) :
    (∀ m1, m.updateWeather env duration roll = some m1 → validEngine m1) ∧
    ((∀ w ∈ m.mWeatherSettings, w.transitionDelta ≠ 0) →
      ∃ m1, m.updateWeather env duration roll = some m1) := by
  obtain ⟨hr, hid⟩ := updateRequest_valid m env roll hv h0 h100
  have hset := (updateRequest_shown m env roll).2.2.2
  unfold WeatherManager.updateWeather
  cases hreq : (m.updateRequest env roll).2 with
  | none =>
    simp only []
    refine ⟨fun m1 h => updateWeatherTransitions_valid _ _ _ hr h, ?_⟩
    intro hdelta
    exact updateWeatherTransitions_returns _ _ hr (by rw [hset]; exact hdelta)
  | some weatherID =>
    simp only []
    obtain ⟨m2, hadd, hv2⟩ := addWeatherTransition_valid _ weatherID hr (hid weatherID hreq)
    rw [hadd]
    simp only []
    refine ⟨fun m1 h => updateWeatherTransitions_valid _ _ _ hv2 h, ?_⟩
    intro hdelta
    have hset2 := (addWeatherTransition_shown _ _ _ hadd).2.2.2.2.1
    exact updateWeatherTransitions_returns _ _ hv2 (by rw [hset2, hset]; exact hdelta)

theorem regionalWeatherChanged_valid (m : WeatherManager) (env : Environment)
    (regionID : String) (region : RegionWeather) (roll : Int) (hv : validEngine m)
    (hr : wellFormedRegion m.mWeatherSettings region) (h0 : 0 ≤ roll) (h100 : roll < 100) :
    ∃ m1 region1, m.regionalWeatherChanged env regionID region roll = some (m1, region1) ∧
      validEngine m1 ∧ m1.mWeatherSettings = m.mWeatherSettings ∧
      wellFormedRegion m.mWeatherSettings region1 := by
  obtain ⟨g1, g2⟩ := getWeather_valid _ region roll hr h0 h100
  unfold WeatherManager.regionalWeatherChanged
  simp only []
  split_ifs
  · obtain ⟨m1, hadd, hv1⟩ := addWeatherTransition_valid m _ hv g1
    rw [hadd]
    exact ⟨m1, _, rfl, hv1, (addWeatherTransition_shown _ _ _ hadd).2.2.2.2.1, g2⟩
  · exact ⟨m, region, rfl, hv, rfl, hr⟩
  · exact ⟨m, region, rfl, hv, rfl, hr⟩

theorem changeWeather_valid (m : WeatherManager) (env : Environment) (regionID : String)
    (weatherID : Nat) (roll : Int) (hv : validEngine m) (h0 : 0 ≤ roll) (h100 : roll < 100) :
    ∃ m', m.changeWeather env regionID weatherID roll = some m' ∧ validEngine m' := by
  unfold WeatherManager.changeWeather
  by_cases hlt : weatherID < m.mWeatherSettings.length
  · rw [if_pos hlt]
    simp only []
    cases hfind : mapFind m.mRegions (lowerCase regionID) with
    | none => exact ⟨m, rfl, hv⟩
    | some region =>
      simp only []
      have hr := wellFormedRegions_find _ _ _ _ hv.1 hfind
      have hr1 : wellFormedRegion m.mWeatherSettings (region.setWeather weatherID) :=
        ⟨hr.1, Or.inr ⟨Int.natCast_nonneg _, by
          show (weatherID : Int).toNat < _
          rw [Int.toNat_natCast]
          exact hlt⟩⟩
      obtain ⟨m1, region1, hch, hv1, hs1, hr2⟩ :=
        regionalWeatherChanged_valid m env (lowerCase regionID) _ roll hv hr1 h0 h100
      rw [hch]
      simp only []
      refine ⟨_, rfl, ?_, hv1.2.1, hv1.2.2.1, hv1.2.2.2⟩
      exact wellFormedRegions_mapSet _ _ _ _ hv1.1 (by rw [hs1]; exact hr2)
  · rw [if_neg hlt]
    exact ⟨m, rfl, hv⟩

theorem modRegion_valid (m : WeatherManager) (env : Environment) (regionID : String)
    (chances : List Int) (roll roll2 : Int) (hv : validEngine m)
    (hc : wellFormedTable m.mWeatherSettings chances)
    (h0 : 0 ≤ roll) (h100 : roll < 100) (h0b : 0 ≤ roll2) (h100b : roll2 < 100) :
    ∃ m', m.modRegion env regionID chances roll roll2 = some m' ∧ validEngine m' := by
  unfold WeatherManager.modRegion
  simp only []
  cases hfind : mapFind m.mRegions (lowerCase regionID) with
  | none => exact ⟨m, rfl, hv⟩
  | some region =>
    simp only []
    have hr := wellFormedRegions_find _ _ _ _ hv.1 hfind
    obtain ⟨region1, hset, hr1⟩ := setChances_valid _ region chances roll hr hc h0 h100
    rw [hset]
    simp only []
    obtain ⟨m1, region2, hch, hv1, hs1, hr2⟩ :=
      regionalWeatherChanged_valid m env (lowerCase regionID) region1 roll2 hv hr1 h0b h100b
    rw [hch]
    simp only []
    refine ⟨_, rfl, ?_, hv1.2.1, hv1.2.2.1, hv1.2.2.2⟩
    exact wellFormedRegions_mapSet _ _ _ _ hv1.1 (by rw [hs1]; exact hr2)

theorem update_valid (m m' : WeatherManager) (env : Environment) (duration : ℚ)
    (paused : Bool) (r1 r2 r3 : Int) (calls : List Call) (hv : validEngine m)
    (h0 : 0 ≤ r1) (h100 : r1 < 100)
    (h : m.update env duration paused r1 r2 r3 = some (m', calls)) : validEngine m' := by
  have hafter : ∀ m1 : WeatherManager, validEngine m1 →
      (if (env.mCellExterior || env.mCellQuasiExterior) = false then
          some ((m1.stopSounds).1, Call.setSkyEnabled false :: (m1.stopSounds).2)
        else m1.updateExterior env duration paused r2 r3) = some (m', calls) →
      validEngine m' := by
    intro m1 hv1 h1
    split_ifs at h1
    · cases h1
      exact validEngine_of_weatherPart _ _ (stopSounds_weatherPart m1) hv1
    · exact validEngine_of_weatherPart _ _
        (updateExterior_weatherPart _ _ _ _ _ _ _ _ h1) hv1
  cases paused with
  | true =>
    rw [update_paused] at h
    exact hafter m hv h
  | false =>
    rw [update_unpaused] at h
    cases hw : m.updateWeather env duration r1 with
    | none => rw [hw] at h; cases h
    | some m1 =>
      rw [hw, Option.some_bind] at h
      exact hafter m1 ((updateWeather_valid m env duration r1 hv h0 h100).1 m1 hw) h

theorem playerTeleported_valid (m : WeatherManager) (env : Environment) (roll : Int)
    (hv : validEngine m) (h0 : 0 ≤ roll) (h100 : roll < 100) :
    validEngine (m.playerTeleported env roll) := by
  unfold WeatherManager.playerTeleported
  simp only []
  cases hfind : mapFind m.mRegions (lowerCase env.mPlayerRegion) with
  | none =>
    simp only []
    split_ifs <;> exact hv
  | some region =>
    simp only []
    have hr := wellFormedRegions_find _ _ _ _ hv.1 hfind
    obtain ⟨g1, g2⟩ := getWeather_valid _ region roll hr h0 h100
    split_ifs
    · exact ⟨wellFormedRegions_mapSet _ _ _ _ hv.1 g2, g1, Or.inl rfl, Or.inl rfl⟩
    · exact hv
    · exact hv

theorem construct_valid (m : WeatherManager) (hpos : 0 < m.mWeatherSettings.length)
    (hstore : wellFormedRegions m.mWeatherSettings
      (WeatherManager.insertRegions m.mStore [])) :
    validEngine (WeatherManager.construct m) :=
  ⟨hstore, ⟨le_refl _, hpos⟩, Or.inl rfl, Or.inl rfl⟩

/-- C28: transition requests carry a valid id. Let every region of the table have exactly
as many weights as there are profiles, none negative, summing to 100, and a selection that
is unset or valid; let the current weather be a valid id and the next and queued weather
be unset or valid (as after construction), let `chances` be such a table too and let the
dice rolls lie in [0, 99]. Then the id that `update` requests, if it requests one, is
valid, and `addWeatherTransition` accepts it; `changeWeather` and `modRegion` return, which
they do only if the assertion of every `addWeatherTransition` they call holds; and after
`update` (whenever it returns), after its weather block (which returns if no profile has
transition speed zero), after `changeWeather`, `modRegion` and `playerTeleported` the
state is again as assumed: the current weather indexes a profile, and so do the next and
the queued weather when set. -/
theorem c28_requests_carry_valid_id (m : WeatherManager) (env : Environment)
    (regionID : String) (weatherID : Nat) (chances : List Int) (duration : ℚ)
    (paused : Bool) (roll roll2 soundRoll chanceRoll : Int)
    (hv : validEngine m) (hc : wellFormedTable m.mWeatherSettings chances)
    (h0 : 0 ≤ roll) (h100 : roll < 100) (h0b : 0 ≤ roll2) (h100b : roll2 < 100) :
    (∀ id, (m.updateRequest env roll).2 = some id →
      validWeatherID m.mWeatherSettings id ∧
      ∃ m1, (m.updateRequest env roll).1.addWeatherTransition id = some m1) ∧
    (∀ m' calls, m.update env duration paused roll soundRoll chanceRoll = some (m', calls) →
      validEngine m') ∧
    ((∀ w ∈ m.mWeatherSettings, w.transitionDelta ≠ 0) →
      ∃ m1, m.updateWeather env duration roll = some m1 ∧ validEngine m1) ∧
    (∃ m', m.changeWeather env regionID weatherID roll = some m' ∧ validEngine m') ∧
    (∃ m', m.modRegion env regionID chances roll roll2 = some m' ∧ validEngine m') ∧
    validEngine (m.playerTeleported env roll) := by
  refine ⟨?_, ?_, ?_, changeWeather_valid m env regionID weatherID roll hv h0 h100,
    modRegion_valid m env regionID chances roll roll2 hv hc h0 h100 h0b h100b,
    playerTeleported_valid m env roll hv h0 h100⟩
  · intro id hid
    obtain ⟨hr, hvalid⟩ := updateRequest_valid m env roll hv h0 h100
    have hset := (updateRequest_shown m env roll).2.2.2
    obtain ⟨m1, hadd, _⟩ := addWeatherTransition_valid _ id hr (hvalid id hid)
    exact ⟨by rw [← hset]; exact hvalid id hid, m1, hadd⟩
  · intro m' calls h
    exact update_valid m m' env duration paused roll soundRoll chanceRoll calls hv h0 h100 h
  · intro hdelta
    obtain ⟨h1, h2⟩ := updateWeather_valid m env duration roll hv h0 h100
    obtain ⟨m1, hm1⟩ := h2 hdelta
    exact ⟨m1, hm1, h1 m1 hm1⟩

/-- Witness of C28: the engine with the region "ascadian isles" (weights 50, 50, 0, ...),
Steady on weather 0, with the player in that region; the new table 0, 100, 0, ... and the
rolls 59. -/
theorem c28_requests_carry_valid_id_witness :
    validEngine (engineInRegion (1 / 10) false 0 0 invalidWeatherID invalidWeatherID) ∧
    (∃ m1, (engineInRegion (1 / 10) false 0 0 invalidWeatherID invalidWeatherID).updateWeather
        (sampleEnvironment "Ascadian Isles" true true) 1 59 = some m1 ∧ validEngine m1) ∧
    (∃ m', (engineInRegion (1 / 10) false 0 0 invalidWeatherID invalidWeatherID).changeWeather
        (sampleEnvironment "Ascadian Isles" true true) "Ascadian Isles" 3 59 = some m' ∧
      validEngine m') ∧
    (∃ m', (engineInRegion (1 / 10) false 0 0 invalidWeatherID invalidWeatherID).modRegion
        (sampleEnvironment "Ascadian Isles" true true) "Ascadian Isles"
        [0, 100, 0, 0, 0, 0, 0, 0, 0, 0] 59 59 = some m' ∧
      validEngine m') := by
  have h := c28_requests_carry_valid_id
    (engineInRegion (1 / 10) false 0 0 invalidWeatherID invalidWeatherID)
    (sampleEnvironment "Ascadian Isles" true true) "Ascadian Isles" 3
    [0, 100, 0, 0, 0, 0, 0, 0, 0, 0] 1 false 59 59 2 42 (by decide) (by decide)
    (by decide) (by decide) (by decide) (by decide)
  refine ⟨by decide, h.2.2.1 ?_, h.2.2.2.1, h.2.2.2.2.1⟩
  intro w hw
  simp only [engineInRegion, engineOver, List.mem_replicate] at hw
  rw [hw.2]
  norm_num [profileWithDelta, Weather.transitionDelta]

/-- Witness of C25: a weather record of format version 1 holding the state of another
engine is skipped and leaves the engine as it was; a record of type 0 is not handled. -/
theorem c25_old_format_discarded_witness :
    (engineInRegion 1 false (1 / 2) 0 1 2).readRecord
        ⟨1, (engineInRegion 1 false 0 7 invalidWeatherID invalidWeatherID).write⟩ REC_WTHR
      = (true, engineInRegion 1 false (1 / 2) 0 1 2, ReaderUse.skipped) ∧
    (engineInRegion 1 false (1 / 2) 0 1 2).readRecord
        ⟨2, (engineInRegion 1 false 0 7 invalidWeatherID invalidWeatherID).write⟩ 0
      = (false, engineInRegion 1 false (1 / 2) 0 1 2, ReaderUse.untouched) :=
  ⟨(c25_old_format_discarded (engineInRegion 1 false (1 / 2) 0 1 2)
      ⟨1, (engineInRegion 1 false 0 7 invalidWeatherID invalidWeatherID).write⟩ REC_WTHR).1
      rfl (by decide),
   (c25_old_format_discarded (engineInRegion 1 false (1 / 2) 0 1 2)
      ⟨2, (engineInRegion 1 false 0 7 invalidWeatherID invalidWeatherID).write⟩ 0).2
      (by decide)⟩

/-! ## Moon rise hour and moon angle -/

theorem fmod_nonneg_bounds (x : ℚ) (hx : 0 ≤ x) : 0 ≤ fmod x 24 ∧ fmod x 24 < 24 := by
  unfold fmod
  have hq : (0 : ℚ) ≤ x / 24 := div_nonneg hx (by norm_num)
  rw [if_pos hq]
  have h1 : ((⌊x / 24⌋ : Int) : ℚ) ≤ x / 24 := Int.floor_le _
  have h2 : x / 24 < ((⌊x / 24⌋ : Int) : ℚ) + 1 := Int.lt_floor_add_one _
  constructor
  · have : ((⌊x / 24⌋ : Int) : ℚ) * 24 ≤ x := by
      have := mul_le_mul_of_nonneg_right h1 (by norm_num : (0 : ℚ) ≤ 24)
      linarith [div_mul_cancel₀ x (by norm_num : (24 : ℚ) ≠ 0)]
    linarith
  · have : x < (((⌊x / 24⌋ : Int) : ℚ) + 1) * 24 := by
      have := mul_lt_mul_of_pos_right h2 (by norm_num : (0 : ℚ) < 24)
      linarith [div_mul_cancel₀ x (by norm_num : (24 : ℚ) ≠ 0)]
    linarith

theorem toUnsigned_day (day : Int) (h0 : 0 ≤ day) (h31 : day < 2 ^ 31) :
    toUnsigned day = day.toNat ∧ day.toNat + 15 < uintSize := by
  unfold toUnsigned uintSize
  constructor
  · rw [Int.emod_eq_of_lt h0 (by norm_num at h31 ⊢; omega)]
  · norm_num at h31 ⊢
    omega

/-- C31 (as the code has it): for every day count `d` for which `d + 15` fits the unsigned
32-bit range (every non-negative `int` day does), also `d = 0`, where `d - 1` wraps to
`2^32 - 1` and the sum `d - 1 + 16` wraps back to 15, and for every daily increment of
magnitude at most `2^64`, `moonRiseHour(d)` is the `float` evaluation of
`dailyIncrement + fmod((d + 15) * dailyIncrement, 24)`: with `rnd` the rounding to binary32,
`rnd(dailyIncrement + fmod(rnd(rnd(d + 15) * dailyIncrement), 24))`, where the product stays
within the `float` range (its magnitude is at most `2^96`). It equals the exact value
`dailyIncrement + fmod((d + 15) * dailyIncrement, 24)` when `d + 15 <= 2^24` and neither the
product nor the sum is changed by the rounding. For a daily increment that is a `float` and
not negative it lies between `dailyIncrement` and `rnd(dailyIncrement + 24)`: the sum is not
reduced modulo 24. -/
theorem c31_moon_rise_hour_rounded (m : MoonModel) (d : Nat) (hd : d + 15 < uintSize)
    (hrange : |m.mDailyIncrement| ≤ 2 ^ 64) :
    m.moonRiseHour d
      = f32 (m.mDailyIncrement
          + fmod (f32 (f32 ((d + 15 : Nat) : ℚ) * m.mDailyIncrement)) 24) ∧
    |f32 (f32 ((d + 15 : Nat) : ℚ) * m.mDailyIncrement)| ≤ 2 ^ 96 ∧
    (d + 15 ≤ 16777216 →
      f32 (((d + 15 : Nat) : ℚ) * m.mDailyIncrement)
        = ((d + 15 : Nat) : ℚ) * m.mDailyIncrement →
      f32 (m.mDailyIncrement + fmod (((d + 15 : Nat) : ℚ) * m.mDailyIncrement) 24)
        = m.mDailyIncrement + fmod (((d + 15 : Nat) : ℚ) * m.mDailyIncrement) 24 →
      m.moonRiseHour d
        = m.mDailyIncrement + fmod (((d + 15 : Nat) : ℚ) * m.mDailyIncrement) 24) ∧
    (0 ≤ m.mDailyIncrement → f32 m.mDailyIncrement = m.mDailyIncrement →
      m.mDailyIncrement ≤ m.moonRiseHour d ∧
      m.moonRiseHour d ≤ f32 (m.mDailyIncrement + 24)) ∧
    (∀ day : Int, 0 ≤ day → day < 2 ^ 31 →
      m.moonRiseHour (toUnsigned day)
        = f32 (m.mDailyIncrement
            + fmod (f32 (f32 ((day + 15 : Int) : ℚ) * m.mDailyIncrement)) 24)) := by
  refine ⟨moonRiseHour_unsigned m d hd, ?_, ?_, ?_, ?_⟩
  · have hcount : |f32 ((d + 15 : Nat) : ℚ)| ≤ 2 ^ 32 :=
      f32_abs_le _ (2 ^ 32) 1 32 (by norm_num) (by norm_num) (by norm_num) (by
        rw [abs_of_nonneg (Nat.cast_nonneg _)]
        have : d + 15 ≤ 2 ^ 32 := le_of_lt hd
        exact_mod_cast this)
    have hprod : |f32 ((d + 15 : Nat) : ℚ) * m.mDailyIncrement| ≤ 2 ^ 96 := by
      rw [abs_mul]
      calc |f32 ((d + 15 : Nat) : ℚ)| * |m.mDailyIncrement|
          ≤ 2 ^ 32 * 2 ^ 64 := mul_le_mul hcount hrange (abs_nonneg _) (by norm_num)
        _ = 2 ^ 96 := by norm_num
    exact f32_abs_le _ (2 ^ 96) 1 96 (by norm_num) (by norm_num) (by norm_num) hprod
  · intro hsmall hprod hsum
    rw [moonRiseHour_unsigned m d hd, f32_natCast (d + 15) hsmall, hprod, hsum]
  · intro hinc hfloat
    rw [moonRiseHour_unsigned m d hd]
    have hx : (0 : ℚ) ≤ f32 (f32 ((d + 15 : Nat) : ℚ) * m.mDailyIncrement) :=
      f32_nonneg _ (mul_nonneg (f32_nonneg _ (Nat.cast_nonneg _)) hinc)
    obtain ⟨h1, h2⟩ := fmod_nonneg_bounds _ hx
    constructor
    · have := f32_mono m.mDailyIncrement
        (m.mDailyIncrement
          + fmod (f32 (f32 ((d + 15 : Nat) : ℚ) * m.mDailyIncrement)) 24) (by linarith)
      rw [hfloat] at this
      exact this
    · exact f32_mono _ _ (by linarith)
  · intro day h0 h31
    obtain ⟨hu, hlt⟩ := toUnsigned_day day h0 h31
    rw [hu, moonRiseHour_unsigned m day.toNat hlt]
    have hcast : ((day.toNat + 15 : Nat) : ℚ) = ((day + 15 : Int) : ℚ) := by
      have hz : ((day.toNat : Nat) : ℚ) = ((day : Int) : ℚ) := by
        have := Int.toNat_of_nonneg h0
        exact_mod_cast this
      push_cast
      rw [hz]
    rw [hcast]

/-- Witness of C31: the sample moon (daily increment 1) on day 8: the moon rise hour is
`1 + fmod(23, 24) = 24`, which is not below 24; on day 0 it is `1 + fmod(15, 24) = 16`. -/
theorem c31_moon_rise_hour_rounded_witness :
    8 + 15 < uintSize ∧ |sampleMoon.mDailyIncrement| ≤ 2 ^ 64 ∧
    sampleMoon.moonRiseHour 8 = 24 ∧ sampleMoon.moonRiseHour 0 = 16 ∧
    sampleMoon.mDailyIncrement ≤ sampleMoon.moonRiseHour 8 := by
  have hinc : sampleMoon.mDailyIncrement = 1 := rfl
  have hrange : |sampleMoon.mDailyIncrement| ≤ 2 ^ 64 := by
    rw [hinc]
    norm_num
  have h8 := c31_moon_rise_hour_rounded sampleMoon 8 (by decide) hrange
  have h0 := c31_moon_rise_hour_rounded sampleMoon 0 (by decide) hrange
  have hf1 : f32 (1 : ℚ) = 1 := f32_one
  have h23 : f32 (((8 + 15 : Nat) : ℚ) * 1) = ((8 + 15 : Nat) : ℚ) * 1 :=
    f32_fixed _ 23 0 (by norm_num) (by norm_num) (by norm_num)
  have h15 : f32 (((0 + 15 : Nat) : ℚ) * 1) = ((0 + 15 : Nat) : ℚ) * 1 :=
    f32_fixed _ 15 0 (by norm_num) (by norm_num) (by norm_num)
  have h24 : f32 (1 + fmod (((8 + 15 : Nat) : ℚ) * 1) 24)
      = 1 + fmod (((8 + 15 : Nat) : ℚ) * 1) 24 :=
    f32_fixed _ 24 0 (by norm_num) (by norm_num) (by norm_num [fmod])
  have h16 : f32 (1 + fmod (((0 + 15 : Nat) : ℚ) * 1) 24)
      = 1 + fmod (((0 + 15 : Nat) : ℚ) * 1) 24 :=
    f32_fixed _ 16 0 (by norm_num) (by norm_num) (by norm_num [fmod])
  rw [hinc] at h8 h0
  refine ⟨by decide, hrange, ?_, ?_, ?_⟩
  · rw [h8.2.2.1 (by norm_num) h23 h24]
    norm_num [fmod]
  · rw [h0.2.2.1 (by norm_num) h15 h16]
    norm_num [fmod]
  · rw [hinc]
    exact (h8.2.2.2.1 (by norm_num) hf1).1

/-- Counterexample to C31 as stated: for the sample moon (daily increment 1) and the day
count 16777202 the count `d + 15 = 16777217 = 2^24 + 1` has no `float`: its conversion
gives 16777216, `fmod(16777216, 24)` is 16 and `moonRiseHour` returns 17, where
`dailyIncrement + (((d + 15) * dailyIncrement) mod 24)` is 18. -/
theorem c31_counterexample :
    16777202 + 15 < uintSize ∧ sampleMoon.mDailyIncrement = 1 ∧
    sampleMoon.moonRiseHour 16777202 = 17 ∧
    sampleMoon.mDailyIncrement
      + fmod (((16777202 + 15 : Nat) : ℚ) * sampleMoon.mDailyIncrement) 24 = 18 := by
  refine ⟨by decide, rfl, ?_, ?_⟩
  · rw [sampleMoon_moonRiseHour 16777202 (by decide)]
    have ha : f32 (((16777202 + 15 : Nat) : ℚ)) = 16777216 := by
      rw [show (((16777202 + 15 : Nat) : ℚ)) = 16777217 by norm_num]
      rw [f32_eval (16777217) (24) (8388608) (by norm_num) (by norm_num [abs_of_pos])
        (by norm_num [abs_of_pos]) (by
          unfold roundEven
          norm_num [Int.floor_eq_iff])]
      norm_num
    have hb : fmod 16777216 24 = 16 := by norm_num [fmod, Int.floor_eq_iff]
    have hc : f32 (1 + 16) = 17 :=
      (f32_fixed (1 + 16) 17 0 (by norm_num) (by norm_num) (by norm_num)).trans (by norm_num)
    rw [ha, hb, hc]
  · norm_num [fmod, sampleMoon, Int.floor_eq_iff]

/-- C33: `setChances` with a table not longer than the region's returns a region `r'`
whose selection depends on the selected id `k = mWeather` as follows. If, after the
element-wise replacement, `k` is within the table and the entry at `k` is not zero, the
selection stays `k` and no draw is made (the result is the same whatever the dice would
show). Otherwise, and so whenever the selection was unset, a new selection is drawn by
`chooseNewWeather`. -/
theorem c33_setChances_keeps_selection (r : RegionWeather) (chances : List Int) (roll : Int)
    (hlen : chances.length ≤ r.mChances.length) :
    ∃ r', r.setChances chances roll = some r' ∧
      ((0 ≤ r.mWeather ∧ r.mWeather.toNat < r'.mChances.length ∧
          r'.mChances[r.mWeather.toNat]? ≠ some 0) →
        r'.mWeather = r.mWeather ∧ ∀ roll', r.setChances chances roll' = some r') ∧
      (¬ (0 ≤ r.mWeather ∧ r.mWeather.toNat < r'.mChances.length ∧
          r'.mChances[r.mWeather.toNat]? ≠ some 0) →
        r' = ({ r with mChances := r'.mChances } : RegionWeather).chooseNewWeather roll) ∧
      (r.mWeather = invalidWeatherID →
        r' = ({ r with mChances := r'.mChances } : RegionWeather).chooseNewWeather roll) := by
  obtain ⟨r', hset, hl, hget, _, hdraw, hkeep⟩ := setChances_defined r chances roll hlen
  have hiff : (0 ≤ r.mWeather ∧ r.mWeather.toNat < r'.mChances.length ∧
        r'.mChances[r.mWeather.toNat]? ≠ some 0)
      ↔ ¬ (r.mWeather < 0 ∨ r.mWeather.toNat ≥ r.mChances.length
          ∨ r'.mChances[r.mWeather.toNat]? = some 0) := by
    rw [hl]
    constructor
    · rintro ⟨h1, h2, h3⟩ (h | h | h)
      · omega
      · omega
      · exact h3 h
    · intro h
      simp only [not_or, not_lt, ge_iff_le, not_le] at h
      exact ⟨h.1, h.2.1, h.2.2⟩
  refine ⟨r', hset, ?_, ?_, ?_⟩
  · intro hsup
    have hr' := hkeep (hiff.mp hsup)
    refine ⟨by rw [hr'], ?_⟩
    intro roll'
    obtain ⟨r'', hset', hl', hget', _, _, hkeep'⟩ := setChances_defined r chances roll' hlen
    have htab : r''.mChances = r'.mChances := by
      apply List.ext_getElem?
      intro j
      rw [hget' j, hget j]
    rw [htab] at hkeep'
    rw [hset', hkeep' (hiff.mp hsup), ← hr']
  · intro hnot
    apply hdraw
    by_contra hcon
    exact hnot (hiff.mpr hcon)
  · intro hunset
    apply hdraw
    left
    rw [hunset]
    decide

/-- Witness of C33: the region with weather 1 selected and the weights 50, 50, 0, ... is
given the table 0, 100: the entry at 1 is 100, the selection stays 1; given the table
100, 0 the entry at 1 is 0 and the dice (showing 59) select weather 0. -/
theorem c33_setChances_keeps_selection_witness :
    (∀ roll, cloudyRegion.setChances [0, 100] roll
      = some { mWeather := 1, mChances := [0, 100, 0, 0, 0, 0, 0, 0, 0, 0] }) ∧
    cloudyRegion.setChances [100, 0] 59
      = some { mWeather := 0, mChances := [100, 0, 0, 0, 0, 0, 0, 0, 0, 0] } := by
  obtain ⟨r', hset, hkeep, _, _⟩ :=
    c33_setChances_keeps_selection cloudyRegion [0, 100] 59 (by decide)
  have h59 : cloudyRegion.setChances [0, 100] 59
      = some { mWeather := 1, mChances := [0, 100, 0, 0, 0, 0, 0, 0, 0, 0] } := by decide
  rw [h59] at hset
  cases hset
  exact ⟨(hkeep (by decide)).2, by decide⟩

theorem mapFind_mapSet {V : Type} (entries : List (String × V)) (key : String) (v0 v : V)
    (h : mapFind entries key = some v0) : mapFind (mapSet entries key v) key = some v := by
  induction entries with
  | nil => cases h
  | cons entry rest ih =>
    obtain ⟨k, x⟩ := entry
    by_cases hk : k = key
    · simp [mapSet, mapFind, hk]
    · simp only [mapFind, if_neg hk] at h
      simp only [mapSet, if_neg hk, mapFind]
      exact ih h

theorem mapFind_mapSet_other {V : Type} (entries : List (String × V)) (key other : String)
    (v : V) (h : other ≠ key) :
    mapFind (mapSet entries key v) other = mapFind entries other := by
  induction entries with
  | nil => rfl
  | cons entry rest ih =>
    obtain ⟨k, x⟩ := entry
    by_cases hk : k = key
    · have hko : ¬ k = other := fun hh => h (hh.symm.trans hk)
      simp only [mapSet, if_pos hk, mapFind, if_neg hko]
    · by_cases hko : k = other
      · simp only [mapSet, if_neg hk, mapFind, if_pos hko]
      · simp only [mapSet, if_neg hk, mapFind, if_neg hko]
        exact ih

theorem regionalWeatherChanged_selected (m : WeatherManager) (env : Environment)
    (key : String) (region : RegionWeather) (weatherID : Nat) (roll : Int) :
    m.regionalWeatherChanged env key (region.setWeather weatherID) roll
      = if env.mPlayerInCell = true ∧ lowerCase env.mPlayerRegion ≠ ""
            ∧ lowerCase env.mPlayerRegion = key then
          (m.addWeatherTransition weatherID).map
            (fun m1 => (m1, region.setWeather weatherID))
        else some (m, region.setWeather weatherID) := by
  have hsel : (region.setWeather weatherID).getWeather roll
      = ((weatherID : Int), region.setWeather weatherID) := by
    apply getWeather_selected
    show (weatherID : Int) ≠ invalidWeatherID
    unfold invalidWeatherID
    omega
  unfold WeatherManager.regionalWeatherChanged
  simp only [hsel]
  by_cases hin : env.mPlayerInCell = true
  · by_cases hreg : lowerCase env.mPlayerRegion ≠ "" ∧ lowerCase env.mPlayerRegion = key
    · rw [if_pos hin, if_pos hreg, if_pos ⟨hin, hreg⟩]
      cases m.addWeatherTransition weatherID <;> rfl
    · rw [if_pos hin, if_neg hreg, if_neg (fun h => hreg h.2)]
  · rw [if_neg hin, if_neg (fun h => hin h.1)]

/-- C34: `changeWeather(regionID, id)` with an id below the profile count, for a region of
the table, sets that region's selection to `id` and leaves its weights and every other
region as they were. If the player is not in a cell of that region, nothing else changes:
current, next, queued and the factor are as before. If the player is in a cell of that
region (the region id not empty), `addWeatherTransition(id)` returns and the manager is
the one it produces, with the region's selection set. -/
theorem c34_changeWeather_selects (m : WeatherManager) (env : Environment)
    (regionID : String) (weatherID : Nat) (roll : Int) (region : RegionWeather)
    (hvalid : weatherID < m.mWeatherSettings.length)
    (hfind : mapFind m.mRegions (lowerCase regionID) = some region) :
    (¬ (env.mPlayerInCell = true ∧ lowerCase env.mPlayerRegion ≠ ""
          ∧ lowerCase env.mPlayerRegion = lowerCase regionID) →
      m.changeWeather env regionID weatherID roll
        = some { m with mRegions := mapSet m.mRegions (lowerCase regionID)
                                      (region.setWeather weatherID) }) ∧
    ((env.mPlayerInCell = true ∧ lowerCase env.mPlayerRegion ≠ ""
          ∧ lowerCase env.mPlayerRegion = lowerCase regionID) →
      ∃ m1, m.addWeatherTransition weatherID = some m1 ∧
        m.changeWeather env regionID weatherID roll
          = some { m1 with mRegions := mapSet m.mRegions (lowerCase regionID)
                                         (region.setWeather weatherID) }) ∧
    (∃ m', m.changeWeather env regionID weatherID roll = some m' ∧
      mapFind m'.mRegions (lowerCase regionID)
        = some { mWeather := weatherID, mChances := region.mChances } ∧
      ∀ other, other ≠ lowerCase regionID →
        mapFind m'.mRegions other = mapFind m.mRegions other) := by
  have hid : validWeatherID m.mWeatherSettings (weatherID : Int) :=
    ⟨Int.natCast_nonneg _, by rw [Int.toNat_natCast]; exact hvalid⟩
  have hch : m.changeWeather env regionID weatherID roll
      = match m.regionalWeatherChanged env (lowerCase regionID)
          (region.setWeather weatherID) roll with
        | none => none
        | some (m1, region1) =>
          some { m1 with mRegions := mapSet m1.mRegions (lowerCase regionID) region1 } := by
    unfold WeatherManager.changeWeather
    rw [if_pos hvalid]
    simp only [hfind]
  rw [regionalWeatherChanged_selected] at hch
  have hnot : ¬ (env.mPlayerInCell = true ∧ lowerCase env.mPlayerRegion ≠ ""
        ∧ lowerCase env.mPlayerRegion = lowerCase regionID) →
      m.changeWeather env regionID weatherID roll
        = some { m with mRegions := mapSet m.mRegions (lowerCase regionID)
                                      (region.setWeather weatherID) } := by
    intro h
    rw [hch, if_neg h]
  have hyes : (env.mPlayerInCell = true ∧ lowerCase env.mPlayerRegion ≠ ""
        ∧ lowerCase env.mPlayerRegion = lowerCase regionID) →
      ∃ m1, m.addWeatherTransition weatherID = some m1 ∧
        m.changeWeather env regionID weatherID roll
          = some { m1 with mRegions := mapSet m.mRegions (lowerCase regionID)
                                         (region.setWeather weatherID) } := by
    intro h
    cases hadd : m.addWeatherTransition weatherID with
    | none =>
      unfold WeatherManager.addWeatherTransition at hadd
      rw [if_pos hid] at hadd
      split_ifs at hadd
    | some m1 =>
      refine ⟨m1, rfl, ?_⟩
      rw [hch, if_pos h, hadd]
      simp only [Option.map_some']
      rw [(addWeatherTransition_shown _ _ _ hadd).2.2.2.1]
  refine ⟨hnot, hyes, ?_⟩
  by_cases h : env.mPlayerInCell = true ∧ lowerCase env.mPlayerRegion ≠ ""
      ∧ lowerCase env.mPlayerRegion = lowerCase regionID
  · obtain ⟨m1, _, hm1⟩ := hyes h
    exact ⟨_, hm1, mapFind_mapSet _ _ _ _ hfind,
      fun other ho => mapFind_mapSet_other _ _ _ _ ho⟩
  · exact ⟨_, hnot h, mapFind_mapSet _ _ _ _ hfind,
      fun other ho => mapFind_mapSet_other _ _ _ _ ho⟩

/-- Witness of C34: weather 1 is requested for the region "Ascadian Isles" of an engine
Steady on weather 0. With the player in "West Gash" only the region's selection changes;
with the player in "Ascadian Isles" the change to weather 1 starts as well. -/
theorem c34_changeWeather_selects_witness :
    (engineInRegion (1 / 10) false 0 0 invalidWeatherID invalidWeatherID).changeWeather
        (sampleEnvironment "West Gash" true true) "Ascadian Isles" 1 59
      = some (engineSelected (1 / 10) false 0 0 invalidWeatherID invalidWeatherID 1) ∧
    (engineInRegion (1 / 10) false 0 0 invalidWeatherID invalidWeatherID).changeWeather
        (sampleEnvironment "Ascadian Isles" true true) "Ascadian Isles" 1 59
      = some (engineSelected (1 / 10) false 1 0 1 invalidWeatherID 1) := by
  have hwest := c34_changeWeather_selects
    (engineInRegion (1 / 10) false 0 0 invalidWeatherID invalidWeatherID)
    (sampleEnvironment "West Gash" true true) "Ascadian Isles" 1 59 ascadianIsles
    (by decide) rfl
  have hisles := c34_changeWeather_selects
    (engineInRegion (1 / 10) false 0 0 invalidWeatherID invalidWeatherID)
    (sampleEnvironment "Ascadian Isles" true true) "Ascadian Isles" 1 59 ascadianIsles
    (by decide) rfl
  refine ⟨(hwest.1 (by decide)).trans rfl, ?_⟩
  obtain ⟨m1, hadd, hch⟩ := hisles.2.1 (by decide)
  have hm1 : (engineInRegion (1 / 10) false 0 0 invalidWeatherID
      invalidWeatherID).addWeatherTransition ((1 : Nat) : Int)
        = some (engineInRegion (1 / 10) false 1 0 1 invalidWeatherID) := rfl
  rw [hm1] at hadd
  cases hadd
  exact hch.trans rfl

/-! ## The reroll countdown and the tracked region -/

theorem updateWeatherTime_region (m : WeatherManager) :
    (m.updateWeatherTime).2.mCurrentRegion = m.mCurrentRegion ∧
    ((m.updateWeatherTime).1 = true ↔ m.mWeatherUpdateTime - m.mTimePassed ≤ 0) ∧
    ((m.updateWeatherTime).1 = false → (m.updateWeatherTime).2.mRegions = m.mRegions) := by
  unfold WeatherManager.updateWeatherTime
  simp only []
  by_cases h : m.mWeatherUpdateTime - m.mTimePassed ≤ 0
  · rw [if_pos h]
    exact ⟨rfl, ⟨fun _ => h, fun _ => rfl⟩, fun hf => (by cases hf)⟩
  · rw [if_neg h]
    exact ⟨rfl, ⟨fun hf => (by cases hf), fun hh => absurd hh h⟩, fun _ => rfl⟩

theorem updateRequest_lapsed (m : WeatherManager) (env : Environment) (roll : Int)
    (h : m.mWeatherUpdateTime - m.mTimePassed ≤ 0) :
    (m.updateRequest env roll).1.mCurrentRegion = m.mCurrentRegion ∧
    (m.updateRequest env roll).2
      = (mapFind (m.mRegions.map
            (fun entry => (entry.1, entry.2.setWeather invalidWeatherID)))
          m.mCurrentRegion).map (fun region => (region.getWeather roll).1) := by
  have hrun : m.updateWeatherTime
      = (true, { m with
          mRegions := m.mRegions.map
            (fun entry => (entry.1, entry.2.setWeather invalidWeatherID))
          mWeatherUpdateTime :=
            m.mWeatherUpdateTime - m.mTimePassed + m.mHoursBetweenWeatherChanges
          mTimePassed := 0 }) := by
    unfold WeatherManager.updateWeatherTime
    simp only []
    rw [if_pos h]
  unfold WeatherManager.updateRequest WeatherManager.updateWeatherTimeOrRegion
  simp only [hrun, if_true]
  cases mapFind (m.mRegions.map
      (fun entry => (entry.1, entry.2.setWeather invalidWeatherID))) m.mCurrentRegion with
  | none => exact ⟨rfl, rfl⟩
  | some region => exact ⟨rfl, rfl⟩

theorem updateRequest_running (m : WeatherManager) (env : Environment) (roll : Int)
    (h : 0 < m.mWeatherUpdateTime - m.mTimePassed) :
    (lowerCase env.mPlayerRegion ≠ "" →
      (m.updateRequest env roll).1.mCurrentRegion = lowerCase env.mPlayerRegion) ∧
    (m.updateRequest env roll).2
      = if lowerCase env.mPlayerRegion ≠ "" ∧ lowerCase env.mPlayerRegion ≠ m.mCurrentRegion
        then (mapFind m.mRegions (lowerCase env.mPlayerRegion)).map
          (fun region => (region.getWeather roll).1)
        else none := by
  have hrun : m.updateWeatherTime
      = (false, { m with
          mWeatherUpdateTime := m.mWeatherUpdateTime - m.mTimePassed
          mTimePassed := 0 }) := by
    unfold WeatherManager.updateWeatherTime
    simp only []
    rw [if_neg (not_le.mpr h)]
  unfold WeatherManager.updateRequest WeatherManager.updateWeatherTimeOrRegion
    WeatherManager.updateWeatherRegion
  simp only [hrun, Bool.false_eq_true, if_false]
  by_cases hch : lowerCase env.mPlayerRegion ≠ ""
      ∧ lowerCase env.mPlayerRegion ≠ m.mCurrentRegion
  · simp only [if_pos hch, if_true]
    cases mapFind m.mRegions (lowerCase env.mPlayerRegion) with
    | none => exact ⟨fun _ => rfl, rfl⟩
    | some region => exact ⟨fun _ => rfl, rfl⟩
  · simp only [if_neg hch, Bool.false_eq_true, if_false]
    refine ⟨fun hne => ?_, trivial⟩
    by_contra hcon
    exact hch ⟨hne, fun heq => hcon heq.symm⟩

theorem update_tracked_region (m m' : WeatherManager) (env : Environment) (duration : ℚ)
    (r1 r2 r3 : Int) (calls : List Call)
    (h : m.update env duration false r1 r2 r3 = some (m', calls)) :
    m'.mCurrentRegion = (m.updateRequest env r1).1.mCurrentRegion ∧
    ∃ m1, m.updateWeather env duration r1 = some m1 ∧ weatherPart m' = weatherPart m1 := by
  rw [update_unpaused] at h
  cases hw : m.updateWeather env duration r1 with
  | none => rw [hw] at h; cases h
  | some m1 =>
    rw [hw, Option.some_bind] at h
    have hpart : weatherPart m' = weatherPart m1 := by
      split_ifs at h
      · cases h
        exact stopSounds_weatherPart m1
      · exact updateExterior_weatherPart _ _ _ _ _ _ _ _ h
    have hreg : m1.mCurrentRegion = (m.updateRequest env r1).1.mCurrentRegion := by
      unfold WeatherManager.updateWeather at hw
      cases hreq : (m.updateRequest env r1).2 with
      | none =>
        rw [hreq] at hw
        simp only [] at hw
        exact (updateWeatherTransitions_shown _ _ _ hw).2.2.2.2.2
      | some weatherID =>
        rw [hreq] at hw
        simp only [] at hw
        cases hadd : (m.updateRequest env r1).1.addWeatherTransition weatherID with
        | none => rw [hadd] at hw; exact absurd hw (by simp)
        | some m2 =>
          rw [hadd] at hw
          simp only [] at hw
          exact ((updateWeatherTransitions_shown _ _ _ hw).2.2.2.2.2).trans
            (addWeatherTransition_shown _ _ _ hadd).2.2.2.2.2
    have hm' : m'.mCurrentRegion = m1.mCurrentRegion := by
      simp only [weatherPart, Prod.mk.injEq] at hpart
      exact hpart.2.2.1
    exact ⟨hm'.trans hreg, m1, rfl, hpart⟩

/-- C36, what the code does: in a non-paused `update` the region check runs only if the
countdown has not lapsed (`updateWeatherTime() || updateWeatherRegion(playerRegion)`).
If the countdown has not lapsed and the player's region id is not empty, the tracked
region after the update is the player's lowercased region id, and a transition is
requested exactly when the region changed, for the weather of the player's region. If the
countdown has lapsed, the tracked region stays what it was, whatever the player's region,
and the transition requested is for the weather of the old tracked region. -/
theorem c36_region_tracking (m : WeatherManager) (env : Environment) (duration : ℚ)
    (roll soundRoll chanceRoll : Int) :
    (0 < m.mWeatherUpdateTime - m.mTimePassed → lowerCase env.mPlayerRegion ≠ "" →
      (∀ m' calls, m.update env duration false roll soundRoll chanceRoll = some (m', calls) →
        m'.mCurrentRegion = lowerCase env.mPlayerRegion) ∧
      (m.updateRequest env roll).2
        = if lowerCase env.mPlayerRegion ≠ m.mCurrentRegion
          then (mapFind m.mRegions (lowerCase env.mPlayerRegion)).map
            (fun region => (region.getWeather roll).1)
          else none) ∧
    (m.mWeatherUpdateTime - m.mTimePassed ≤ 0 →
      (∀ m' calls, m.update env duration false roll soundRoll chanceRoll = some (m', calls) →
        m'.mCurrentRegion = m.mCurrentRegion) ∧
      (m.updateRequest env roll).2
        = (mapFind (m.mRegions.map
              (fun entry => (entry.1, entry.2.setWeather invalidWeatherID)))
            m.mCurrentRegion).map (fun region => (region.getWeather roll).1)) := by
  constructor
  · intro hrun hne
    obtain ⟨h1, h2⟩ := updateRequest_running m env roll hrun
    refine ⟨?_, ?_⟩
    · intro m' calls h
      exact (update_tracked_region m m' env duration roll soundRoll chanceRoll calls h).1.trans
        (h1 hne)
    · rw [h2]
      by_cases hch : lowerCase env.mPlayerRegion ≠ m.mCurrentRegion
      · rw [if_pos ⟨hne, hch⟩, if_pos hch]
      · rw [if_neg (fun hh => hch hh.2), if_neg hch]
  · intro hlapsed
    obtain ⟨h1, h2⟩ := updateRequest_lapsed m env roll hlapsed
    refine ⟨?_, h2⟩
    intro m' calls h
    exact (update_tracked_region m m' env duration roll soundRoll chanceRoll calls h).1.trans h1

/-- The failing input of C36: the engine tracks "ascadian isles" (all weight on weather 1),
the countdown stands at 0 and the player is in "West Gash" (all weight on weather 2).
The non-paused update requests weather 1, the weather of the old region, not weather 2,
and the tracked region stays "ascadian isles" instead of "west gash". -/
theorem c36_region_tracking_witness :
    lowerCase "West Gash" = "west gash" ∧
    ((engineTwoRegions 0 "ascadian isles").updateRequest
        (sampleEnvironment "West Gash" true true) 59).2 = some 1 ∧
    (mapFind (engineTwoRegions 0 "ascadian isles").mRegions "west gash").map
        (fun region => (region.getWeather 59).1) = some 2 ∧
    (∃ m1, (engineTwoRegions 0 "ascadian isles").updateWeather
        (sampleEnvironment "West Gash" true true) 1 59 = some m1 ∧
      m1.mCurrentRegion = "ascadian isles" ∧ m1.mNextWeather = 1) ∧
    (∀ m' calls, (engineTwoRegions 0 "ascadian isles").update
        (sampleEnvironment "West Gash" true true) 1 false 59 2 42 = some (m', calls) →
      m'.mCurrentRegion = "ascadian isles" ∧ m'.mCurrentRegion ≠ "west gash") := by
  have h := (c36_region_tracking (engineTwoRegions 0 "ascadian isles")
    (sampleEnvironment "West Gash" true true) 1 59 2 42).2
    (by norm_num [engineTwoRegions, engineOver])
  refine ⟨by decide, ?_, by decide, ?_, ?_⟩
  · rw [h.2]
    rfl
  · simp [WeatherManager.updateWeather, WeatherManager.updateRequest,
      WeatherManager.updateWeatherTimeOrRegion, WeatherManager.updateWeatherTime,
      WeatherManager.updateWeatherRegion, engineTwoRegions, engineOver, mapFind, mapSet,
      RegionWeather.getWeather, RegionWeather.setWeather, RegionWeather.chooseNewWeather,
      RegionWeather.chooseLoop, WeatherManager.addWeatherTransition, validWeatherID,
      WeatherManager.inTransition, invalidWeatherID, tenProfiles,
      WeatherManager.updateWeatherTransitions, weatherSetting, profileWithDelta,
      Weather.transitionDelta, sampleEnvironment]
    norm_num
  · intro m' calls hm
    have hreg := h.1 m' calls hm
    exact ⟨hreg, by rw [hreg]; decide⟩

/-! ## The steady result: what is recomputed, day phases -/

theorem sunset_of_not_others (m : WeatherManager) (gameHour : ℚ)
    (hnight : ¬ (gameHour ≤ m.mNightEnd ∨ gameHour ≥ m.mNightStart + 1))
    (hsunrise : ¬ (gameHour ≥ m.mNightEnd ∧ gameHour ≤ m.mDayStart + 1))
    (hday : ¬ (gameHour ≥ m.mDayStart + 1 ∧ gameHour ≤ m.mDayEnd - 1)) :
    gameHour ≥ m.mDayEnd - 1 ∧ gameHour ≤ m.mNightStart + 1 := by
  simp only [not_or, not_and_or, not_le, ge_iff_le] at *
  obtain ⟨h1, h2⟩ := hnight
  rcases hsunrise with h3 | h3
  · linarith
  · rcases hday with h4 | h4
    · linarith
    · exact ⟨le_of_lt h4, le_of_lt h2⟩

theorem calculateResultFor_day (m : WeatherManager) (prev : WeatherResult) (w : Weather)
    (gameHour : ℚ) (hnight : ¬ (gameHour ≤ m.mNightEnd ∨ gameHour ≥ m.mNightStart + 1))
    (hsunrise : ¬ (gameHour ≥ m.mNightEnd ∧ gameHour ≤ m.mDayStart + 1))
    (hday : gameHour ≥ m.mDayStart + 1 ∧ gameHour ≤ m.mDayEnd - 1) :
    (m.calculateResultFor prev w gameHour).mNightFade = prev.mNightFade := by
  unfold WeatherManager.calculateResultFor WeatherManager.dayResult
  simp only []
  rw [if_neg hnight, if_neg hsunrise, if_pos hday]

theorem calculateResultFor_recomputed (m : WeatherManager) (prev prev' : WeatherResult)
    (w : Weather) (gameHour : ℚ) :
    (m.calculateResultFor prev w gameHour).mFogColor
      = (m.calculateResultFor prev' w gameHour).mFogColor ∧
    (m.calculateResultFor prev w gameHour).mAmbientColor
      = (m.calculateResultFor prev' w gameHour).mAmbientColor ∧
    (m.calculateResultFor prev w gameHour).mSunColor
      = (m.calculateResultFor prev' w gameHour).mSunColor ∧
    (m.calculateResultFor prev w gameHour).mSkyColor
      = (m.calculateResultFor prev' w gameHour).mSkyColor ∧
    (m.calculateResultFor prev w gameHour).mFogDepth
      = (m.calculateResultFor prev' w gameHour).mFogDepth ∧
    (m.calculateResultFor prev w gameHour).mCloudBlendFactor
      = (m.calculateResultFor prev' w gameHour).mCloudBlendFactor ∧
    (m.calculateResultFor prev w gameHour).mNight
      = (m.calculateResultFor prev' w gameHour).mNight := by
  unfold WeatherManager.calculateResultFor WeatherManager.nightResult
    WeatherManager.sunriseResult WeatherManager.dayResult WeatherManager.sunsetResult
  simp only []
  by_cases hN : gameHour ≤ m.mNightEnd ∨ gameHour ≥ m.mNightStart + 1
  · rw [if_pos hN, if_pos hN]
    exact ⟨rfl, rfl, rfl, rfl, rfl, rfl, rfl⟩
  · rw [if_neg hN, if_neg hN]
    by_cases hR : gameHour ≥ m.mNightEnd ∧ gameHour ≤ m.mDayStart + 1
    · rw [if_pos hR, if_pos hR]
      split_ifs <;> exact ⟨rfl, rfl, rfl, rfl, rfl, rfl, rfl⟩
    · rw [if_neg hR, if_neg hR]
      by_cases hD : gameHour ≥ m.mDayStart + 1 ∧ gameHour ≤ m.mDayEnd - 1
      · rw [if_pos hD, if_pos hD]
        exact ⟨rfl, rfl, rfl, rfl, rfl, rfl, rfl⟩
      · rw [if_neg hD, if_neg hD]
        have hS := sunset_of_not_others m gameHour hN hR hD
        rw [if_pos hS, if_pos hS]
        split_ifs <;> exact ⟨rfl, rfl, rfl, rfl, rfl, rfl, rfl⟩

/-- C37, the code at a failing input: sunrise at 6, sunset at 18, both lasting 2 hours, and
the hour 12, which is in the day branch. `calculateResult` for weather 0 started from a
result whose night fade is 0 ends with night fade 0, started from a result whose night
fade is 1 it ends with night fade 1: the day branch assigns no night fade, and the value
of the previous tick is carried over (so it is in every hour of the day branch). The
colours, the fog depth, the cloud blend factor and the night flag are the same whatever
the previous result was. -/
theorem c37_night_fade_carried_over :
    ((engine 1 false 0 0 invalidWeatherID invalidWeatherID).calculateResult 0 12).map
        (fun m => m.mResult.mNightFade) = some 0 ∧
    (({ engine 1 false 0 0 invalidWeatherID invalidWeatherID with
          mResult := flatResult 1 } : WeatherManager).calculateResult 0 12).map
        (fun m => m.mResult.mNightFade) = some 1 ∧
    (∀ (m : WeatherManager) (prev : WeatherResult) (w : Weather) (gameHour : ℚ),
      ¬ (gameHour ≤ m.mNightEnd ∨ gameHour ≥ m.mNightStart + 1) →
      ¬ (gameHour ≥ m.mNightEnd ∧ gameHour ≤ m.mDayStart + 1) →
      (gameHour ≥ m.mDayStart + 1 ∧ gameHour ≤ m.mDayEnd - 1) →
      (m.calculateResultFor prev w gameHour).mNightFade = prev.mNightFade) ∧
    (∀ (m : WeatherManager) (prev prev' : WeatherResult) (w : Weather) (gameHour : ℚ),
      (m.calculateResultFor prev w gameHour).mFogColor
        = (m.calculateResultFor prev' w gameHour).mFogColor ∧
      (m.calculateResultFor prev w gameHour).mAmbientColor
        = (m.calculateResultFor prev' w gameHour).mAmbientColor ∧
      (m.calculateResultFor prev w gameHour).mSunColor
        = (m.calculateResultFor prev' w gameHour).mSunColor ∧
      (m.calculateResultFor prev w gameHour).mSkyColor
        = (m.calculateResultFor prev' w gameHour).mSkyColor ∧
      (m.calculateResultFor prev w gameHour).mFogDepth
        = (m.calculateResultFor prev' w gameHour).mFogDepth ∧
      (m.calculateResultFor prev w gameHour).mCloudBlendFactor
        = (m.calculateResultFor prev' w gameHour).mCloudBlendFactor ∧
      (m.calculateResultFor prev w gameHour).mNight
        = (m.calculateResultFor prev' w gameHour).mNight) := by
  refine ⟨?_, ?_, calculateResultFor_day, calculateResultFor_recomputed⟩
  · rw [calculateResult_some (engine 1 false 0 0 invalidWeatherID invalidWeatherID) 0
      (profileWithDelta 1) 12 rfl]
    simp only [Option.map_some']
    rw [calculateResultFor_day _ _ _ _ (by norm_num [engine, engineOver])
      (by norm_num [engine, engineOver]) (by norm_num [engine, engineOver])]
    rfl
  · rw [calculateResult_some ({ engine 1 false 0 0 invalidWeatherID invalidWeatherID with
      mResult := flatResult 1 } : WeatherManager) 0 (profileWithDelta 1) 12 rfl]
    simp only [Option.map_some']
    rw [calculateResultFor_day _ _ _ _ (by norm_num [engine, engineOver])
      (by norm_num [engine, engineOver]) (by norm_num [engine, engineOver])]
    rfl

/-! ## Shape of the engine state, additivity of the advance -/

theorem addWeatherTransition_shape (m m' : WeatherManager) (weatherID : Int)
    (hs : m.mQueuedWeather ≠ invalidWeatherID → m.mNextWeather ≠ invalidWeatherID)
    (h : m.addWeatherTransition weatherID = some m') :
    m'.mQueuedWeather ≠ invalidWeatherID → m'.mNextWeather ≠ invalidWeatherID := by
  unfold WeatherManager.addWeatherTransition at h
  by_cases hv : validWeatherID m.mWeatherSettings weatherID
  · rw [if_pos hv] at h
    split_ifs at h with h1 h2
    · cases h
      intro _
      exact validWeatherID_ne_invalid hv
    · cases h
      intro _
      simp [WeatherManager.inTransition] at h2
      exact h2.1
    · cases h
      exact hs
  · rw [if_neg hv] at h
    cases h

theorem updateWeatherTransitions_shape (m m' : WeatherManager) (e : ℚ)
    (hs : m.mQueuedWeather ≠ invalidWeatherID → m.mNextWeather ≠ invalidWeatherID)
    (h : m.updateWeatherTransitions e = some m') :
    m'.mQueuedWeather ≠ invalidWeatherID → m'.mNextWeather ≠ invalidWeatherID := by
  unfold WeatherManager.updateWeatherTransitions fdiv at h
  simp only [] at h
  by_cases hc : (!m.mFastForward && m.inTransition) = true
  · rw [if_pos hc] at h
    cases hn : weatherSetting m.mWeatherSettings m.mNextWeather with
    | none => rw [hn] at h; cases h
    | some next =>
      rw [hn] at h
      simp only [] at h
      by_cases hle : m.mTransitionFactor - e * next.transitionDelta ≤ 0
      · rw [if_pos hle] at h
        by_cases hq : (m.mQueuedWeather != invalidWeatherID) = true
        · simp only [WeatherManager.inTransition, hq, if_true] at h
          cases hqs : weatherSetting m.mWeatherSettings m.mQueuedWeather with
          | none => rw [hqs] at h; cases h
          | some queued =>
            rw [hqs] at h
            simp only [] at h
            by_cases hd : next.transitionDelta = 0
            · rw [if_pos hd] at h; cases h
            · rw [if_neg hd] at h
              cases h
              intro hcon
              exact absurd rfl hcon
        · simp only [WeatherManager.inTransition, hq] at h
          cases h
          intro hcon
          exact absurd rfl hcon
      · rw [if_neg hle] at h
        cases h
        exact hs
  · rw [if_neg hc] at h
    split_ifs at h <;> cases h <;> intro hcon <;> exact absurd rfl hcon

theorem runOps_shape (ops : List EngineOp) :
    ∀ m m' : WeatherManager,
      (m.mQueuedWeather ≠ invalidWeatherID → m.mNextWeather ≠ invalidWeatherID) →
      runOps m ops = some m' →
      m'.mQueuedWeather ≠ invalidWeatherID → m'.mNextWeather ≠ invalidWeatherID := by
  induction ops with
  | nil =>
    intro m m' hs h
    cases h
    exact hs
  | cons op ops ih =>
    intro m m' hs h
    simp only [runOps] at h
    cases hop : applyOp m op with
    | none => rw [hop] at h; cases h
    | some m1 =>
      rw [hop, Option.some_bind] at h
      refine ih m1 m' ?_ h
      cases op with
      | request weatherID => exact addWeatherTransition_shape m m1 weatherID hs hop
      | advance elapsed => exact updateWeatherTransitions_shape m m1 elapsed hs hop
      | force weatherID =>
        cases hop
        intro hcon
        exact absurd rfl hcon
      | pass hours incremental =>
        cases hop
        exact hs

/-- C38: in every state reached from `forceWeather` by a sequence of
`addWeatherTransition`, `updateWeatherTransitions`, `forceWeather` (and `advanceTime`)
calls that return, a queued weather is set only while a next weather is set. -/
theorem c38_queued_implies_next (m0 m : WeatherManager) (weatherID : Int)
    (ops : List EngineOp) (h : runOps (m0.forceWeather weatherID) ops = some m) :
    m.mQueuedWeather ≠ invalidWeatherID → m.mNextWeather ≠ invalidWeatherID :=
  runOps_shape ops (m0.forceWeather weatherID) m (fun hcon => absurd rfl hcon) h

/-- Witness of C38: from `forceWeather(0)`, the requests of 1 and 2 and an advance by one
second reach a state with weather 2 queued and weather 1 next. -/
theorem c38_queued_implies_next_witness :
    runOps ((engine (1 / 10) false 0 7 5 3).forceWeather 0)
        [EngineOp.request 1, EngineOp.request 2, EngineOp.advance 1]
      = some (engine (1 / 10) false (9 / 10) 0 1 2) ∧
    (engine (1 / 10) false (9 / 10) 0 1 2).mQueuedWeather ≠ invalidWeatherID ∧
    (engine (1 / 10) false (9 / 10) 0 1 2).mNextWeather ≠ invalidWeatherID := by
  have hrun : runOps ((engine (1 / 10) false 0 7 5 3).forceWeather 0)
      [EngineOp.request 1, EngineOp.request 2, EngineOp.advance 1]
        = some (engine (1 / 10) false (9 / 10) 0 1 2) := by
    have h1 : runOps ((engine (1 / 10) false 0 7 5 3).forceWeather 0)
        [EngineOp.request 1, EngineOp.request 2, EngineOp.advance 1]
          = ((engine (1 / 10) false 1 0 1 2).updateWeatherTransitions 1).bind
              (fun m' => runOps m' []) := rfl
    rw [h1, updateWeatherTransitions_running (engine (1 / 10) false 1 0 1 2) 1
      (profileWithDelta (1 / 10)) rfl (by decide) rfl
      (by norm_num [engine, engineOver, profileWithDelta, Weather.transitionDelta])]
    norm_num [runOps, engine, engineOver, profileWithDelta, Weather.transitionDelta]
  exact ⟨hrun, by decide,
    c38_queued_implies_next (engine (1 / 10) false 0 7 5 3) _ 0 _ hrun (by decide)⟩

theorem updateWeatherTransitions_lookups (m s : WeatherManager) (e : ℚ)
    (hff : m.mFastForward = false) (htrans : m.mNextWeather ≠ invalidWeatherID)
    (h : m.updateWeatherTransitions e = some s) :
    ∃ next, weatherSetting m.mWeatherSettings m.mNextWeather = some next ∧
      (m.mTransitionFactor - e * next.transitionDelta ≤ 0 →
        m.mQueuedWeather ≠ invalidWeatherID →
        ∃ queued, weatherSetting m.mWeatherSettings m.mQueuedWeather = some queued) := by
  have hc : (!m.mFastForward && m.inTransition) = true := by
    simp [WeatherManager.inTransition, hff, htrans]
  unfold WeatherManager.updateWeatherTransitions at h
  rw [if_pos hc] at h
  cases hn : weatherSetting m.mWeatherSettings m.mNextWeather with
  | none => rw [hn] at h; cases h
  | some next =>
    refine ⟨next, rfl, ?_⟩
    intro hle hq
    rw [hn] at h
    simp only [] at h
    rw [if_pos hle] at h
    have hqb : (m.mQueuedWeather != invalidWeatherID) = true := bne_iff_ne.mpr hq
    simp only [WeatherManager.inTransition, hqb, if_true] at h
    cases hqs : weatherSetting m.mWeatherSettings m.mQueuedWeather with
    | none => rw [hqs] at h; cases h
    | some queued => exact ⟨queued, rfl⟩

theorem updateWeatherTransitions_shift (m : WeatherManager) (a b : ℚ) (next : Weather)
    (hff : m.mFastForward = false) (htrans : m.mNextWeather ≠ invalidWeatherID)
    (hnext : weatherSetting m.mWeatherSettings m.mNextWeather = some next) :
    ({ m with mTransitionFactor := m.mTransitionFactor - a * next.transitionDelta }
        : WeatherManager).updateWeatherTransitions b
      = m.updateWeatherTransitions (a + b) := by
  have heq : m.mTransitionFactor - a * next.transitionDelta - b * next.transitionDelta
      = m.mTransitionFactor - (a + b) * next.transitionDelta := by ring
  have hb : (m.mNextWeather != invalidWeatherID) = true := bne_iff_ne.mpr htrans
  unfold WeatherManager.updateWeatherTransitions
  simp only [WeatherManager.inTransition, hnext, heq, hff, hb, Bool.not_false, Bool.and_self,
    if_true]

theorem updateWeatherTransitions_additive (m s : WeatherManager) (t1 t2 : ℚ)
    (htrans : m.mNextWeather ≠ invalidWeatherID) (hff : m.mFastForward = false)
    (hpos : ∀ w ∈ m.mWeatherSettings, 0 < w.transitionDelta) (h2 : 0 ≤ t2)
    (hs : m.updateWeatherTransitions (t1 + t2) = some s) (hfac : 0 < s.mTransitionFactor) :
    ∃ s1, m.updateWeatherTransitions t1 = some s1 ∧
      s1.updateWeatherTransitions t2 = some s := by
  obtain ⟨next, hnext, hqlook⟩ := updateWeatherTransitions_lookups m s (t1 + t2) hff htrans hs
  have hdn : 0 < next.transitionDelta := hpos next (weatherSetting_mem _ _ _ hnext)
  by_cases hrun : 0 < m.mTransitionFactor - t1 * next.transitionDelta
  · refine ⟨_, updateWeatherTransitions_running m t1 next hff htrans hnext hrun, ?_⟩
    rw [updateWeatherTransitions_shift m t1 t2 next hff htrans hnext]
    exact hs
  · have hle1 : m.mTransitionFactor - t1 * next.transitionDelta ≤ 0 := not_lt.mp hrun
    have hle : m.mTransitionFactor - (t1 + t2) * next.transitionDelta ≤ 0 := by
      have := mul_nonneg h2 (le_of_lt hdn)
      linarith
    by_cases hq : m.mQueuedWeather = invalidWeatherID
    · rw [updateWeatherTransitions_finish m (t1 + t2) next hff htrans hnext hle hq] at hs
      cases hs
      exact absurd hfac (lt_irrefl _)
    · obtain ⟨queued, hqueued⟩ := hqlook hle hq
      rw [updateWeatherTransitions_carry m (t1 + t2) next queued hff htrans hnext hle hq hqueued,
        if_neg (ne_of_gt hdn)] at hs
      cases hs
      have hs1 := updateWeatherTransitions_carry m t1 next queued hff htrans hnext hle1 hq
        hqueued
      rw [if_neg (ne_of_gt hdn)] at hs1
      refine ⟨_, hs1, ?_⟩
      · have hfac2 : (0 : ℚ) < 1
            - (-(m.mTransitionFactor - t1 * next.transitionDelta) / next.transitionDelta)
                * queued.transitionDelta
            - t2 * queued.transitionDelta := by
          have heq : 1
              - (-(m.mTransitionFactor - t1 * next.transitionDelta) / next.transitionDelta)
                  * queued.transitionDelta
              - t2 * queued.transitionDelta
              = 1 - (-(m.mTransitionFactor - (t1 + t2) * next.transitionDelta)
                      / next.transitionDelta) * queued.transitionDelta := by
            field_simp
            ring
          rw [heq]
          exact hfac
        rw [updateWeatherTransitions_running
          ({ m with
              mCurrentWeather := m.mNextWeather
              mNextWeather := m.mQueuedWeather
              mQueuedWeather := invalidWeatherID
              mTransitionFactor :=
                1 - (-(m.mTransitionFactor - t1 * next.transitionDelta)
                      / next.transitionDelta) * queued.transitionDelta } : WeatherManager)
          t2 queued hff hq hqueued hfac2]
        congr 2
        show 1 - (-(m.mTransitionFactor - t1 * next.transitionDelta) / next.transitionDelta)
              * queued.transitionDelta - t2 * queued.transitionDelta
          = 1 - (-(m.mTransitionFactor - (t1 + t2) * next.transitionDelta)
                  / next.transitionDelta) * queued.transitionDelta
        field_simp
        ring

theorem calculateResultFor_phases (m : WeatherManager) (prev : WeatherResult) (w : Weather)
    (gameHour : ℚ) :
    ((gameHour ≤ m.mNightEnd ∨ gameHour ≥ m.mNightStart + 1) →
      blendOfPhases (m.calculateResultFor prev w gameHour) w DayPhase.night DayPhase.night 0) ∧
    (¬ (gameHour ≤ m.mNightEnd ∨ gameHour ≥ m.mNightStart + 1) →
      (gameHour ≥ m.mNightEnd ∧ gameHour ≤ m.mDayStart + 1) →
      (gameHour ≤ m.mSunriseTime →
        blendOfPhases (m.calculateResultFor prev w gameHour) w DayPhase.sunrise
          DayPhase.night ((m.mSunriseTime - gameHour) / (1 / 2))) ∧
      (¬ gameHour ≤ m.mSunriseTime →
        blendOfPhases (m.calculateResultFor prev w gameHour) w DayPhase.sunrise
          DayPhase.day ((gameHour - m.mSunriseTime) / 3))) ∧
    (¬ (gameHour ≤ m.mNightEnd ∨ gameHour ≥ m.mNightStart + 1) →
      ¬ (gameHour ≥ m.mNightEnd ∧ gameHour ≤ m.mDayStart + 1) →
      (gameHour ≥ m.mDayStart + 1 ∧ gameHour ≤ m.mDayEnd - 1) →
      blendOfPhases (m.calculateResultFor prev w gameHour) w DayPhase.day DayPhase.day 0) ∧
    (¬ (gameHour ≤ m.mNightEnd ∨ gameHour ≥ m.mNightStart + 1) →
      ¬ (gameHour ≥ m.mNightEnd ∧ gameHour ≤ m.mDayStart + 1) →
      ¬ (gameHour ≥ m.mDayStart + 1 ∧ gameHour ≤ m.mDayEnd - 1) →
      (gameHour ≤ m.mDayEnd + 1 →
        blendOfPhases (m.calculateResultFor prev w gameHour) w DayPhase.sunset
          DayPhase.day ((m.mDayEnd + 1 - gameHour) / 2)) ∧
      (¬ gameHour ≤ m.mDayEnd + 1 →
        blendOfPhases (m.calculateResultFor prev w gameHour) w DayPhase.sunset
          DayPhase.night ((gameHour - (m.mDayEnd + 1)) / 2))) := by
  refine ⟨?_, ?_, ?_, ?_⟩
  · intro hN
    unfold blendOfPhases WeatherManager.calculateResultFor WeatherManager.nightResult
    simp only []
    rw [if_pos hN]
    simp only [lerpVec4f_zero]
    exact ⟨rfl, rfl, rfl, rfl⟩
  · intro hN hR
    constructor
    · intro hin
      unfold blendOfPhases WeatherManager.calculateResultFor WeatherManager.sunriseResult
      simp only []
      rw [if_neg hN, if_pos hR, if_pos hin]
      exact ⟨rfl, rfl, rfl, rfl⟩
    · intro hout
      unfold blendOfPhases WeatherManager.calculateResultFor WeatherManager.sunriseResult
      simp only []
      rw [if_neg hN, if_pos hR, if_neg hout]
      exact ⟨rfl, rfl, rfl, rfl⟩
  · intro hN hR hD
    unfold blendOfPhases WeatherManager.calculateResultFor WeatherManager.dayResult
    simp only []
    rw [if_neg hN, if_neg hR, if_pos hD]
    simp only [lerpVec4f_zero]
    exact ⟨rfl, rfl, rfl, rfl⟩
  · intro hN hR hD
    have hS := sunset_of_not_others m gameHour hN hR hD
    constructor
    · intro hin
      unfold blendOfPhases WeatherManager.calculateResultFor WeatherManager.sunsetResult
      simp only []
      rw [if_neg hN, if_neg hR, if_neg hD, if_pos hS, if_pos hin]
      exact ⟨rfl, rfl, rfl, rfl⟩
    · intro hout
      unfold blendOfPhases WeatherManager.calculateResultFor WeatherManager.sunsetResult
      simp only []
      rw [if_neg hN, if_neg hR, if_neg hD, if_pos hS, if_neg hout]
      exact ⟨rfl, rfl, rfl, rfl⟩

/-- C40: with night end = sunrise - 1/2, day start = sunrise + sunrise duration,
day end = sunset, night start = sunset + sunset duration and both durations at most 2 (as
for durations in [0,2]), for every game hour one of the night, sunrise, day and sunset
branches of `calculateResult` runs (they form one `if`/`else if` chain, so exactly one
does), and the fog, ambient, sun and sky colours it assigns are the blend, with one factor
in [0,1], of the colours the profile holds for two day phases. -/
theorem c40_day_phases_convex (m : WeatherManager) (prev : WeatherResult) (w : Weather)
    (gameHour : ℚ)
    (hne : m.mNightEnd = m.mSunriseTime - 1 / 2)
    (hds : m.mDayStart = m.mSunriseTime + m.mSunriseDuration)
    (hde : m.mDayEnd = m.mSunsetTime)
    (hns : m.mNightStart = m.mSunsetTime + m.mSunsetDuration)
    (hsr : m.mSunriseDuration ≤ 2) (hss : m.mSunsetDuration ≤ 2) :
    ((gameHour ≤ m.mNightEnd ∨ gameHour ≥ m.mNightStart + 1) ∨
      (gameHour ≥ m.mNightEnd ∧ gameHour ≤ m.mDayStart + 1) ∨
      (gameHour ≥ m.mDayStart + 1 ∧ gameHour ≤ m.mDayEnd - 1) ∨
      (gameHour ≥ m.mDayEnd - 1 ∧ gameHour ≤ m.mNightStart + 1)) ∧
    ∃ (a b : DayPhase) (f : ℚ), 0 ≤ f ∧ f ≤ 1 ∧
      blendOfPhases (m.calculateResultFor prev w gameHour) w a b f := by
  obtain ⟨pN, pR, pD, pS⟩ := calculateResultFor_phases m prev w gameHour
  by_cases hN : gameHour ≤ m.mNightEnd ∨ gameHour ≥ m.mNightStart + 1
  · exact ⟨Or.inl hN, DayPhase.night, DayPhase.night, 0, le_refl _, zero_le_one, pN hN⟩
  · have hN' := hN
    simp only [not_or, not_le, ge_iff_le] at hN'
    obtain ⟨hn1, hn2⟩ := hN'
    by_cases hR : gameHour ≥ m.mNightEnd ∧ gameHour ≤ m.mDayStart + 1
    · refine ⟨Or.inr (Or.inl hR), ?_⟩
      by_cases hin : gameHour ≤ m.mSunriseTime
      · refine ⟨DayPhase.sunrise, DayPhase.night, _, ?_, ?_, (pR hN hR).1 hin⟩
        · exact div_nonneg (by linarith) (by norm_num)
        · rw [div_le_one (by norm_num)]
          linarith
      · refine ⟨DayPhase.sunrise, DayPhase.day, _, ?_, ?_, (pR hN hR).2 hin⟩
        · exact div_nonneg (by linarith [not_le.mp hin]) (by norm_num)
        · rw [div_le_one (by norm_num)]
          linarith [hR.2]
    · by_cases hD : gameHour ≥ m.mDayStart + 1 ∧ gameHour ≤ m.mDayEnd - 1
      · exact ⟨Or.inr (Or.inr (Or.inl hD)), DayPhase.day, DayPhase.day, 0, le_refl _,
          zero_le_one, pD hN hR hD⟩
      · have hS := sunset_of_not_others m gameHour hN hR hD
        refine ⟨Or.inr (Or.inr (Or.inr hS)), ?_⟩
        by_cases hin : gameHour ≤ m.mDayEnd + 1
        · refine ⟨DayPhase.sunset, DayPhase.day, _, ?_, ?_, (pS hN hR hD).1 hin⟩
          · exact div_nonneg (by linarith) (by norm_num)
          · rw [div_le_one (by norm_num)]
            linarith [hS.1]
        · refine ⟨DayPhase.sunset, DayPhase.night, _, ?_, ?_, (pS hN hR hD).2 hin⟩
          · exact div_nonneg (by linarith [not_le.mp hin]) (by norm_num)
          · rw [div_le_one (by norm_num)]
            linarith [hS.2]

/-- Witness of C40: sunrise at 6 and sunset at 18, both lasting 2 hours; at hour 7 the
sunrise branch blends the sunrise and the day colours with the factor `(7 - 6) / 3`. -/
theorem c40_day_phases_convex_witness :
    (∃ (a b : DayPhase) (f : ℚ), 0 ≤ f ∧ f ≤ 1 ∧
      blendOfPhases ((engine 1 false 0 0 invalidWeatherID invalidWeatherID).calculateResultFor
        (flatResult 0) (flatProfile 3 "rain") 7) (flatProfile 3 "rain") a b f) ∧
    blendOfPhases ((engine 1 false 0 0 invalidWeatherID invalidWeatherID).calculateResultFor
        (flatResult 0) (flatProfile 3 "rain") 7) (flatProfile 3 "rain")
      DayPhase.sunrise DayPhase.day ((7 - 6) / 3) := by
  refine ⟨(c40_day_phases_convex (engine 1 false 0 0 invalidWeatherID invalidWeatherID)
    (flatResult 0) (flatProfile 3 "rain") 7 rfl rfl rfl rfl
    (by norm_num [engine, engineOver]) (by norm_num [engine, engineOver])).2, ?_⟩
  exact ((calculateResultFor_phases (engine 1 false 0 0 invalidWeatherID invalidWeatherID)
    (flatResult 0) (flatProfile 3 "rain") 7).2.1
    (by norm_num [engine, engineOver]) (by norm_num [engine, engineOver])).2
    (by norm_num [engine, engineOver])

end MWWorld
